import Mathlib

/-!
# sqlite3-dbf: a shallow embedding of the DBF to SQL converter

The definitions below follow `sqlite3-dbf.h` and `sqlite3-dbf.c`.  Bytes are
natural numbers (character codes); a `char *` is the list of bytes readable
from the pointer onwards, so pointer arithmetic `p + k` is `List.drop k`.  The
readers of a fixed number of bytes take a byte past the end of the modelled
memory as NUL; `safeprintbuf`, `strchr` and the memo lookup, which can be sent
far beyond it by the data, treat the end of the list as the end of the
readable memory.  Standard output is recorded as the list of things printed,
one entry per `printf` site.  The embedding is of the build without
`WORDS_BIGENDIAN` on a platform with 32-bit `int`, 64-bit `size_t`, signed
`char`, pages of 4096 bytes, and memory fresh from `malloc` that reads as
zero.
-/

namespace Sqlite3Dbf

/-- The bytes of a string constant of the source. -/
def str (s : String) : List Nat := s.toList.map Char.toNat

/-! ## Machine integers -/

/-- Conversion of an integer to `int16_t` (two's complement, 16 bits). -/
def toInt16 (n : Int) : Int := (n + 32768) % 65536 - 32768

/-- Conversion of an integer to `int32_t` (two's complement, 32 bits). -/
def toInt32 (n : Int) : Int := (n + 2147483648) % 4294967296 - 2147483648

/-- Conversion of an integer to `int64_t` (two's complement, 64 bits). -/
def toInt64 (n : Int) : Int :=
  (n + 9223372036854775808) % 18446744073709551616 - 9223372036854775808

/-- Conversion of an integer to `unsigned int` (32 bits). -/
def toUInt32 (n : Int) : Nat := (n % 4294967296).toNat

/-- Conversion of an integer to `size_t` (64 bits). -/
def toSizeT (n : Int) : Nat := (n % 18446744073709551616).toNat

/-! ## sqlite3-dbf.h: `safeprintbuf` -/

/-- What `printf("%s", p)` prints: the bytes at `p` up to the first NUL. -/
def cstring (p : List Nat) : List Nat := p.takeWhile (fun b => b != 0)

/-- The loop `for(s = buf + inputsize - 1; s >= buf; s--)` of `safeprintbuf`,
looking for the rightmost byte that is neither a space nor NUL.  The argument
counts the positions still to visit; `none` is the exit with `s < buf`.
(`safeprintbuf` enters it only when the byte at `buf + inputsize - 1` is
readable, so no position it visits lies outside the memory at `buf`.) -/
def scanRight (buf : List Nat) : Nat → Option Nat
  | 0 => none
  | k + 1 =>
    if buf.getD k 0 != 32 && buf.getD k 0 != 0 then some k
    else scanRight buf k

/-- The `switch(*s)` of `safeprintbuf`: the bytes stored in the target buffer
for one input byte. -/
def escapeByte (c : Nat) : List Nat :=
  if c = 92 then [92, 92]
  else if c = 10 then [92, 110]
  else if c = 13 then [92, 114]
  else if c = 9 then [92, 116]
  else [c]

/-- The loop `for(s = buf; s <= lastchar; s++)` of `safeprintbuf`. -/
def escapeLoop : List Nat → List Nat
  | [] => []
  | c :: s => escapeByte c ++ escapeLoop s

/-- The constant `STATICBUFFERSIZE`. -/
def STATICBUFFERSIZE : Int := 1024 * 1024

/-- The value of `realsize` in `safeprintbuf`: `s - buf + 1` stored in an
`int`, for `lastchar` pointing at offset `lastchar` of `buf`. -/
def realsize (lastchar : Nat) : Int := toInt32 ((lastchar : Int) + 1)

/-- The size in bytes of the buffer `safeprintbuf` selects as `targetbuf`:
`staticbuf`, declared with `STATICBUFFERSIZE + 1` bytes, when
`realsize * 2 < STATICBUFFERSIZE`, otherwise the result of
`malloc(realsize * 2 + 1)`.  The product and the sum are `int` arithmetic; a
result that does not fit an `int` is taken modulo 2^32, as the compilers of
the modelled platform compute it. -/
def targetbufSize (realsize : Int) : Nat :=
  if toInt32 (realsize * 2) < STATICBUFFERSIZE then (STATICBUFFERSIZE + 1).toNat
  else toSizeT (toInt32 (toInt32 (realsize * 2) + 1))

/-- The bytes `safeprintbuf` stores through `t` into the target buffer: the
escaped bytes of `buf[0 .. lastchar]` and the terminating NUL. -/
def targetbufStored (buf : List Nat) (lastchar : Nat) : List Nat :=
  escapeLoop (buf.take (lastchar + 1)) ++ [0]

/-- The function `safeprintbuf(buf, inputsize)`: the bytes it prints, or
`none` when the call leaves the memory it may use.  `buf` is the memory
readable at the pointer, `inputsize` the declared length.  The first byte is
read; the scan from the right starts with the byte at `buf + inputsize - 1`,
which must be readable; the two early returns print two quotes.  Otherwise
`realsize` is computed as an `int`, the target buffer is selected by it, the
escaped bytes and a NUL are stored there, which must fit, and the buffer is
printed between quotes with `%s`.  (`malloc` is taken to succeed.) -/
def safeprintbuf (buf : List Nat) (inputsize : Nat) : Option (List Nat) :=
  match buf with
  | [] => none
  | first :: _ =>
    if first = 0 then some [39, 39]
    else
      match buf.drop (inputsize - 1) with
      | [] => none
      | _ :: _ =>
        match scanRight buf inputsize with
        | none => some [39, 39]
        | some lastchar =>
          if targetbufSize (realsize lastchar) < (targetbufStored buf lastchar).length then none
          else some ([39] ++ cstring (targetbufStored buf lastchar) ++ [39])

/-! ## The text encoder as the specification words it -/

/-- A byte that the specification trims from the right: space or NUL. -/
def isBlank (b : Nat) : Bool := b == 32 || b == 0

/-- The text with all trailing space and NUL bytes removed. -/
def trimRight (x : List Nat) : List Nat := x.rdropWhile isBlank

/-- The escape table of the specification: backslash, LF, CR and TAB become a
backslash followed by a backslash, `n`, `r` and `t`; any other byte is kept. -/
def specEscape (b : Nat) : List Nat :=
  if b = 92 then [92, 92]
  else if b = 10 then [92, 110]
  else if b = 13 then [92, 114]
  else if b = 9 then [92, 116]
  else [b]

/-- The literal the specification asks for: two quotes for the empty text,
otherwise the escaped bytes between single quotes. -/
def specLiteral (x : List Nat) : List Nat :=
  if x = [] then [39, 39] else [39] ++ x.flatMap specEscape ++ [39]

/-- The inverse mapping of the specification, read left to right: backslash
backslash is a backslash, backslash `n` is LF, backslash `r` is CR, backslash
`t` is TAB; every other byte stands for itself. -/
def unescape : List Nat → List Nat
  | [] => []
  | [c] => [c]
  | c :: d :: s =>
    if c = 92 ∧ d = 92 then 92 :: unescape s
    else if c = 92 ∧ d = 110 then 10 :: unescape s
    else if c = 92 ∧ d = 114 then 13 :: unescape s
    else if c = 92 ∧ d = 116 then 9 :: unescape s
    else c :: unescape (d :: s)

/-- The text between the opening and the closing quote of a literal. -/
def stripQuotes (lit : List Nat) : List Nat := (lit.drop 1).dropLast

/-! ## sqlite3-dbf.h: the endian-specific readers -/

/-- A `char` read as a number: `char` is signed. -/
def schar (b : Nat) : Int :=
  if b % 256 < 128 then ((b % 256 : Nat) : Int) else ((b % 256 : Nat) : Int) - 256

/-- The function `nativeint16_t`: its parameter and its result are `int16_t`. -/
def nativeint16_t (rightend : Int) : Int := toInt16 rightend

/-- The function `nativeint32_t`: its parameter and its result are `int32_t`. -/
def nativeint32_t (rightend : Int) : Int := toInt32 rightend

/-- The function `swappedint16_t`, on the 32-bit pattern of the promoted
argument. -/
def swappedint16_t (wrongend : Int) : Int :=
  let w := toUInt32 (toInt16 wrongend)
  toInt16 ((((w &&& 0xff00) >>> 8) ||| ((w &&& 0x00ff) <<< 8) : Nat) : Int)

/-- The function `swappedint32_t`, on the 32-bit pattern of its argument. -/
def swappedint32_t (wrongend : Int) : Int :=
  let w := toUInt32 (toInt32 wrongend)
  toInt32 (((((w &&& 0xff000000) >>> 24) ||| ((w &&& 0x00ff0000) >>> 8) |||
    ((w &&& 0x0000ff00) <<< 8) ||| ((w &&& 0x000000ff) <<< 24)) % 4294967296 : Nat) : Int)

/-- The macro `littleint16_t` of the build without `WORDS_BIGENDIAN`. -/
def littleint16_t (v : Int) : Int := nativeint16_t v

/-- The macro `littleint32_t` of the build without `WORDS_BIGENDIAN`. -/
def littleint32_t (v : Int) : Int := nativeint32_t v

/-- The function `snativeint16_t`: `memcpy` of 2 bytes into an `int16_t`. -/
def snativeint16_t (buf : List Nat) : Int :=
  toInt16 ((buf.getD 0 0 + 256 * buf.getD 1 0 : Nat) : Int)

/-- The function `sswappedint16_t`. -/
def sswappedint16_t (buf : List Nat) : Int := swappedint16_t (snativeint16_t buf)

/-- The function `snativeint32_t`: `memcpy` of 4 bytes into an `int32_t`. -/
def snativeint32_t (buf : List Nat) : Int :=
  toInt32 ((buf.getD 0 0 + 256 * buf.getD 1 0 + 65536 * buf.getD 2 0
    + 16777216 * buf.getD 3 0 : Nat) : Int)

/-- The function `sswappedint32_t`. -/
def sswappedint32_t (buf : List Nat) : Int := swappedint32_t (snativeint32_t buf)

/-- The function `snativeint64_t`: `memcpy` of 8 bytes into an `int64_t`. -/
def snativeint64_t (buf : List Nat) : Int :=
  toInt64 ((buf.getD 0 0 + 256 * buf.getD 1 0 + 65536 * buf.getD 2 0
    + 16777216 * buf.getD 3 0 + 4294967296 * buf.getD 4 0
    + 1099511627776 * buf.getD 5 0 + 281474976710656 * buf.getD 6 0
    + 72057594037927936 * buf.getD 7 0 : Nat) : Int)

/-- The macro `sbigint16_t` of the build without `WORDS_BIGENDIAN`. -/
def sbigint16_t (buf : List Nat) : Int := sswappedint16_t buf

/-- The macro `sbigint32_t` of the build without `WORDS_BIGENDIAN`. -/
def sbigint32_t (buf : List Nat) : Int := sswappedint32_t buf

/-- The macro `slittleint32_t` of the build without `WORDS_BIGENDIAN`. -/
def slittleint32_t (buf : List Nat) : Int := snativeint32_t buf

/-- The macro `slittleint64_t` of the build without `WORDS_BIGENDIAN`. -/
def slittleint64_t (buf : List Nat) : Int := snativeint64_t buf

/-! ## Number formatting of `printf` -/

/-- The decimal digits of a natural number. -/
def decimal (n : Nat) : List Nat := (Nat.toDigits 10 n).map Char.toNat

/-- The conversion `%d`. -/
def printfD (v : Int) : List Nat :=
  if v < 0 then 45 :: decimal v.natAbs else decimal v.natAbs

/-- The conversions `%02d` and `%05jd`: zeros between the sign and the digits
up to a total width of `width`. -/
def printfZero (width : Nat) (v : Int) : List Nat :=
  let digits := decimal v.natAbs
  if v < 0 then 45 :: (List.replicate (width - 1 - digits.length) 48 ++ digits)
  else List.replicate (width - digits.length) 48 ++ digits

/-- The function `tolower` in the C locale. -/
def tolower (c : Nat) : Nat := if 65 ≤ c ∧ c ≤ 90 then c + 32 else c

/-- The function `isalnum` in the C locale. -/
def isalnum (c : Nat) : Bool :=
  (48 ≤ c && c ≤ 57) || (65 ≤ c && c ≤ 90) || (97 ≤ c && c ≤ 122)

/-! ## sqlite3-dbf.h: the file structures -/

/-- The constant `NUMERICMEMOSTYLE`. -/
def NUMERICMEMOSTYLE : Nat := 0

/-- The constant `PACKEDMEMOSTYLE`. -/
def PACKEDMEMOSTYLE : Nat := 1

/-- The fields of `DBFHEADER` that the program uses, as stored in the file:
`recordcount` is a `uint32_t`, `headerlength` and `recordlength` are
`uint16_t`. -/
structure DBFHEADER where
  signature : Nat
  recordcount : Nat
  headerlength : Nat
  recordlength : Nat
  deriving DecidableEq

/-- The fields of `DBFFIELD` that the program uses: the member `name` as the
pointer the program reads it through, that is the bytes of the field array
from the first byte of the name on, then the type character, the length and
the decimal count. -/
structure DBFFIELD where
  name : List Nat
  type : Nat
  length : Nat
  decimals : Nat
  deriving DecidableEq

/-- The 32 bytes `fread` stores into a `DBFHEADER`. -/
def readHeader (file : List Nat) : DBFHEADER :=
  { signature := file.getD 0 0
    recordcount := file.getD 4 0 + 256 * file.getD 5 0 + 65536 * file.getD 6 0
      + 16777216 * file.getD 7 0
    headerlength := file.getD 8 0 + 256 * file.getD 9 0
    recordlength := file.getD 10 0 + 256 * file.getD 11 0 }

/-- One `DBFFIELD` of the array `fields`, for the bytes `d` of the array from
this descriptor on. -/
def readField (d : List Nat) : DBFFIELD :=
  { name := d, type := d.getD 11 0, length := d.getD 16 0, decimals := d.getD 17 0 }

/-- The array `fields` after `fread(fields, dbffieldsize, fieldcount, dbffile)`:
`fieldcount` descriptors of 32 bytes each. -/
def readFields (d : List Nat) : Nat → List DBFFIELD
  | 0 => []
  | n + 1 => readField d :: readFields (d.drop 32) n

/-! ## sqlite3-dbf.c: what the program prints and how it ends -/

/-- The messages with which the program exits with `EXIT_FAILURE`. -/
inductive Err where
  /-- Message "Unable to read the entire DBF header" -/
  | headerRead
  /-- Message "The field array size is not an even multiple of the database field size" -/
  | fieldArraySize
  /-- Message "Unable to malloc the field descriptions" -/
  | mallocFields
  /-- Message "Unable to read all of the field descriptions" -/
  | fieldsRead
  /-- Message "Unable to read the terminator byte" -/
  | terminatorRead
  /-- Message "Invalid terminator byte" -/
  | invalidTerminator
  /-- Message "At an unexpected offset in the DBF file" -/
  | unexpectedOffset
  /-- Message "Unable to mmap the memofile" -/
  | mmapMemo
  /-- Message "Table %s has memo fields, but couldn't open the related memo file" -/
  | noMemoFile
  /-- Message "Unknown memo record number style" -/
  | unknownMemoStyle
  /-- Message "Unhandled field type: %c" -/
  | unhandledFieldType (type : Nat)
  /-- Message "Unable to read an entire record" -/
  | shortRecord
  deriving DecidableEq

/-- How a run ends: `return 0` from `main`, an `exit(EXIT_FAILURE)` with its
message, or a step whose behaviour C leaves undefined (a division by zero, a
read outside the readable memory, a store past the end of a buffer). -/
inductive Exit where
  | success
  | failure (message : Err)
  | crash
  deriving DecidableEq

/-- One entry of standard output per `printf` site of `main`. -/
inductive Out where
  /-- Printed by `printf("BEGIN;\n")` -/
  | begin
  /-- Printed by `printf("DROP TABLE IF EXISTS"); printf(" %s;\n", tablename)` -/
  | dropTable (tablename : List Nat)
  /-- Printed by `printf("CREATE TABLE %s (", tablename)` -/
  | createOpen (tablename : List Nat)
  /-- Printed by `printf(", ")` between two columns -/
  | colSep
  /-- Printed by `printf("\"%s\" ", fieldname)` -/
  | colName (fieldname : List Nat)
  /-- The SQL type printed by the `switch` of the schema loop -/
  | colType (text : List Nat)
  /-- Printed by `printf("\n")` before a failure inside the schema loop -/
  | newline
  /-- Printed by `printf(");\n")` closing `CREATE TABLE` -/
  | createClose
  /-- Printed by `printf("INSERT INTO %s VALUES(", tablename)` -/
  | insertOpen (tablename : List Nat)
  /-- Printed by `printf(",")` between two values -/
  | valSep
  /-- The value printed by the `switch` of the record loop -/
  | value (text : List Nat)
  /-- Printed by `printf(");\n")` closing `INSERT` -/
  | insertClose
  /-- Printed by `printf("COMMIT;\n")` -/
  | commit
  /-- The `CREATE INDEX` line of one index column: the sanitised identifier
  and the column as given -/
  | createIndex (tablename ident column : List Nat)
  deriving DecidableEq

/-- The bytes written to standard output for one entry. -/
def Out.render : Out → List Nat
  | .begin => str "BEGIN;\n"
  | .dropTable t => str "DROP TABLE IF EXISTS" ++ str " " ++ cstring t ++ str ";\n"
  | .createOpen t => str "CREATE TABLE " ++ cstring t ++ str " ("
  | .colSep => str ", "
  | .colName n => [34] ++ cstring n ++ [34, 32]
  | .colType t => t
  | .newline => [10]
  | .createClose => str ");\n"
  | .insertOpen t => str "INSERT INTO " ++ cstring t ++ str " VALUES("
  | .valSep => str ","
  | .value v => v
  | .insertClose => str ");\n"
  | .commit => str "COMMIT;\n"
  | .createIndex t i c =>
    str "CREATE INDEX " ++ cstring t ++ str "_" ++ i ++ str " ON " ++ cstring t
      ++ str "(" ++ cstring c ++ str ");\n"

/-- The output of a part of the program together with the way the program
ended inside it, `none` when control leaves the part normally. -/
abbrev Trace := List Out × Option Exit

/-- Sequencing: the second part runs only when the first did not end the
program. -/
def Trace.andThen (a b : Trace) : Trace :=
  match a.2 with
  | some e => (a.1, some e)
  | none => (a.1 ++ b.1, b.2)

/-- What a call of `safeprintbuf` adds to the trace: the value it prints, or
the end of the run when it leaves the memory it may use. -/
def printValue (literal : Option (List Nat)) : Trace :=
  match literal with
  | some v => ([.value v], none)
  | none => ([], some .crash)

/-- The result of a whole run. -/
structure Run where
  out : List Out
  exit : Exit
  deriving DecidableEq

/-- What the loops of `main` read but do not change: the table name, the
memory mapped for the memo file (`none` when no `-m` option was given), the
signature byte of
the header, the memo block size, and the rendering of a `double` by
`printf("%.<decimals>lf", sdouble(p))` as a function of the decimal count and
of the 8 bytes at `p`. -/
structure Env where
  tablename : List Nat
  memomap : Option (List Nat)
  signature : Nat
  memoblocksize : Nat
  fmtDouble : Nat → List Nat → List Nat

/-! ## sqlite3-dbf.c: the `CREATE TABLE` loop -/

/-- The lower-cased copy of the field name made by the loop
`while(*s) *t++ = tolower(*s++)` of the schema loop: it stops at the first
NUL at or after the first byte of the name, so a name that fills its 11 bytes
is followed by the type character and the members after it.  (The copy goes
to `fieldname[11]`; what more than 10 characters and the NUL overwrite behind
that array is not modelled.) -/
def fieldname (f : DBFFIELD) : List Nat := (cstring f.name).map tolower

/-- The `switch(fields[fieldnum].type)` of the schema loop. -/
def columnType (env : Env) (f : DBFFIELD) : Trace :=
  if f.type = 66 then ([.colType (str "FLOAT")], none)
  else if f.type = 67 then ([.colType (str "TEXT(" ++ decimal f.length ++ str ")")], none)
  else if f.type = 68 then ([.colType (str "DATE")], none)
  else if f.type = 70 then ([.colType (str "NUMERIC(" ++ decimal f.decimals ++ str ")")], none)
  else if f.type = 71 then ([.colType (str "BLOB")], none)
  else if f.type = 73 then ([.colType (str "INTEGER")], none)
  else if f.type = 76 then ([.colType (str "BOOLEAN")], none)
  else if f.type = 77 then
    if env.memomap = none then ([.newline], some (.failure .noMemoFile))
    else if f.length = 4 then ([.colType (str "TEXT")], none)
    else if f.length = 10 then ([.colType (str "TEXT")], none)
    else ([.colType (str "TEXT")], some (.failure .unknownMemoStyle))
  else if f.type = 78 then
    ([.colType (str "NUMERIC(" ++ decimal f.length ++ str ", " ++ decimal f.decimals
      ++ str ")")], none)
  else if f.type = 84 then ([.colType (str "TIMESTAMP")], none)
  else if f.type = 89 then ([.colType (str "DECIMAL(4)")], none)
  else ([.newline], some (.failure (.unhandledFieldType f.type)))

/-- The loop `for(fieldnum = 0; fieldnum < fieldcount; fieldnum++)` that
prints the columns of `CREATE TABLE`; the flag is `printed`. -/
def schemaLoop (env : Env) : List DBFFIELD → Bool → Trace
  | [], _ => ([], none)
  | f :: fs, printed =>
    if f.type = 48 then schemaLoop env fs printed
    else
      Trace.andThen ((if printed then [.colSep] else []) ++ [.colName (fieldname f)], none)
        (Trace.andThen (columnType env f) (schemaLoop env fs true))

/-- The value `pgfields[fieldnum].memonumbering` the schema loop stores for a
memo field it accepts. -/
def memonumbering (f : DBFFIELD) : Nat :=
  if f.length = 4 then PACKEDMEMOSTYLE else NUMERICMEMOSTYLE

/-! ## sqlite3-dbf.c: the values of one record -/

/-- The function `strchr(p, c)` as the offset of the match; `none` is the null
pointer, returned when the terminating NUL comes first.  A search that meets
neither byte inside the readable memory also gives `none` here; it starts at
a byte that is not NUL, so the lookup that follows ends the run. -/
def strchr : List Nat → Nat → Option Nat
  | [], _ => none
  | b :: p, c =>
    if b = c then some 0
    else if b = 0 then none
    else (strchr p c).map (fun k => k + 1)

/-- The loop `for(i = 0; i < 10; i++)` that reads a memo block number written
in ASCII: the first argument counts the bytes still to visit. -/
def memoNumberLoop : Nat → List Nat → Int → Int
  | 0, _, memoblocknumber => memoblocknumber
  | i + 1, s, memoblocknumber =>
    memoNumberLoop i (s.drop 1)
      (if s.getD 0 0 ≠ 32 then toInt32 (memoblocknumber * 10 + schar (s.getD 0 0) - 48)
       else memoblocknumber)

/-- The value of `memoblocknumber` that `case 'M'` computes from the bytes of
the field: `slittleint32_t` for the packed style, the loop over ten ASCII
bytes otherwise. -/
def memoBlockNumber (f : DBFFIELD) (bufoffset : List Nat) : Int :=
  if memonumbering f = PACKEDMEMOSTYLE then slittleint32_t bufoffset
  else memoNumberLoop 10 bufoffset 0

/-- The lookup that `case 'M'` makes once `memorecord` points at the block:
`strchr` and `safeprintbuf` up to the byte 0x1A for signature 0x83, otherwise
`safeprintbuf(memorecord + 8, sbigint32_t(memorecord + 4))`.  When `strchr`
returns the null pointer the length passed on is the difference of the null
pointer and `memorecord`: `safeprintbuf` still returns at once on a first
byte NUL, and otherwise starts its scan outside every mapping. -/
def memoLookup (env : Env) (memorecord : List Nat) : Trace :=
  if env.signature = 0x83 then
    match strchr memorecord 0x1A with
    | some t => printValue (safeprintbuf memorecord t)
    | none =>
      if memorecord.getD 0 0 = 0 then ([.value [39, 39]], none)
      else ([], some .crash)
  else
    printValue (safeprintbuf (memorecord.drop 8) (toSizeT (sbigint32_t (memorecord.drop 4))))

/-- The `case 'M'` of the record loop from `if(memoblocknumber)` on: nothing
for block number 0, otherwise the lookup at `memomap + memoblocksize *
memoblocknumber`, which must lie inside the mapping. -/
def memoAt (env : Env) (memoblocknumber : Int) : Trace :=
  if memoblocknumber = 0 then ([], none)
  else
    match env.memomap with
    | none => ([], some .crash)
    | some memomap =>
      match memomap.drop
          ((env.memoblocksize * toSizeT memoblocknumber) % 18446744073709551616) with
      | [] => ([], some .crash)
      | b :: memorecord => memoLookup env (b :: memorecord)

/-- The `case 'M'` of the record loop. -/
def memoValue (env : Env) (f : DBFFIELD) (bufoffset : List Nat) : Trace :=
  memoAt env (memoBlockNumber f bufoffset)

/-- The `case 'T'` of the record loop. -/
def timestampValue (bufoffset : List Nat) : List Nat :=
  let juliandays := slittleint32_t bufoffset
  let seconds := Int.tdiv (toInt32 (slittleint32_t (bufoffset.drop 4) + 1)) 1000
  if juliandays = 0 ∧ seconds = 0 then str "NULL"
  else
    let hours := Int.tdiv seconds 3600
    let seconds1 := seconds - hours * 3600
    let minutes := Int.tdiv seconds1 60
    let seconds2 := seconds1 - minutes * 60
    [39, 74] ++ printfD juliandays ++ [32] ++ printfZero 2 hours ++ [58]
      ++ printfZero 2 minutes ++ [58] ++ printfZero 2 seconds2 ++ [39]

/-- The `case 'Y'` of the record loop: the point is stored four places from
the end of what `sprintf("%05jd")` wrote. -/
def currencyValue (bufoffset : List Nat) : List Nat :=
  let digits := printfZero 5 (slittleint64_t bufoffset)
  digits.take (digits.length - 4) ++ [46] ++ digits.drop (digits.length - 4)

/-- The `case 'D'` of the record loop: the characters are stored in
`outputbuffer` and printed with `%s`, which stops at the first NUL.  (The
buffer has `longestfield + 1` bytes, at least 33, which hold the 11 bytes of
a date.) -/
def dateValue (bufoffset : List Nat) : List Nat :=
  if bufoffset.getD 0 0 = 32 ∨ bufoffset.getD 0 0 = 0 then str "NULL"
  else
    [39] ++ cstring [bufoffset.getD 0 0, bufoffset.getD 1 0, bufoffset.getD 2 0,
      bufoffset.getD 3 0, 45, bufoffset.getD 4 0, bufoffset.getD 5 0, 45,
      bufoffset.getD 6 0, bufoffset.getD 7 0, 0] ++ [39]

/-- The `case 'F'` and `case 'N'` of the record loop: `strncpy`, the NUL stored
at `outputbuffer[length]`, the leading spaces skipped. -/
def numericValue (f : DBFFIELD) (bufoffset : List Nat) : List Nat :=
  let outputbuffer := cstring (bufoffset.take f.length)
  let s := outputbuffer.dropWhile (fun b => b == 32)
  if s = [] then str "NULL" else s

/-- The `switch(fields[fieldnum].type)` of the record loop. -/
def fieldValue (env : Env) (f : DBFFIELD) (bufoffset : List Nat) : Trace :=
  if f.type = 66 then ([.value (env.fmtDouble f.decimals (bufoffset.take 8))], none)
  else if f.type = 67 then printValue (safeprintbuf bufoffset f.length)
  else if f.type = 68 then ([.value (dateValue bufoffset)], none)
  else if f.type = 71 then ([], none)
  else if f.type = 73 then
    ([.value ([39] ++ printfD (slittleint32_t bufoffset) ++ [39])], none)
  else if f.type = 76 then
    ([.value (if bufoffset.getD 0 0 = 89 ∨ bufoffset.getD 0 0 = 84 then str "1"
      else str "0")], none)
  else if f.type = 77 then memoValue env f bufoffset
  else if f.type = 70 ∨ f.type = 78 then ([.value (numericValue f bufoffset)], none)
  else if f.type = 84 then ([.value (timestampValue bufoffset)], none)
  else if f.type = 89 then ([.value (currencyValue bufoffset)], none)
  else ([], none)

/-- The loop `for(fieldnum = 0; fieldnum < fieldcount; fieldnum++)` of the
record loop, from field number `fieldnum` on with the cursor at `bufoffset`.
A field of type `'0'` takes the `continue`, which also skips the statement
`bufoffset += fields[fieldnum].length` at the end of the body. -/
def fieldLoop (env : Env) : List DBFFIELD → Nat → List Nat → Trace
  | [], _, _ => ([], none)
  | f :: fs, fieldnum, bufoffset =>
    if f.type = 48 then fieldLoop env fs (fieldnum + 1) bufoffset
    else
      Trace.andThen (if fieldnum ≠ 0 then [.valSep] else [], none)
        (Trace.andThen (fieldValue env f bufoffset)
          (fieldLoop env fs (fieldnum + 1) (bufoffset.drop f.length)))

/-- The body of the batch loop for the record that starts at `bufoffset`. -/
def recordOut (env : Env) (fields : List DBFFIELD) (bufoffset : List Nat) : Trace :=
  if bufoffset.getD 0 0 = 42 then ([], none)
  else
    Trace.andThen ([.insertOpen env.tablename], none)
      (Trace.andThen (fieldLoop env fields 0 (bufoffset.drop 1)) ([.insertClose], none))

/-- The loop `for(batchindex = 0; batchindex < blocksread; batchindex++)`: the
first number counts the records still to visit, the second is `batchindex`.
(The product `recordlength * batchindex` is below `recordlength *
dbfbatchsize`, the size of the buffer, so it does not wrap.) -/
def batchLoop (env : Env) (fields : List DBFFIELD) (recordlength : Nat)
    (inputbuffer : List Nat) : Nat → Nat → Trace
  | 0, _ => ([], none)
  | n + 1, batchindex =>
    Trace.andThen (recordOut env fields (inputbuffer.drop (recordlength * batchindex)))
      (batchLoop env fields recordlength inputbuffer n (batchindex + 1))

/-- The loop `for(recordbase = 0; recordbase < recordcount; recordbase +=
dbfbatchsize)`.  Each turn reads up to `dbfbatchsize` records of `recordlength`
bytes from the rest of the file into `inputbuffer`.  The first argument bounds
the number of turns; `emitScript` passes one more than the number of bytes
left in the file, which no run exhausts. -/
def recordLoop (env : Env) (fields : List DBFFIELD) (recordcount : Int)
    (recordlength dbfbatchsize : Nat) : Nat → Nat → List Nat → List Nat → Trace
  | 0, _, _, _ => ([], some .crash)
  | fuel + 1, recordbase, file, inputbuffer =>
    if recordbase < toUInt32 recordcount then
      let data := file.take (recordlength * dbfbatchsize)
      let blocksread := data.length / recordlength
      let inputbuffer1 := data ++ inputbuffer.drop data.length
      if blocksread ≠ dbfbatchsize ∧ recordbase + blocksread < toSizeT recordcount then
        ([], some (.failure .shortRecord))
      else
        Trace.andThen (batchLoop env fields recordlength inputbuffer1 blocksread 0)
          (recordLoop env fields recordcount recordlength dbfbatchsize fuel
            ((recordbase + dbfbatchsize) % 4294967296)
            (file.drop (recordlength * dbfbatchsize)) inputbuffer1)
    else ([], none)

/-! ## sqlite3-dbf.c: the index statements -/

/-- The loop `for(s = argv[i]; *s; s++)`: the identifier printed for one index
column and the value of `lastcharwasreplaced` it leaves behind. -/
def sanitizeLoop : List Nat → Bool → List Nat × Bool
  | [], lastcharwasreplaced => ([], lastcharwasreplaced)
  | c :: s, lastcharwasreplaced =>
    if c = 0 then ([], lastcharwasreplaced)
    else if isalnum c then
      let r := sanitizeLoop s false
      (c :: r.1, r.2)
    else if !lastcharwasreplaced then
      let r := sanitizeLoop s true
      (95 :: r.1, r.2)
    else sanitizeLoop s true

/-- The loop `for(i = optind + 1; i < argc; i++)` over the index columns. -/
def indexLoop (tablename : List Nat) : List (List Nat) → Bool → List Out
  | [], _ => []
  | arg :: args, lastcharwasreplaced =>
    let r := sanitizeLoop arg lastcharwasreplaced
    .createIndex tablename r.1 arg :: indexLoop tablename args r.2

/-! ## sqlite3-dbf.c: `main` -/

/-- The constant `DBFBATCHTARGET`. -/
def DBFBATCHTARGET : Int := 128 * 1024

/-- The record part of `main`: the batch size, the buffer of `recordlength *
dbfbatchsize` bytes fresh from `malloc`, then the record loop over the bytes of
the file that follow the header.  A record length of zero divides by zero.  A
negative one (a stored length of 32768 or more, read through `littleint16_t`)
makes `fread` ask for elements of `(size_t) recordlength` bytes, more than any
file holds: no element is read, `blocksread` is 0 and the run fails in the
test that follows as soon as the loop is entered. -/
def recordsPart (env : Env) (hdr : DBFHEADER) (fields : List DBFFIELD)
    (data : List Nat) : Trace :=
  let recordlength := littleint16_t hdr.recordlength
  if recordlength = 0 then ([], some .crash)
  else
    let dbfbatchsize0 := toUInt32 (Int.tdiv DBFBATCHTARGET recordlength)
    let dbfbatchsize := if dbfbatchsize0 = 0 then 1 else dbfbatchsize0
    let recordcount := littleint32_t hdr.recordcount
    if recordlength < 0 ∧ 0 < toUInt32 recordcount then ([], some (.failure .shortRecord))
    else
      recordLoop env fields recordcount recordlength.toNat dbfbatchsize
        (data.length + 1) 0 data (List.replicate (recordlength.toNat * dbfbatchsize) 0)

/-- The part of `main` from `printf("BEGIN;\n")` to `return 0`, for a decoded
header and field array, the bytes of the file after the header, and the index
columns of the command line. -/
def emitScript (env : Env) (hdr : DBFHEADER) (fields : List DBFFIELD)
    (data : List Nat) (indexcolumns : List (List Nat)) : Run :=
  let t :=
    Trace.andThen ([.begin, .dropTable env.tablename, .createOpen env.tablename], none)
      (Trace.andThen (schemaLoop env fields false)
        (Trace.andThen ([.createClose], none)
          (Trace.andThen (recordsPart env hdr fields data)
            (.commit :: indexLoop env.tablename indexcolumns false, none))))
  { out := t.1, exit := t.2.getD .success }

/-- The value of `skipbytes` before the field array is sized. -/
def initialSkipbytes (signature : Nat) : Int := if signature = 0x30 then 263 else 0

/-- The sizes `main` derives from the header: `skipbytes`, `fieldarraysize`
and `fieldcount`. -/
structure Layout where
  skipbytes : Int
  fieldarraysize : Int
  fieldcount : Nat
  deriving DecidableEq

/-- The computation of `fieldarraysize` and `fieldcount`.  The subtraction
`littleint16_t(headerlength) - sizeof(dbfheader) - skipbytes - 1` is done in
`size_t` and stored in an `int`; `fieldarraysize % dbffieldsize` and
`fieldarraysize / dbffieldsize` are done in `size_t` again. -/
def fieldLayout (hdr : DBFHEADER) : Except Err Layout :=
  let skipbytes := initialSkipbytes hdr.signature
  let dbffieldsize : Nat := 32
  let fieldarraysize :=
    toInt32 (toSizeT (littleint16_t hdr.headerlength - 32 - skipbytes - 1))
  if toSizeT fieldarraysize % dbffieldsize = 1 then
    .ok { skipbytes := skipbytes + 1, fieldarraysize := fieldarraysize - 1,
          fieldcount := toSizeT (fieldarraysize - 1) / dbffieldsize }
  else if toSizeT fieldarraysize % dbffieldsize ≠ 0 then .error .fieldArraySize
  else
    .ok { skipbytes := skipbytes, fieldarraysize := fieldarraysize,
          fieldcount := toSizeT fieldarraysize / dbffieldsize }

/-- The size of a page of memory. -/
def PAGESIZE : Nat := 4096

/-- The memory that `mmap(NULL, st_size, PROT_READ, MAP_PRIVATE, memofd, 0)`
makes readable at `memomap`: the bytes of the file, followed by zeros up to
the end of the last page. -/
def mmapBytes (memofile : List Nat) : List Nat :=
  memofile ++ List.replicate ((PAGESIZE - memofile.length % PAGESIZE) % PAGESIZE) 0

/-- The value of `memoblocksize` after the memo file has been mapped: 512 for
signature 0x83, otherwise `sbigint16_t` of the `blocksize` member of
`MEMOHEADER`, which follows `nextblock[4]` and `reserved1[2]`. -/
def memoBlockSize (signature : Nat) (memomap : Option (List Nat)) : Nat :=
  match memomap with
  | none => 0
  | some m => if signature = 0x83 then 512 else toSizeT (sbigint16_t (m.drop 6))

/-- The part of `main` from `fread(&dbfheader, ...)` to the check of the file
offset: the header, the field array and the bytes of the file that follow the
header, or the message of the failure.  Failures of `fopen` and of `malloc`
for a size the header can really describe are left out; a negative
`fieldarraysize` is a size no `malloc` grants. -/
def decodeSchema (file : List Nat) : Except Err (DBFHEADER × List DBFFIELD × List Nat) :=
  if file.length < 32 then .error .headerRead
  else
    let hdr := readHeader file
    match fieldLayout hdr with
    | .error e => .error e
    | .ok layout =>
      if layout.fieldarraysize < 0 then .error .mallocFields
      else if file.length < 32 + 32 * layout.fieldcount then .error .fieldsRead
      else
        let fields :=
          readFields ((file.drop 32).take (32 * layout.fieldcount)) layout.fieldcount
        if file.length < 32 + 32 * layout.fieldcount + 1 then .error .terminatorRead
        else if file.getD (32 + 32 * layout.fieldcount) 0 ≠ 13 then .error .invalidTerminator
        else
          let offset : Int := 32 + 32 * layout.fieldcount + 1 + layout.skipbytes
          if offset ≠ littleint16_t hdr.headerlength then .error .unexpectedOffset
          else .ok (hdr, fields, file.drop offset.toNat)

/-- What `main` has set up when it prints `BEGIN`: the table name, the memory
mapped for the memo file, the signature of the header and the memo block size
read through that mapping. -/
def mainEnv (fmtDouble : Nat → List Nat → List Nat) (tablename : List Nat)
    (memofile : Option (List Nat)) (signature : Nat) : Env :=
  { tablename := tablename, memomap := memofile.map mmapBytes, signature := signature,
    memoblocksize := memoBlockSize signature (memofile.map mmapBytes),
    fmtDouble := fmtDouble }

/-- The program from the opening of the DBF file on: `file` holds the bytes of
the DBF file, `memofile` those of the memo file when `-m` was given,
`tablename` the name derived from the file name, `indexcolumns` the further
arguments.  An empty memo file cannot be mapped; other failures of `open`,
`fstat` and `mmap` are left out. -/
def run (fmtDouble : Nat → List Nat → List Nat) (tablename : List Nat)
    (memofile : Option (List Nat)) (indexcolumns : List (List Nat))
    (file : List Nat) : Run :=
  match decodeSchema file with
  | .error e => { out := [], exit := .failure e }
  | .ok (hdr, fields, data) =>
    if memofile = some [] then { out := [], exit := .failure .mmapMemo }
    else
      emitScript (mainEnv fmtDouble tablename memofile hdr.signature)
        hdr fields data indexcolumns

/-! ## sqlite3-dbf.h: the 64-bit swap and the two builds -/

/-- Conversion of an integer to `unsigned long long` (64 bits). -/
def toUInt64 (n : Int) : Nat := (n % 18446744073709551616).toNat

/-- The function `nativeint64_t`: its parameter and its result are `int64_t`. -/
def nativeint64_t (rightend : Int) : Int := toInt64 rightend

/-- The function `swappedint64_t`, on the 64-bit pattern of its argument. -/
def swappedint64_t (wrongend : Int) : Int :=
  let w := toUInt64 (toInt64 wrongend)
  toInt64 (((((w &&& 0xff00000000000000) >>> 56) ||| ((w &&& 0x00ff000000000000) >>> 40) |||
    ((w &&& 0x0000ff0000000000) >>> 24) ||| ((w &&& 0x000000ff00000000) >>> 8) |||
    ((w &&& 0x00000000ff000000) <<< 8) ||| ((w &&& 0x0000000000ff0000) <<< 24) |||
    ((w &&& 0x000000000000ff00) <<< 40) ||| ((w &&& 0x00000000000000ff) <<< 56))
      % 18446744073709551616 : Nat) : Int)

/-- The function `sswappedint64_t`. -/
def sswappedint64_t (buf : List Nat) : Int := swappedint64_t (snativeint64_t buf)

/-- The macro `slittleint16_t` of the build without `WORDS_BIGENDIAN`. -/
def slittleint16_t (buf : List Nat) : Int := snativeint16_t buf

/-- The macro `sbigint64_t` of the build without `WORDS_BIGENDIAN`. -/
def sbigint64_t (buf : List Nat) : Int := sswappedint64_t buf

/-- The value `memcpy(&output, buf, 2)` leaves in an `int16_t` on a big-endian
host: the first byte is the most significant one. -/
def memcpy16BigEndianHost (buf : List Nat) : Int :=
  toInt16 ((256 * buf.getD 0 0 + buf.getD 1 0 : Nat) : Int)

/-- The value `memcpy(&output, buf, 4)` leaves in an `int32_t` on a big-endian
host. -/
def memcpy32BigEndianHost (buf : List Nat) : Int :=
  toInt32 ((16777216 * buf.getD 0 0 + 65536 * buf.getD 1 0 + 256 * buf.getD 2 0
    + buf.getD 3 0 : Nat) : Int)

/-- The value `memcpy(&output, buf, 8)` leaves in an `int64_t` on a big-endian
host. -/
def memcpy64BigEndianHost (buf : List Nat) : Int :=
  toInt64 ((72057594037927936 * buf.getD 0 0 + 281474976710656 * buf.getD 1 0
    + 1099511627776 * buf.getD 2 0 + 4294967296 * buf.getD 3 0
    + 16777216 * buf.getD 4 0 + 65536 * buf.getD 5 0 + 256 * buf.getD 6 0
    + buf.getD 7 0 : Nat) : Int)

/-- The macro `slittleint16_t` in either build: `sswappedint16_t` compiled for
the big-endian host when `WORDS_BIGENDIAN` is defined, otherwise the
`slittleint16_t` of this embedding. -/
def slittleint16_build (wordsBigendian : Bool) (buf : List Nat) : Int :=
  if wordsBigendian then swappedint16_t (memcpy16BigEndianHost buf) else slittleint16_t buf

/-- The macro `sbigint16_t` in either build: `snativeint16_t` compiled for the
big-endian host when `WORDS_BIGENDIAN` is defined, otherwise the `sbigint16_t`
of this embedding. -/
def sbigint16_build (wordsBigendian : Bool) (buf : List Nat) : Int :=
  if wordsBigendian then memcpy16BigEndianHost buf else sbigint16_t buf

/-- The macro `slittleint32_t` in either build. -/
def slittleint32_build (wordsBigendian : Bool) (buf : List Nat) : Int :=
  if wordsBigendian then swappedint32_t (memcpy32BigEndianHost buf) else slittleint32_t buf

/-- The macro `sbigint32_t` in either build. -/
def sbigint32_build (wordsBigendian : Bool) (buf : List Nat) : Int :=
  if wordsBigendian then memcpy32BigEndianHost buf else sbigint32_t buf

/-- The macro `slittleint64_t` in either build. -/
def slittleint64_build (wordsBigendian : Bool) (buf : List Nat) : Int :=
  if wordsBigendian then swappedint64_t (memcpy64BigEndianHost buf) else slittleint64_t buf

/-- The macro `sbigint64_t` in either build. -/
def sbigint64_build (wordsBigendian : Bool) (buf : List Nat) : Int :=
  if wordsBigendian then memcpy64BigEndianHost buf else sbigint64_t buf

/-! ## Vocabulary of the claim on memo block numbers -/

/-- The value of the digits `ds`, most significant first, after the value
`a` of the digits before them. -/
def digitsValue (a : Nat) (ds : List Nat) : Nat := ds.foldl (fun v d => 10 * v + d) a

/-! ## Vocabulary of the claims -/

/-- The entries that make up the column list of `CREATE TABLE`. -/
def Out.isColumn : Out → Bool
  | .colSep => true
  | .colName _ => true
  | .colType _ => true
  | _ => false

/-- The entries that make up the value list of an `INSERT`. -/
def Out.isValue : Out → Bool
  | .valSep => true
  | .value _ => true
  | _ => false

/-- The entries an `INSERT` statement is printed with. -/
def Out.isInsertPart : Out → Bool
  | .insertOpen _ => true
  | .valSep => true
  | .value _ => true
  | .insertClose => true
  | _ => false

/-- The entries of a sequence of complete `INSERT` statements, one statement
per value list. -/
def insertStatements (tablename : List Nat) (stmts : List (List Out)) : List Out :=
  stmts.flatMap (fun values => Out.insertOpen tablename :: values ++ [Out.insertClose])

/-- The entries are a sequence of zero or more complete `INSERT` statements
into the table, each with a value list made of values and separators only. -/
def InsertSeq (tablename : List Nat) (l : List Out) : Prop :=
  ∃ stmts : List (List Out),
    (∀ values ∈ stmts, ∀ o ∈ values, o.isValue = true) ∧ l = insertStatements tablename stmts

/-- What holds of every part of the record loops: only entries of `INSERT`
statements are printed, a part that ends normally has printed complete
statements, and no part ends the program with success. -/
def RecordTrace (tablename : List Nat) (x : Trace) : Prop :=
  (∀ o ∈ x.1, o.isInsertPart = true) ∧ (x.2 = none → InsertSeq tablename x.1) ∧
    x.2 ≠ some .success

/-- The type tags the schema loop accepts: B, C, D, F, G, I, L, M, N, T, Y and
the tag `'0'` of a skipped field. -/
def supportedType (t : Nat) : Bool :=
  decide (t ∈ [66, 67, 68, 70, 71, 73, 76, 77, 78, 84, 89, 48])

/-- An environment for the examples: table `t`, no memo file, signature 3. -/
def sampleEnv : Env :=
  { tablename := str "t", memomap := none, signature := 3, memoblocksize := 0,
    fmtDouble := fun _ _ => [] }

/-- The 32 bytes of a file header with the given signature, record count,
header length and record length, for the examples. -/
def headerBytes (signature recordcount headerlength recordlength : Nat) : List Nat :=
  [signature, 0, 0, 0, recordcount % 256, recordcount / 256 % 256,
    recordcount / 65536 % 256, recordcount / 16777216 % 256,
    headerlength % 256, headerlength / 256 % 256,
    recordlength % 256, recordlength / 256 % 256] ++ List.replicate 20 0

/-- The 32 bytes of a field descriptor with a one-letter name, for the
examples. -/
def fieldBytes (letter type length decimals : Nat) : List Nat :=
  [letter] ++ List.replicate 10 0 ++ [type, 0, 0, 0, 0, length, decimals]
    ++ List.replicate 14 0

/-- The 32 bytes of a field descriptor with the given name of at most ten
bytes, for the examples. -/
def namedFieldBytes (name : List Nat) (type length decimals : Nat) : List Nat :=
  name ++ List.replicate (11 - name.length) 0 ++ [type, 0, 0, 0, 0, length, decimals]
    ++ List.replicate 14 0

/-- An environment for the examples with a memo file: table `t`, the given
signature, block size and memo bytes. -/
def memoEnv (signature memoblocksize : Nat) (memo : List Nat) : Env :=
  { tablename := str "t", memomap := some memo, signature := signature,
    memoblocksize := memoblocksize, fmtDouble := fun _ _ => [] }

/-- The file of the two-record scenario: signature 3, record count 2, the
fields `NAME` (type C, length 4) and `AGE` (type N, length 2, no decimals),
the terminator, and then the given bytes as the record area, with the given
record length in the header. -/
def scenarioFile (recordlength : Nat) (records : List Nat) : List Nat :=
  headerBytes 3 2 97 recordlength ++ namedFieldBytes (str "NAME") 67 4 0
    ++ namedFieldBytes (str "AGE") 78 2 0 ++ [13] ++ records

/-- A file whose header declares one record of 3 bytes for the single field
`c` (type C, length 2) and whose record area holds the two records ` ab` and
` cd`. -/
def surplusRecordFile : List Nat :=
  headerBytes 3 1 65 3 ++ fieldBytes 99 67 2 0 ++ [13] ++ [32, 97, 98] ++ [32, 99, 100]

/-- The bytes written to standard output for a list of entries. -/
def renderAll (out : List Out) : List Nat := out.flatMap Out.render

/-! ## Files of the memo examples -/

/-- A DBF file with the single memo field `m` of the given length, the given
signature and record count, and the given bytes as the record area. -/
def memoFieldFile (signature recordcount fieldlength : Nat) (records : List Nat) :
    List Nat :=
  headerBytes signature recordcount 65 (fieldlength + 1)
    ++ fieldBytes 109 77 fieldlength 0 ++ [13] ++ records

/-- A memo file of the modern layout with blocks of 64 bytes, as its header
says at offset 6, whose block 1 holds the length bytes 00 00 00 05 and then
`HelloXYZ`. -/
def modernMemoFile : List Nat :=
  [0, 0, 0, 2, 0, 0, 0, 64] ++ List.replicate 56 0 ++ [0, 0, 0, 1] ++ [0, 0, 0, 5]
    ++ str "HelloXYZ"

/-- A memo file of the classic layout: zeros up to block `n`, then the given
bytes. -/
def classicMemoFile (n : Nat) (block : List Nat) : List Nat :=
  List.replicate (512 * n) 0 ++ block

/-! ## Vocabulary of the claims on timestamps, indexes and separators -/

/-- The two decimal digits of a number below 100, tens first. -/
def twoDigits (n : Nat) : List Nat := [48 + n / 10, 48 + n % 10]

/-- The number of fields of the schema whose type is not `'0'`. -/
def nonSkipped (fields : List DBFFIELD) : Nat :=
  (fields.filter (fun f => f.type != 48)).length

/-- A file with the single field `c` (type C, length 2) and no record. -/
def emptyTableFile : List Nat := headerBytes 3 0 65 3 ++ fieldBytes 99 67 2 0 ++ [13]

/-! ## Lemmas on `safeprintbuf` -/

theorem escapeLoop_eq_flatMap (x : List Nat) :
    escapeLoop x = x.flatMap specEscape := by
  induction x with
  | nil => rfl
  | cons c s ih =>
    simp only [escapeLoop, List.flatMap_cons, ih]
    rfl

theorem escapeByte_ne_zero {c : Nat} (hc : c ≠ 0) : ∀ b ∈ escapeByte c, b ≠ 0 := by
  intro b hb
  unfold escapeByte at hb
  split_ifs at hb <;> simp at hb <;> omega

theorem escapeLoop_ne_zero (x : List Nat) (hx : ∀ b ∈ x, b ≠ 0) :
    ∀ b ∈ escapeLoop x, b ≠ 0 := by
  induction x with
  | nil => intro b hb; simp [escapeLoop] at hb
  | cons c s ih =>
    intro b hb
    simp only [escapeLoop, List.mem_append] at hb
    rcases hb with hb | hb
    · exact escapeByte_ne_zero (hx c (List.mem_cons_self _ _)) b hb
    · exact ih (fun b hb => hx b (List.mem_cons_of_mem _ hb)) b hb

theorem cstring_terminated (t : List Nat) (ht : ∀ b ∈ t, b ≠ 0) (r : List Nat) :
    cstring (t ++ 0 :: r) = t := by
  induction t with
  | nil => simp [cstring]
  | cons c s ih =>
    have hc : c ≠ 0 := ht c (List.mem_cons_self _ _)
    have hs := ih (fun b hb => ht b (List.mem_cons_of_mem _ hb))
    simp only [cstring] at hs ⊢
    simp [List.takeWhile_cons, hc, hs]

theorem trimRight_append_blank (x : List Nat) (a : Nat) (ha : isBlank a = true) :
    trimRight (x ++ [a]) = trimRight x := by
  simp [trimRight, List.rdropWhile_concat, ha]

theorem trimRight_append_nonblank (x : List Nat) (a : Nat) (ha : isBlank a = false) :
    trimRight (x ++ [a]) = x ++ [a] := by
  simp [trimRight, List.rdropWhile_concat, ha]

theorem trimRight_initial_segment (x : List Nat) : trimRight x <+: x :=
  List.rdropWhile_prefix _ _

/-- The right-to-left scan finds the last byte of the trimmed text. -/
theorem scanRight_eq (buf : List Nat) : ∀ rest : List Nat,
    scanRight (buf ++ rest) buf.length =
      if trimRight buf = [] then none else some ((trimRight buf).length - 1) := by
  induction buf using List.reverseRecOn with
  | nil => intro rest; simp [scanRight, trimRight]
  | append_singleton x a ih =>
    intro rest
    have hget : (x ++ [a] ++ rest).getD x.length 0 = a := by
      rw [List.getD_eq_getElem?_getD, List.append_assoc,
        List.getElem?_append_right (le_refl _)]
      simp
    rw [List.length_append, List.length_singleton, scanRight, hget]
    by_cases ha : isBlank a = true
    · have h32 : a = 32 ∨ a = 0 := by simpa [isBlank] using ha
      have hcond : (a != 32 && a != 0) = false := by
        rcases h32 with h | h <;> subst h <;> decide
      rw [hcond, trimRight_append_blank x a ha]
      have := ih ([a] ++ rest)
      simpa using this
    · have ha' : isBlank a = false := by simpa using ha
      have h32 : a ≠ 32 ∧ a ≠ 0 := by simpa [isBlank] using ha'
      have hcond : (a != 32 && a != 0) = true := by
        simp [h32.1, h32.2]
      rw [hcond, trimRight_append_nonblank x a ha']
      simp

theorem escapeByte_length (c : Nat) :
    1 ≤ (escapeByte c).length ∧ (escapeByte c).length ≤ 2 := by
  unfold escapeByte
  split_ifs <;> simp

theorem escapeLoop_length (x : List Nat) :
    x.length ≤ (escapeLoop x).length ∧ (escapeLoop x).length ≤ 2 * x.length := by
  induction x with
  | nil => simp [escapeLoop]
  | cons c s ih =>
    have h := escapeByte_length c
    rw [escapeLoop, List.length_append, List.length_cons]
    omega

theorem scanRight_some (buf : List Nat) : ∀ (n lastchar : Nat),
    scanRight buf n = some lastchar → lastchar < n ∧ lastchar < buf.length := by
  intro n
  induction n with
  | zero => intro lastchar h; simp [scanRight] at h
  | succ k ih =>
    intro lastchar h
    rw [scanRight] at h
    split_ifs at h with hc
    · simp only [Option.some.injEq] at h
      subst h
      refine ⟨by omega, ?_⟩
      by_contra hlen
      rw [List.getD_eq_default _ _ (by omega)] at hc
      simp at hc
    · have := ih lastchar h
      omega

theorem scanRight_replicate (k : Nat) :
    scanRight (List.replicate (k + 1) 97) (k + 1) = some k := by
  rw [scanRight]
  have h : (List.replicate (k + 1) 97).getD k 0 = 97 := by
    rw [List.getD_eq_getElem _ _ (by simp)]
    simp
  rw [h]
  rfl

theorem targetbufStored_length (buf : List Nat) (n lastchar : Nat)
    (h : scanRight buf n = some lastchar) :
    lastchar + 1 ≤ (escapeLoop (buf.take (lastchar + 1))).length ∧
    (escapeLoop (buf.take (lastchar + 1))).length ≤ 2 * (lastchar + 1) ∧
    (targetbufStored buf lastchar).length
      = (escapeLoop (buf.take (lastchar + 1))).length + 1 := by
  have hs := scanRight_some buf n lastchar h
  have hl := escapeLoop_length (buf.take (lastchar + 1))
  have ht : (buf.take (lastchar + 1)).length = lastchar + 1 := by
    rw [List.length_take]; omega
  rw [ht] at hl
  refine ⟨hl.1, hl.2, ?_⟩
  rw [targetbufStored, List.length_append, List.length_singleton]

/-- For a text of fewer than 2^30 bytes after trimming, the escape loop stores
between `r` and `2 * r` bytes, and these with the terminating NUL fit the
buffer that was selected. -/
theorem targetbuf_fits (buf : List Nat) (inputsize lastchar : Nat)
    (h : scanRight buf inputsize = some lastchar) (hr : lastchar + 1 < 1073741824) :
    lastchar + 1 ≤ (escapeLoop (buf.take (lastchar + 1))).length ∧
    (escapeLoop (buf.take (lastchar + 1))).length ≤ 2 * (lastchar + 1) ∧
    (targetbufStored buf lastchar).length ≤ targetbufSize (realsize lastchar) := by
  obtain ⟨h1, h2, h3⟩ := targetbufStored_length buf inputsize lastchar h
  refine ⟨h1, h2, ?_⟩
  rw [h3]
  generalize (escapeLoop (buf.take (lastchar + 1))).length = w at h1 h2
  have e1 : realsize lastchar = ((lastchar + 1 : Nat) : Int) := by
    unfold realsize toInt32; omega
  have e2 : toInt32 (((lastchar + 1 : Nat) : Int) * 2) = ((2 * (lastchar + 1) : Nat) : Int) := by
    unfold toInt32; omega
  rw [e1]
  unfold targetbufSize
  rw [e2]
  generalize lastchar + 1 = r at *
  by_cases hc : ((2 * r : Nat) : Int) < STATICBUFFERSIZE
  · rw [if_pos hc]
    unfold STATICBUFFERSIZE at hc ⊢
    omega
  · rw [if_neg hc]
    have e3 : toInt32 (((2 * r : Nat) : Int) + 1) = ((2 * r + 1 : Nat) : Int) := by
      unfold toInt32; omega
    rw [e3]
    unfold toSizeT
    omega

/-- Whatever `realsize` is, the buffer selected has fewer than 2^31 bytes. -/
theorem targetbufSize_lt (r : Int) : targetbufSize r < 2147483648 := by
  unfold targetbufSize
  generalize hx : toInt32 (r * 2) = x
  have hr : -2147483648 ≤ x ∧ x < 2147483648 ∧ x % 2 = 0 := by
    rw [← hx]; unfold toInt32; omega
  by_cases hc : x < STATICBUFFERSIZE
  · rw [if_pos hc]; decide
  · rw [if_neg hc]
    unfold STATICBUFFERSIZE at hc
    have e : toInt32 (x + 1) = x + 1 := by unfold toInt32; omega
    rw [e]
    unfold toSizeT
    omega

/-- For a text of 2^30 bytes or more after trimming, the bytes stored do not
fit the buffer that was selected. -/
theorem targetbuf_overrun (buf : List Nat) (inputsize lastchar : Nat)
    (h : scanRight buf inputsize = some lastchar) (hr : 1073741824 ≤ lastchar + 1) :
    targetbufSize (realsize lastchar) < (targetbufStored buf lastchar).length := by
  obtain ⟨h1, _, h3⟩ := targetbufStored_length buf inputsize lastchar h
  rw [h3]
  by_cases hhi : lastchar + 1 < 2147483648
  · have e1 : realsize lastchar = ((lastchar + 1 : Nat) : Int) := by
      unfold realsize toInt32; omega
    have e2 : toInt32 (((lastchar + 1 : Nat) : Int) * 2) < 0 := by
      unfold toInt32; omega
    have e3 : targetbufSize (realsize lastchar) = 1048577 := by
      unfold targetbufSize
      rw [e1, if_pos (by unfold STATICBUFFERSIZE; omega)]
      rfl
    rw [e3]; omega
  · have := targetbufSize_lt (realsize lastchar)
    omega

/-- The calls of `safeprintbuf` that stay inside the memory at `buf`: the
first byte is not NUL and the declared length does not exceed the memory. -/
theorem safeprintbuf_readable (first : Nat) (tail : List Nat) (inputsize : Nat)
    (h0 : first ≠ 0) (hin : inputsize ≤ (first :: tail).length) :
    safeprintbuf (first :: tail) inputsize =
      match scanRight (first :: tail) inputsize with
      | none => some [39, 39]
      | some lastchar =>
        if targetbufSize (realsize lastchar)
            < (targetbufStored (first :: tail) lastchar).length then none
        else some ([39] ++ cstring (targetbufStored (first :: tail) lastchar) ++ [39]) := by
  unfold safeprintbuf
  simp only [if_neg h0]
  cases hd : (first :: tail).drop (inputsize - 1) with
  | nil =>
    have := List.drop_eq_nil_iff.mp hd
    rw [List.length_cons] at this hin
    omega
  | cons a r => rfl

/-- The general form of the encoder: on a readable text whose trimmed part has
no NUL and fewer than 2^30 bytes, `safeprintbuf` prints the literal of the
specification for the trimmed part, whatever memory follows the declared
length. -/
theorem safeprintbuf_eq (buf rest : List Nat) (h : ∀ b ∈ trimRight buf, b ≠ 0)
    (hmem : buf ++ rest ≠ []) (hlen : (trimRight buf).length < 1073741824) :
    safeprintbuf (buf ++ rest) buf.length = some (specLiteral (trimRight buf)) := by
  obtain ⟨first, tail, hft⟩ := List.exists_cons_of_ne_nil hmem
  have hin : buf.length ≤ (first :: tail).length := by
    rw [← hft, List.length_append]; omega
  by_cases hx : trimRight buf = []
  · have hs : scanRight (first :: tail) buf.length = none := by
      rw [← hft, scanRight_eq, if_pos hx]
    rw [hx, hft]
    by_cases h0 : first = 0
    · unfold safeprintbuf
      simp only [if_pos h0]
      rfl
    · rw [safeprintbuf_readable first tail buf.length h0 hin, hs]
      rfl
  · obtain ⟨c, s, hcs⟩ := List.exists_cons_of_ne_nil hx
    obtain ⟨t, ht⟩ := trimRight_initial_segment buf
    have hc : c ≠ 0 := h c (by rw [hcs]; exact List.mem_cons_self _ _)
    have hb : buf = c :: (s ++ t) := by
      have h2 := ht
      rw [hcs] at h2
      exact h2.symm
    have hfirst : first = c := by
      have h3 := hft
      rw [hb] at h3
      simp only [List.cons_append, List.cons.injEq] at h3
      exact h3.1.symm
    have hs : scanRight (first :: tail) buf.length = some ((trimRight buf).length - 1) := by
      rw [← hft, scanRight_eq, if_neg hx]
    have hl1 : (trimRight buf).length - 1 + 1 = (trimRight buf).length := by
      rw [hcs]; simp
    have htake : (first :: tail).take ((trimRight buf).length - 1 + 1) = trimRight buf := by
      rw [hl1, ← hft, List.take_append_of_le_length (trimRight_initial_segment buf).length_le]
      exact (List.prefix_iff_eq_take.mp (trimRight_initial_segment buf)).symm
    have hfit := (targetbuf_fits (first :: tail) buf.length _ hs (by omega)).2.2
    rw [hft, safeprintbuf_readable first tail buf.length (by rw [hfirst]; exact hc) hin, hs]
    simp only [if_neg (Nat.not_lt.mpr hfit)]
    unfold targetbufStored specLiteral
    rw [htake, if_neg hx, cstring_terminated _ (escapeLoop_ne_zero _ h), escapeLoop_eq_flatMap]

/-- On a readable text whose trimmed part has no NUL and 2^30 bytes or more,
`safeprintbuf` stores more bytes than the buffer it selected holds. -/
theorem safeprintbuf_overrun (buf rest : List Nat) (h : ∀ b ∈ trimRight buf, b ≠ 0)
    (hlen : 1073741824 ≤ (trimRight buf).length) :
    safeprintbuf (buf ++ rest) buf.length = none := by
  have hx : trimRight buf ≠ [] := by
    intro h0; rw [h0] at hlen; simp at hlen
  obtain ⟨c, s, hcs⟩ := List.exists_cons_of_ne_nil hx
  obtain ⟨t, ht⟩ := trimRight_initial_segment buf
  have hc : c ≠ 0 := h c (by rw [hcs]; exact List.mem_cons_self _ _)
  have hb : buf = c :: (s ++ t) := by
    have h2 := ht
    rw [hcs] at h2
    exact h2.symm
  have hft : buf ++ rest = c :: (s ++ t ++ rest) := by
    rw [hb]; simp
  have hin : buf.length ≤ (c :: (s ++ t ++ rest)).length := by
    rw [← hft, List.length_append]; omega
  have hs : scanRight (c :: (s ++ t ++ rest)) buf.length
      = some ((trimRight buf).length - 1) := by
    rw [← hft, scanRight_eq, if_neg hx]
  have hover := targetbuf_overrun (c :: (s ++ t ++ rest)) buf.length _ hs (by omega)
  rw [hft, safeprintbuf_readable c _ buf.length hc hin, hs]
  simp only [if_pos hover]

theorem unescape_escapeLoop (x : List Nat) : unescape (escapeLoop x) = x := by
  induction x with
  | nil => rfl
  | cons c s ih =>
    simp only [escapeLoop, escapeByte]
    split_ifs with h1 h2 h3 h4
    · subst h1; simp [unescape, ih]
    · subst h2; simp [unescape, ih]
    · subst h3; simp [unescape, ih]
    · subst h4; simp [unescape, ih]
    · cases hs : escapeLoop s with
      | nil => rw [hs] at ih; simp [unescape, ← ih]
      | cons d r =>
        rw [hs] at ih
        simp [unescape, h1, ih]

theorem stripQuotes_quoted (e : List Nat) : stripQuotes ([39] ++ e ++ [39]) = e := by
  simp [stripQuotes]

theorem trimRight_of_no_nul (x : List Nat) (h : ∀ b ∈ x, b ≠ 0) :
    trimRight x = x.rdropWhile (fun b => b == 32) := by
  induction x using List.reverseRecOn with
  | nil => simp [trimRight]
  | append_singleton y a ih =>
    have ha : a ≠ 0 := h a (by simp)
    have hy := ih (fun b hb => h b (by simp [hb]))
    unfold trimRight at hy ⊢
    by_cases h32 : a = 32
    · subst h32
      simp [List.rdropWhile_concat, isBlank, hy]
    · simp [List.rdropWhile_concat, isBlank, h32, ha]

theorem trimRight_replicate (n : Nat) :
    trimRight (List.replicate n 97) = List.replicate n 97 := by
  cases n with
  | zero => rfl
  | succ k =>
    rw [List.replicate_succ', ← List.concat_eq_append, List.concat_eq_append]
    exact trimRight_append_nonblank _ 97 (by decide)

theorem replicate_ne_zero (n : Nat) : ∀ b ∈ List.replicate n 97, b ≠ 0 := by
  intro b hb
  rw [List.eq_of_mem_replicate hb]
  decide

theorem nul_free_trimRight_replicate (n : Nat) :
    ∀ b ∈ trimRight (List.replicate n 97), b ≠ 0 := by
  rw [trimRight_replicate]
  exact replicate_ne_zero n

theorem replicate_append_ne_nil (n : Nat) (rest : List Nat) (h : 0 < n) :
    List.replicate n 97 ++ rest ≠ [] := by
  cases n with
  | zero => omega
  | succ k => simp [List.replicate_succ]

theorem length_trimRight_replicate (n : Nat) :
    n ≤ (trimRight (List.replicate n 97)).length := by
  rw [trimRight_replicate, List.length_replicate]

theorem length_rdropWhile_replicate (n : Nat) :
    n ≤ ((List.replicate n 97).rdropWhile (fun b => b == 32)).length := by
  rw [← trimRight_of_no_nul _ (replicate_ne_zero n)]
  exact length_trimRight_replicate n

/-! ## The text encoder: claims -/

/-- C1: the code on both sides of the failing input.  For a readable byte
sequence `buf` of declared length `buf.length`, followed in memory by any
bytes `rest`, in which no NUL occurs in the part left after removing the
trailing space and NUL bytes: when that part has fewer than 2^30 bytes,
`safeprintbuf` prints two quotes when the part is empty and otherwise a quote,
the escaped bytes of the part in order (backslash, LF, CR and TAB as backslash
plus backslash, `n`, `r`, `t`, any other byte as itself) and a closing quote;
when it has 2^30 bytes or more, the bytes stored overrun the target buffer and
nothing is printed. -/
theorem safeprintbuf_encodes_trimmed_text (buf rest : List Nat)
    (h : ∀ b ∈ trimRight buf, b ≠ 0) (hmem : buf ++ rest ≠ []) :
    ((trimRight buf).length < 1073741824 →
      safeprintbuf (buf ++ rest) buf.length =
        some (if trimRight buf = [] then [39, 39]
          else [39] ++ (trimRight buf).flatMap specEscape ++ [39])) ∧
    (1073741824 ≤ (trimRight buf).length →
      safeprintbuf (buf ++ rest) buf.length = none) := by
  refine ⟨fun hlen => ?_, fun hlen => safeprintbuf_overrun buf rest h hlen⟩
  rw [safeprintbuf_eq buf rest h hmem hlen]
  rfl

/-- Witness of C1: the text `a`, backslash, LF followed by space, NUL, space
and one further byte of memory; and a text of 2^30 bytes `a`. -/
theorem safeprintbuf_encodes_trimmed_text_witness :
    safeprintbuf ([97, 92, 10, 32, 0, 32] ++ [55]) [97, 92, 10, 32, 0, 32].length =
      some (if trimRight [97, 92, 10, 32, 0, 32] = [] then [39, 39]
        else [39] ++ (trimRight [97, 92, 10, 32, 0, 32]).flatMap specEscape ++ [39]) ∧
    safeprintbuf (List.replicate 1073741824 97 ++ []) (List.replicate 1073741824 97).length =
      none :=
  ⟨(safeprintbuf_encodes_trimmed_text [97, 92, 10, 32, 0, 32] [55] (by decide)
      (by decide)).1 (by decide),
   (safeprintbuf_encodes_trimmed_text (List.replicate 1073741824 97) []
      (nul_free_trimRight_replicate 1073741824)
      (replicate_append_ne_nil 1073741824 [] (by decide))).2
      (length_trimRight_replicate 1073741824)⟩

/-- C2: the code on both sides of the failing input.  For a readable NUL-free
text `x`: when `x` without its trailing spaces has fewer than 2^30 bytes,
stripping the quotes of what `safeprintbuf` prints and undoing the escapes
from left to right gives `x` without its trailing spaces, hence `x` itself
when the last byte of `x` is not a space; when it has 2^30 bytes or more,
`safeprintbuf` overruns its target buffer and prints nothing to strip. -/
theorem escape_round_trip (x rest : List Nat) (h : ∀ b ∈ x, b ≠ 0)
    (hmem : x ++ rest ≠ []) :
    ((x.rdropWhile (fun b => b == 32)).length < 1073741824 →
      (x.getLast? ≠ some 32 →
        (safeprintbuf (x ++ rest) x.length).map (fun lit => unescape (stripQuotes lit))
          = some x) ∧
      (safeprintbuf (x ++ rest) x.length).map (fun lit => unescape (stripQuotes lit))
        = some (x.rdropWhile (fun b => b == 32))) ∧
    (1073741824 ≤ (x.rdropWhile (fun b => b == 32)).length →
      safeprintbuf (x ++ rest) x.length = none) := by
  have htrim : ∀ b ∈ trimRight x, b ≠ 0 :=
    fun b hb => h b ((trimRight_initial_segment x).subset hb)
  have ht := trimRight_of_no_nul x h
  refine ⟨fun hlen => ?_, fun hlen => safeprintbuf_overrun x rest htrim (by rw [ht]; exact hlen)⟩
  have hmain : (safeprintbuf (x ++ rest) x.length).map
      (fun lit => unescape (stripQuotes lit)) = some (x.rdropWhile (fun b => b == 32)) := by
    rw [safeprintbuf_eq x rest htrim hmem (by rw [ht]; exact hlen), ht, Option.map_some']
    unfold specLiteral
    by_cases hy : x.rdropWhile (fun b => b == 32) = []
    · rw [if_pos hy, hy]; rfl
    · rw [if_neg hy, stripQuotes_quoted, ← escapeLoop_eq_flatMap, unescape_escapeLoop]
  refine ⟨fun hlast => ?_, hmain⟩
  rw [hmain]
  congr 1
  apply List.rdropWhile_eq_self_iff.mpr
  intro hne hp
  apply hlast
  rw [List.getLast?_eq_getLast _ hne]
  simpa using hp

/-- Witness of C2: the text backslash, TAB, `a`, LF, CR; and a text of 2^30
bytes `a`. -/
theorem escape_round_trip_witness :
    (((([92, 9, 97, 10, 13] : List Nat).getLast? ≠ some 32 →
      (safeprintbuf ([92, 9, 97, 10, 13] ++ [32, 7]) [92, 9, 97, 10, 13].length).map
          (fun lit => unescape (stripQuotes lit)) = some [92, 9, 97, 10, 13]) ∧
    (safeprintbuf ([92, 9, 97, 10, 13] ++ [32, 7]) [92, 9, 97, 10, 13].length).map
        (fun lit => unescape (stripQuotes lit)) =
      some ([92, 9, 97, 10, 13].rdropWhile (fun b => b == 32))) ∧
    safeprintbuf (List.replicate 1073741824 97 ++ [])
      (List.replicate 1073741824 97).length = none) :=
  ⟨(escape_round_trip [92, 9, 97, 10, 13] [32, 7] (by decide) (by decide)).1 (by decide),
   (escape_round_trip (List.replicate 1073741824 97) [] (replicate_ne_zero 1073741824)
      (replicate_append_ne_nil 1073741824 [] (by decide))).2
      (length_rdropWhile_replicate 1073741824)⟩

/-- C3: the code at the failing input.  For the six bytes `O`, quote, `N`,
`e`, `i`, `l` the printed literal keeps the inner quote as it is: the text
between the outer quotes contains a single quote that is neither escaped nor
doubled, so the literal ends after `O`. -/
theorem safeprintbuf_keeps_single_quote :
    safeprintbuf [79, 39, 78, 101, 105, 108] 6 =
      some [39, 79, 39, 78, 101, 105, 108, 39] ∧
    (safeprintbuf [79, 39, 78, 101, 105, 108] 6).map stripQuotes =
      some [79, 39, 78, 101, 105, 108] := by
  decide

/-! ## Sequencing of traces -/

theorem andThen_pure (l : List Out) (b : Trace) :
    Trace.andThen (l, none) b = (l ++ b.1, b.2) := rfl

theorem andThen_stop (l : List Out) (e : Exit) (b : Trace) :
    Trace.andThen (l, some e) b = (l, some e) := rfl

theorem nil_andThen (b : Trace) : Trace.andThen ([], none) b = b := rfl

theorem andThen_assoc (a b c : Trace) :
    Trace.andThen (Trace.andThen a b) c = Trace.andThen a (Trace.andThen b c) := by
  obtain ⟨la, ea⟩ := a
  obtain ⟨lb, eb⟩ := b
  cases ea <;> cases eb <;> simp [Trace.andThen]

theorem andThen_exit_none {a b : Trace} (h : (Trace.andThen a b).2 = none) :
    a.2 = none ∧ b.2 = none ∧ (Trace.andThen a b).1 = a.1 ++ b.1 := by
  obtain ⟨la, ea⟩ := a
  cases ea <;> simp_all [Trace.andThen]

theorem andThen_exit_some {a b : Trace} {e : Exit}
    (h : (Trace.andThen a b).2 = some e) :
    (a.2 = some e ∧ (Trace.andThen a b).1 = a.1) ∨
    (a.2 = none ∧ b.2 = some e ∧ (Trace.andThen a b).1 = a.1 ++ b.1) := by
  obtain ⟨la, ea⟩ := a
  cases ea <;> simp_all [Trace.andThen]

theorem mem_andThen {a b : Trace} {o : Out} (h : o ∈ (Trace.andThen a b).1) :
    o ∈ a.1 ∨ o ∈ b.1 := by
  obtain ⟨la, ea⟩ := a
  cases ea
  · simpa [Trace.andThen] using h
  · left; simpa [Trace.andThen] using h

/-! ## The record cursor: claims -/

/-- C4: the code at the failing input.  Schema: a field of type `'0'` and
length 1, then a field of type C and length 2; record: a space (the record is
not deleted), `X` (the byte of the skipped field), `a`, `b`.  The C field is
decoded from record offset 1, the offset of the skipped field, and prints
`Xa`; decoding at offset 1 + 1, which the claim requires, would print `ab`. -/
theorem skipped_field_width_not_consumed :
    recordOut sampleEnv [⟨[120], 48, 1, 0⟩, ⟨[121], 67, 2, 0⟩] [32, 88, 97, 98] =
      ([.insertOpen (str "t"), .valSep, .value [39, 88, 97, 39], .insertClose], none) ∧
    safeprintbuf (([32, 88, 97, 98] : List Nat).drop 1) 2 = some [39, 88, 97, 39] ∧
    safeprintbuf (([32, 88, 97, 98] : List Nat).drop (1 + 1)) 2 = some [39, 97, 98, 39] := by
  decide

theorem batchLoop_add (env : Env) (fields : List DBFFIELD) (recordlength : Nat)
    (inputbuffer : List Nat) (a b : Nat) : ∀ i : Nat,
    batchLoop env fields recordlength inputbuffer (a + b) i =
      Trace.andThen (batchLoop env fields recordlength inputbuffer a i)
        (batchLoop env fields recordlength inputbuffer b (i + a)) := by
  induction a with
  | zero => intro i; simp [batchLoop, nil_andThen]
  | succ a ih =>
    intro i
    have h1 : a + 1 + b = (a + b) + 1 := by omega
    have h2 : i + (a + 1) = (i + 1) + a := by omega
    rw [h1, h2, batchLoop, batchLoop, ih (i + 1), andThen_assoc]

/-- C5: in a batch of `n` records of `recordlength` bytes held in
`inputbuffer`, if byte 0 of record `k` is `*` then what the batch prints is
what the records before `k` print followed by what the loop prints from record
`k + 1` on, so nothing is printed for record `k`; and the loop at record
`k + 1` runs the record body on the bytes at offset `recordlength * (k + 1)`
of the batch, then goes on with record `k + 2`. -/
theorem deleted_record_skipped (env : Env) (fields : List DBFFIELD)
    (recordlength : Nat) (inputbuffer : List Nat) (n k : Nat) (hk : k < n)
    (hdel : (inputbuffer.drop (recordlength * k)).getD 0 0 = 42) :
    batchLoop env fields recordlength inputbuffer n 0 =
      Trace.andThen (batchLoop env fields recordlength inputbuffer k 0)
        (batchLoop env fields recordlength inputbuffer (n - (k + 1)) (k + 1)) ∧
    (k + 1 < n →
      batchLoop env fields recordlength inputbuffer (n - (k + 1)) (k + 1) =
        Trace.andThen
          (recordOut env fields (inputbuffer.drop (recordlength * (k + 1))))
          (batchLoop env fields recordlength inputbuffer (n - (k + 2)) (k + 2))) := by
  constructor
  · have hn : n = k + ((n - (k + 1)) + 1) := by omega
    conv_lhs => rw [hn]
    rw [batchLoop_add, batchLoop, Nat.zero_add]
    have hrec : recordOut env fields (inputbuffer.drop (recordlength * k)) = ([], none) := by
      unfold recordOut
      rw [if_pos hdel]
    rw [hrec, nil_andThen]
  · intro hk1
    have hn : n - (k + 1) = (n - (k + 2)) + 1 := by omega
    rw [hn, batchLoop]

/-- Witness of C5: a batch of two records of three bytes, the first deleted. -/
theorem deleted_record_skipped_witness :
    batchLoop sampleEnv [⟨[121], 67, 2, 0⟩] 3 [42, 97, 98, 32, 99, 100] 2 0 =
      Trace.andThen (batchLoop sampleEnv [⟨[121], 67, 2, 0⟩] 3 [42, 97, 98, 32, 99, 100] 0 0)
        (batchLoop sampleEnv [⟨[121], 67, 2, 0⟩] 3 [42, 97, 98, 32, 99, 100]
          (2 - (0 + 1)) (0 + 1)) ∧
    (0 + 1 < 2 →
      batchLoop sampleEnv [⟨[121], 67, 2, 0⟩] 3 [42, 97, 98, 32, 99, 100]
          (2 - (0 + 1)) (0 + 1) =
        Trace.andThen
          (recordOut sampleEnv [⟨[121], 67, 2, 0⟩]
            (([42, 97, 98, 32, 99, 100] : List Nat).drop (3 * (0 + 1))))
          (batchLoop sampleEnv [⟨[121], 67, 2, 0⟩] 3 [42, 97, 98, 32, 99, 100]
            (2 - (0 + 2)) (0 + 2))) :=
  deleted_record_skipped sampleEnv [⟨[121], 67, 2, 0⟩] 3 [42, 97, 98, 32, 99, 100] 2 0
    (by decide) (by decide)

/-! ## The size of the field array: claims -/

/-- For a stored header length below 32768 the field array is sized as the
specification says: with `L = headerlength - 32 - skip - 1` not negative, a
remainder of 0 gives `L / 32` fields and leaves `skipbytes` alone, a remainder
of 1 gives `(L - 1) / 32` fields and one more byte to skip, and any other
remainder is the error of a misaligned array. -/
theorem fieldLayout_of_small_header (hdr : DBFHEADER) (hh : hdr.headerlength < 32768)
    (hL : 0 ≤ (hdr.headerlength : Int) - 32 - initialSkipbytes hdr.signature - 1) :
    (((hdr.headerlength : Int) - 32 - initialSkipbytes hdr.signature - 1) % 32 = 0 →
      fieldLayout hdr = .ok
        { skipbytes := initialSkipbytes hdr.signature
          fieldarraysize := (hdr.headerlength : Int) - 32 - initialSkipbytes hdr.signature - 1
          fieldcount :=
            (((hdr.headerlength : Int) - 32 - initialSkipbytes hdr.signature - 1) / 32).toNat }) ∧
    (((hdr.headerlength : Int) - 32 - initialSkipbytes hdr.signature - 1) % 32 = 1 →
      fieldLayout hdr = .ok
        { skipbytes := initialSkipbytes hdr.signature + 1
          fieldarraysize :=
            (hdr.headerlength : Int) - 32 - initialSkipbytes hdr.signature - 1 - 1
          fieldcount :=
            (((hdr.headerlength : Int) - 32 - initialSkipbytes hdr.signature - 1 - 1) / 32).toNat }) ∧
    (2 ≤ ((hdr.headerlength : Int) - 32 - initialSkipbytes hdr.signature - 1) % 32 →
      fieldLayout hdr = .error .fieldArraySize) := by
  have hskip : initialSkipbytes hdr.signature = 0 ∨ initialSkipbytes hdr.signature = 263 := by
    unfold initialSkipbytes; split_ifs <;> simp
  generalize hLdef : (hdr.headerlength : Int) - 32 - initialSkipbytes hdr.signature - 1 = L at hL ⊢
  have hfas : toInt32 (toSizeT (littleint16_t hdr.headerlength - 32
      - initialSkipbytes hdr.signature - 1)) = L := by
    unfold toInt32 toSizeT littleint16_t nativeint16_t toInt16
    omega
  have hmod : toSizeT L % 32 = (L % 32).toNat := by unfold toSizeT; omega
  have hdiv : toSizeT L / 32 = (L / 32).toNat := by unfold toSizeT; omega
  refine ⟨fun h0 => ?_, fun h1 => ?_, fun h2 => ?_⟩
  · have c1 : ¬ toSizeT L % 32 = 1 := by omega
    have c2 : ¬ toSizeT L % 32 ≠ 0 := by omega
    simp only [fieldLayout, hfas, if_neg c1, if_neg c2, hdiv]
  · have c1 : toSizeT L % 32 = 1 := by omega
    have hdiv1 : toSizeT (L - 1) / 32 = ((L - 1) / 32).toNat := by unfold toSizeT; omega
    simp only [fieldLayout, hfas, if_pos c1, hdiv1]
  · have c1 : ¬ toSizeT L % 32 = 1 := by omega
    have c2 : toSizeT L % 32 ≠ 0 := by omega
    simp only [fieldLayout, hfas, if_neg c1, if_pos c2]

/-- C6: the code at the failing input.  The header stores the unsigned length
32801 (signature 3, so nothing to skip): `L = 32801 - 32 - 0 - 1 = 32768` is
not negative and `L mod 32 = 0`, so the claim promises `L / 32 = 1024` fields.
The code reads the length through `littleint16_t`, whose parameter is an
`int16_t`, as -32735; `fieldarraysize` is -32768, its remainder taken in
`size_t` is 0, and `fieldcount` is `(2^64 - 32768) / 32`; the array cannot be
allocated and the run fails. -/
theorem headerlength_read_as_signed :
    fieldLayout ⟨3, 0, 32801, 1⟩ =
      .ok { skipbytes := 0, fieldarraysize := -32768, fieldcount := 576460752303422464 } ∧
    ((32801 : Int) - 32 - initialSkipbytes 3 - 1) % 32 = 0 ∧
    ((32801 : Int) - 32 - initialSkipbytes 3 - 1) / 32 = 1024 ∧
    (run (fun _ _ => []) (str "t") none []
      ([3, 0, 0, 0, 0, 0, 0, 0, 33, 128, 1, 0] ++ List.replicate 20 0)).exit =
        .failure .mallocFields := by
  refine ⟨rfl, by decide, by decide, by decide⟩

/-! ## The schema loop -/

/-- The four ways the `switch` of the schema loop ends: a type is printed, or
the memo file is missing, or the memo field has an unknown width, or the type
is not handled. -/
theorem columnType_cases (env : Env) (f : DBFFIELD) :
    (∃ t, columnType env f = ([.colType t], none)) ∨
    columnType env f = ([.newline], some (.failure .noMemoFile)) ∨
    (∃ t, columnType env f = ([.colType t], some (.failure .unknownMemoStyle))) ∨
    columnType env f = ([.newline], some (.failure (.unhandledFieldType f.type))) := by
  unfold columnType
  by_cases h1 : f.type = 66
  · rw [if_pos h1]; exact Or.inl ⟨_, rfl⟩
  rw [if_neg h1]
  by_cases h2 : f.type = 67
  · rw [if_pos h2]; exact Or.inl ⟨_, rfl⟩
  rw [if_neg h2]
  by_cases h3 : f.type = 68
  · rw [if_pos h3]; exact Or.inl ⟨_, rfl⟩
  rw [if_neg h3]
  by_cases h4 : f.type = 70
  · rw [if_pos h4]; exact Or.inl ⟨_, rfl⟩
  rw [if_neg h4]
  by_cases h5 : f.type = 71
  · rw [if_pos h5]; exact Or.inl ⟨_, rfl⟩
  rw [if_neg h5]
  by_cases h6 : f.type = 73
  · rw [if_pos h6]; exact Or.inl ⟨_, rfl⟩
  rw [if_neg h6]
  by_cases h7 : f.type = 76
  · rw [if_pos h7]; exact Or.inl ⟨_, rfl⟩
  rw [if_neg h7]
  by_cases h8 : f.type = 77
  · rw [if_pos h8]
    by_cases hm : env.memomap = none
    · rw [if_pos hm]; exact Or.inr (Or.inl rfl)
    rw [if_neg hm]
    by_cases hl : f.length = 4
    · rw [if_pos hl]; exact Or.inl ⟨_, rfl⟩
    rw [if_neg hl]
    by_cases hl2 : f.length = 10
    · rw [if_pos hl2]; exact Or.inl ⟨_, rfl⟩
    rw [if_neg hl2]; exact Or.inr (Or.inr (Or.inl ⟨_, rfl⟩))
  rw [if_neg h8]
  by_cases h9 : f.type = 78
  · rw [if_pos h9]; exact Or.inl ⟨_, rfl⟩
  rw [if_neg h9]
  by_cases h10 : f.type = 84
  · rw [if_pos h10]; exact Or.inl ⟨_, rfl⟩
  rw [if_neg h10]
  by_cases h11 : f.type = 89
  · rw [if_pos h11]; exact Or.inl ⟨_, rfl⟩
  rw [if_neg h11]; exact Or.inr (Or.inr (Or.inr rfl))

theorem columnType_out_mem (env : Env) (f : DBFFIELD) (o : Out)
    (h : o ∈ (columnType env f).1) : o.isColumn = true ∨ o = .newline := by
  rcases columnType_cases env f with ⟨t, ht⟩ | ht | ⟨t, ht⟩ | ht <;> rw [ht] at h <;>
    simp at h <;> subst h <;> simp [Out.isColumn]

theorem columnType_none_out (env : Env) (f : DBFFIELD)
    (hn : (columnType env f).2 = none) (o : Out) (h : o ∈ (columnType env f).1) :
    o.isColumn = true := by
  rcases columnType_cases env f with ⟨t, ht⟩ | ht | ⟨t, ht⟩ | ht <;> rw [ht] at h hn <;>
    simp at h hn
  subst h
  rfl

theorem columnType_exit (env : Env) (f : DBFFIELD) :
    (columnType env f).2 = none ∨ ∃ e, (columnType env f).2 = some (.failure e) := by
  rcases columnType_cases env f with ⟨t, ht⟩ | ht | ⟨t, ht⟩ | ht <;> rw [ht] <;> simp

theorem columnType_memo_missing (env : Env) (f : DBFFIELD) (hm : env.memomap = none)
    (hf : f.type = 77) : (columnType env f).2 = some (.failure .noMemoFile) := by
  unfold columnType
  rw [if_neg (by omega), if_neg (by omega), if_neg (by omega), if_neg (by omega),
    if_neg (by omega), if_neg (by omega), if_neg (by omega), if_pos hf, if_pos hm]

theorem supportedType_false {t : Nat} (h : supportedType t = false) :
    t ≠ 66 ∧ t ≠ 67 ∧ t ≠ 68 ∧ t ≠ 70 ∧ t ≠ 71 ∧ t ≠ 73 ∧ t ≠ 76 ∧ t ≠ 77 ∧ t ≠ 78 ∧
      t ≠ 84 ∧ t ≠ 89 ∧ t ≠ 48 := by
  simpa [supportedType] using h

theorem supportedType_true {t : Nat} (h : supportedType t = true) :
    t = 66 ∨ t = 67 ∨ t = 68 ∨ t = 70 ∨ t = 71 ∨ t = 73 ∨ t = 76 ∨ t = 77 ∨ t = 78 ∨
      t = 84 ∨ t = 89 ∨ t = 48 := by
  simpa [supportedType] using h

theorem columnType_unsupported (env : Env) (f : DBFFIELD)
    (hf : supportedType f.type = false) :
    columnType env f = ([.newline], some (.failure (.unhandledFieldType f.type))) := by
  obtain ⟨h1, h2, h3, h4, h5, h6, h7, h8, h9, h10, h11, _⟩ := supportedType_false hf
  unfold columnType
  rw [if_neg h1, if_neg h2, if_neg h3, if_neg h4, if_neg h5, if_neg h6, if_neg h7,
    if_neg h8, if_neg h9, if_neg h10, if_neg h11]

theorem columnType_supported (env : Env) (f : DBFFIELD)
    (hf : supportedType f.type = true)
    (hm : f.type = 77 → env.memomap ≠ none ∧ (f.length = 4 ∨ f.length = 10)) :
    f.type = 48 ∨ (columnType env f).2 = none := by
  by_cases h48 : f.type = 48
  · exact Or.inl h48
  right
  unfold columnType
  by_cases h1 : f.type = 66
  · rw [if_pos h1]
  rw [if_neg h1]
  by_cases h2 : f.type = 67
  · rw [if_pos h2]
  rw [if_neg h2]
  by_cases h3 : f.type = 68
  · rw [if_pos h3]
  rw [if_neg h3]
  by_cases h4 : f.type = 70
  · rw [if_pos h4]
  rw [if_neg h4]
  by_cases h5 : f.type = 71
  · rw [if_pos h5]
  rw [if_neg h5]
  by_cases h6 : f.type = 73
  · rw [if_pos h6]
  rw [if_neg h6]
  by_cases h7 : f.type = 76
  · rw [if_pos h7]
  rw [if_neg h7]
  by_cases h8 : f.type = 77
  · obtain ⟨hmm, hlen⟩ := hm h8
    rw [if_pos h8, if_neg hmm]
    rcases hlen with hl | hl
    · rw [if_pos hl]
    · rw [if_neg (by omega), if_pos hl]
  rw [if_neg h8]
  by_cases h9 : f.type = 78
  · rw [if_pos h9]
  rw [if_neg h9]
  by_cases h10 : f.type = 84
  · rw [if_pos h10]
  rw [if_neg h10]
  by_cases h11 : f.type = 89
  · rw [if_pos h11]
  exfalso
  have := supportedType_true hf
  omega

theorem schemaLoop_cons_skip (env : Env) (f : DBFFIELD) (fs : List DBFFIELD)
    (printed : Bool) (h : f.type = 48) :
    schemaLoop env (f :: fs) printed = schemaLoop env fs printed := by
  rw [schemaLoop, if_pos h]

theorem schemaLoop_cons (env : Env) (f : DBFFIELD) (fs : List DBFFIELD)
    (printed : Bool) (h : f.type ≠ 48) :
    schemaLoop env (f :: fs) printed =
      ((if printed then [Out.colSep] else []) ++ [Out.colName (fieldname f)]
        ++ (Trace.andThen (columnType env f) (schemaLoop env fs true)).1,
       (Trace.andThen (columnType env f) (schemaLoop env fs true)).2) := by
  rw [schemaLoop, if_neg h, andThen_pure]

theorem colSep_mem (printed : Bool) (name : List Nat) (o : Out)
    (h : o ∈ (if printed then [Out.colSep] else []) ++ [Out.colName name]) :
    o.isColumn = true := by
  cases printed
  · simp at h; subst h; rfl
  · simp at h
    rcases h with h | h
    · subst h; rfl
    · subst h; rfl

theorem schemaLoop_out_mem (env : Env) (fields : List DBFFIELD) : ∀ (printed : Bool) (o : Out),
    o ∈ (schemaLoop env fields printed).1 → o.isColumn = true ∨ o = .newline := by
  induction fields with
  | nil => intro printed o h; simp [schemaLoop] at h
  | cons f fs ih =>
    intro printed o h
    by_cases h48 : f.type = 48
    · rw [schemaLoop_cons_skip env f fs printed h48] at h
      exact ih printed o h
    · rw [schemaLoop_cons env f fs printed h48] at h
      rcases List.mem_append.mp h with h | h
      · exact Or.inl (colSep_mem printed _ o h)
      · rcases mem_andThen h with h | h
        · exact columnType_out_mem env f o h
        · exact ih true o h

theorem schemaLoop_none_out (env : Env) (fields : List DBFFIELD) : ∀ (printed : Bool),
    (schemaLoop env fields printed).2 = none →
    ∀ o ∈ (schemaLoop env fields printed).1, o.isColumn = true := by
  induction fields with
  | nil => intro printed _ o h; simp [schemaLoop] at h
  | cons f fs ih =>
    intro printed hn o h
    by_cases h48 : f.type = 48
    · rw [schemaLoop_cons_skip env f fs printed h48] at h hn
      exact ih printed hn o h
    · rw [schemaLoop_cons env f fs printed h48] at h hn
      obtain ⟨hc, hs, hout⟩ := andThen_exit_none hn
      rcases List.mem_append.mp h with h | h
      · exact colSep_mem printed _ o h
      · rw [hout] at h
        rcases List.mem_append.mp h with h | h
        · exact columnType_none_out env f hc o h
        · exact ih true hs o h

theorem schemaLoop_exit (env : Env) (fields : List DBFFIELD) : ∀ (printed : Bool),
    (schemaLoop env fields printed).2 = none ∨
      ∃ e, (schemaLoop env fields printed).2 = some (.failure e) := by
  induction fields with
  | nil => intro printed; left; rfl
  | cons f fs ih =>
    intro printed
    by_cases h48 : f.type = 48
    · rw [schemaLoop_cons_skip env f fs printed h48]
      exact ih printed
    · rw [schemaLoop_cons env f fs printed h48]
      rcases columnType_exit env f with hc | ⟨e, hc⟩
      · rcases ih true with hs | ⟨e, hs⟩
        · left
          simp only [Trace.andThen, hc, hs]
        · right
          exact ⟨e, by simp only [Trace.andThen, hc, hs]⟩
      · right
        exact ⟨e, by simp only [Trace.andThen, hc]⟩

/-- The schema loop stops at the first field whose `switch` arm exits. -/
theorem schemaLoop_first_failure (env : Env) (pre : List DBFFIELD) (f : DBFFIELD)
    (post : List DBFFIELD) (e : Exit)
    (hpre : ∀ g ∈ pre, g.type = 48 ∨ (columnType env g).2 = none)
    (h48 : f.type ≠ 48) (hf : (columnType env f).2 = some e) : ∀ (printed : Bool),
    (schemaLoop env (pre ++ f :: post) printed).2 = some e := by
  induction pre with
  | nil =>
    intro printed
    rw [List.nil_append, schemaLoop_cons env f post printed h48]
    simp only [Trace.andThen, hf]
  | cons g gs ih =>
    intro printed
    have ih1 := ih (fun x hx => hpre x (List.mem_cons_of_mem _ hx))
    rw [List.cons_append]
    by_cases hg : g.type = 48
    · rw [schemaLoop_cons_skip env g _ printed hg]
      exact ih1 printed
    · rw [schemaLoop_cons env g _ printed hg]
      rcases hpre g (List.mem_cons_self _ _) with h | h
      · exact absurd h hg
      · simp only [Trace.andThen, h, ih1 true]

/-- The schema loop fails as soon as one field that is not skipped has a
failing `switch` arm, whatever comes before it. -/
theorem schemaLoop_fails (env : Env) (fields : List DBFFIELD)
    (h : ∃ f ∈ fields, f.type ≠ 48 ∧ ∃ e, (columnType env f).2 = some (.failure e)) :
    ∀ (printed : Bool), ∃ e, (schemaLoop env fields printed).2 = some (.failure e) := by
  induction fields with
  | nil => obtain ⟨f, hf, _⟩ := h; simp at hf
  | cons g gs ih =>
    intro printed
    obtain ⟨f, hf, h48, e, he⟩ := h
    by_cases hg : g.type = 48
    · rw [schemaLoop_cons_skip env g gs printed hg]
      rcases List.mem_cons.mp hf with hfg | hfg
      · subst hfg; exact absurd hg h48
      · exact ih ⟨f, hfg, h48, e, he⟩ printed
    · rw [schemaLoop_cons env g gs printed hg]
      rcases columnType_exit env g with hc | ⟨e1, hc⟩
      · rcases List.mem_cons.mp hf with hfg | hfg
        · subst hfg; rw [hc] at he; simp at he
        · obtain ⟨e2, h2⟩ := ih ⟨f, hfg, h48, e, he⟩ true
          exact ⟨e2, by simp only [Trace.andThen, hc, h2]⟩
      · exact ⟨e1, by simp only [Trace.andThen, hc]⟩

/-! ## The record loops -/

theorem printValue_cases (literal : Option (List Nat)) :
    (∃ v, printValue literal = ([.value v], none)) ∨ printValue literal = ([], some .crash) := by
  cases literal with
  | none => exact Or.inr rfl
  | some v => exact Or.inl ⟨v, rfl⟩

theorem memoLookup_cases (env : Env) (memorecord : List Nat) :
    (∃ v, memoLookup env memorecord = ([.value v], none)) ∨
    memoLookup env memorecord = ([], some .crash) := by
  unfold memoLookup
  by_cases hsig : env.signature = 0x83
  · rw [if_pos hsig]
    cases strchr memorecord 0x1A with
    | some t => exact printValue_cases _
    | none =>
      by_cases h0 : memorecord.getD 0 0 = 0
      · dsimp only; rw [if_pos h0]; exact Or.inl ⟨_, rfl⟩
      · dsimp only; rw [if_neg h0]; exact Or.inr rfl
  · rw [if_neg hsig]
    exact printValue_cases _

theorem memoAt_cases (env : Env) (n : Int) :
    (∃ v, memoAt env n = ([.value v], none)) ∨
    memoAt env n = ([], none) ∨
    memoAt env n = ([], some .crash) := by
  unfold memoAt
  by_cases hn : n = 0
  · rw [if_pos hn]; exact Or.inr (Or.inl rfl)
  rw [if_neg hn]
  cases env.memomap with
  | none => exact Or.inr (Or.inr rfl)
  | some memomap =>
    simp only []
    cases memomap.drop ((env.memoblocksize * toSizeT n) % 18446744073709551616) with
    | nil => exact Or.inr (Or.inr rfl)
    | cons b r =>
      rcases memoLookup_cases env (b :: r) with h | h
      · exact Or.inl h
      · exact Or.inr (Or.inr h)

theorem memoValue_cases (env : Env) (f : DBFFIELD) (bufoffset : List Nat) :
    (∃ v, memoValue env f bufoffset = ([.value v], none)) ∨
    memoValue env f bufoffset = ([], none) ∨
    memoValue env f bufoffset = ([], some .crash) := by
  exact memoAt_cases env _

theorem fieldValue_cases (env : Env) (f : DBFFIELD) (bufoffset : List Nat) :
    (∃ v, fieldValue env f bufoffset = ([.value v], none)) ∨
    fieldValue env f bufoffset = ([], none) ∨
    fieldValue env f bufoffset = ([], some .crash) := by
  unfold fieldValue
  by_cases h1 : f.type = 66
  · rw [if_pos h1]; exact Or.inl ⟨_, rfl⟩
  rw [if_neg h1]
  by_cases h2 : f.type = 67
  · rw [if_pos h2]
    rcases printValue_cases (safeprintbuf bufoffset f.length) with h | h
    · exact Or.inl h
    · exact Or.inr (Or.inr h)
  rw [if_neg h2]
  by_cases h3 : f.type = 68
  · rw [if_pos h3]; exact Or.inl ⟨_, rfl⟩
  rw [if_neg h3]
  by_cases h4 : f.type = 71
  · rw [if_pos h4]; exact Or.inr (Or.inl rfl)
  rw [if_neg h4]
  by_cases h5 : f.type = 73
  · rw [if_pos h5]; exact Or.inl ⟨_, rfl⟩
  rw [if_neg h5]
  by_cases h6 : f.type = 76
  · rw [if_pos h6]; exact Or.inl ⟨_, rfl⟩
  rw [if_neg h6]
  by_cases h7 : f.type = 77
  · rw [if_pos h7]; exact memoValue_cases env f bufoffset
  rw [if_neg h7]
  by_cases h8 : f.type = 70 ∨ f.type = 78
  · rw [if_pos h8]; exact Or.inl ⟨_, rfl⟩
  rw [if_neg h8]
  by_cases h9 : f.type = 84
  · rw [if_pos h9]; exact Or.inl ⟨_, rfl⟩
  rw [if_neg h9]
  by_cases h10 : f.type = 89
  · rw [if_pos h10]; exact Or.inl ⟨_, rfl⟩
  rw [if_neg h10]; exact Or.inr (Or.inl rfl)

theorem fieldLoop_cons_skip (env : Env) (f : DBFFIELD) (fs : List DBFFIELD)
    (fieldnum : Nat) (bufoffset : List Nat) (h : f.type = 48) :
    fieldLoop env (f :: fs) fieldnum bufoffset = fieldLoop env fs (fieldnum + 1) bufoffset := by
  rw [fieldLoop, if_pos h]

theorem fieldLoop_cons (env : Env) (f : DBFFIELD) (fs : List DBFFIELD)
    (fieldnum : Nat) (bufoffset : List Nat) (h : f.type ≠ 48) :
    fieldLoop env (f :: fs) fieldnum bufoffset =
      ((if fieldnum ≠ 0 then [Out.valSep] else [])
        ++ (Trace.andThen (fieldValue env f bufoffset)
            (fieldLoop env fs (fieldnum + 1) (bufoffset.drop f.length))).1,
       (Trace.andThen (fieldValue env f bufoffset)
            (fieldLoop env fs (fieldnum + 1) (bufoffset.drop f.length))).2) := by
  rw [fieldLoop, if_neg h, andThen_pure]

theorem valSep_mem (fieldnum : Nat) (o : Out)
    (h : o ∈ (if fieldnum ≠ 0 then [Out.valSep] else [])) : o.isValue = true := by
  split_ifs at h
  · simp at h; subst h; rfl
  · simp at h

theorem fieldValue_out_mem (env : Env) (f : DBFFIELD) (bufoffset : List Nat) (o : Out)
    (h : o ∈ (fieldValue env f bufoffset).1) : o.isValue = true := by
  rcases fieldValue_cases env f bufoffset with ⟨v, hv⟩ | hv | hv <;> rw [hv] at h <;>
    simp at h
  subst h; rfl

theorem fieldLoop_out_mem (env : Env) (fields : List DBFFIELD) :
    ∀ (fieldnum : Nat) (bufoffset : List Nat) (o : Out),
    o ∈ (fieldLoop env fields fieldnum bufoffset).1 → o.isValue = true := by
  induction fields with
  | nil => intro fieldnum bufoffset o h; simp [fieldLoop] at h
  | cons f fs ih =>
    intro fieldnum bufoffset o h
    by_cases h48 : f.type = 48
    · rw [fieldLoop_cons_skip env f fs fieldnum bufoffset h48] at h
      exact ih _ _ o h
    · rw [fieldLoop_cons env f fs fieldnum bufoffset h48] at h
      rcases List.mem_append.mp h with h | h
      · exact valSep_mem fieldnum o h
      · rcases mem_andThen h with h | h
        · exact fieldValue_out_mem env f bufoffset o h
        · exact ih _ _ o h

theorem fieldLoop_exit (env : Env) (fields : List DBFFIELD) :
    ∀ (fieldnum : Nat) (bufoffset : List Nat),
    (fieldLoop env fields fieldnum bufoffset).2 = none ∨
      (fieldLoop env fields fieldnum bufoffset).2 = some .crash := by
  induction fields with
  | nil => intro fieldnum bufoffset; left; rfl
  | cons f fs ih =>
    intro fieldnum bufoffset
    by_cases h48 : f.type = 48
    · rw [fieldLoop_cons_skip env f fs fieldnum bufoffset h48]
      exact ih _ _
    · rw [fieldLoop_cons env f fs fieldnum bufoffset h48]
      rcases fieldValue_cases env f bufoffset with ⟨v, hv⟩ | hv | hv
      · rw [hv]; exact ih _ _
      · rw [hv]; exact ih _ _
      · rw [hv]; right; rfl

theorem insertSeq_nil (t : List Nat) : InsertSeq t [] :=
  ⟨[], by simp, rfl⟩

theorem insertSeq_append {t : List Nat} {a b : List Out} (ha : InsertSeq t a)
    (hb : InsertSeq t b) : InsertSeq t (a ++ b) := by
  obtain ⟨sa, hsa, rfl⟩ := ha
  obtain ⟨sb, hsb, rfl⟩ := hb
  refine ⟨sa ++ sb, ?_, by simp [insertStatements]⟩
  intro values hv
  rcases List.mem_append.mp hv with h | h
  · exact hsa values h
  · exact hsb values h

theorem insertSeq_single (t : List Nat) (values : List Out)
    (h : ∀ o ∈ values, o.isValue = true) :
    InsertSeq t (Out.insertOpen t :: values ++ [Out.insertClose]) :=
  ⟨[values], by simpa using h, by simp [insertStatements]⟩

theorem recordTrace_nil (t : List Nat) : RecordTrace t ([], none) :=
  ⟨by simp, fun _ => insertSeq_nil t, by simp⟩

theorem recordTrace_andThen {t : List Nat} {a b : Trace} (ha : RecordTrace t a)
    (hb : RecordTrace t b) : RecordTrace t (Trace.andThen a b) := by
  refine ⟨fun o ho => ?_, fun hn => ?_, fun hs => ?_⟩
  · rcases mem_andThen ho with h | h
    · exact ha.1 o h
    · exact hb.1 o h
  · obtain ⟨h1, h2, h3⟩ := andThen_exit_none hn
    rw [h3]
    exact insertSeq_append (ha.2.1 h1) (hb.2.1 h2)
  · rcases andThen_exit_some hs with ⟨h, _⟩ | ⟨_, h, _⟩
    · exact ha.2.2 h
    · exact hb.2.2 h

theorem recordOut_trace (env : Env) (fields : List DBFFIELD) (bufoffset : List Nat) :
    RecordTrace env.tablename (recordOut env fields bufoffset) := by
  unfold recordOut
  split_ifs with hdel
  · exact recordTrace_nil _
  · rw [andThen_pure]
    have hmem := fieldLoop_out_mem env fields 0 (bufoffset.drop 1)
    refine ⟨fun o ho => ?_, fun hn => ?_, fun hs => ?_⟩
    · rcases List.mem_append.mp ho with h | h
      · simp at h; subst h; rfl
      · rcases mem_andThen h with h | h
        · have := hmem o h
          cases o <;> simp_all [Out.isValue, Out.isInsertPart]
        · simp at h; subst h; rfl
    · obtain ⟨h1, _, h3⟩ := andThen_exit_none hn
      simp only [h3]
      exact insertSeq_single _ _ hmem
    · rcases andThen_exit_some hs with ⟨h, _⟩ | ⟨_, h, _⟩
      · rcases fieldLoop_exit env fields 0 (bufoffset.drop 1) with h2 | h2 <;>
          rw [h2] at h <;> simp at h
      · simp at h

theorem batchLoop_trace (env : Env) (fields : List DBFFIELD) (recordlength : Nat)
    (inputbuffer : List Nat) (n : Nat) : ∀ batchindex : Nat,
    RecordTrace env.tablename (batchLoop env fields recordlength inputbuffer n batchindex) := by
  induction n with
  | zero => intro batchindex; exact recordTrace_nil _
  | succ n ih =>
    intro batchindex
    rw [batchLoop]
    exact recordTrace_andThen (recordOut_trace env fields _) (ih _)

theorem recordLoop_trace (env : Env) (fields : List DBFFIELD) (recordcount : Int)
    (recordlength dbfbatchsize : Nat) (fuel : Nat) :
    ∀ (recordbase : Nat) (file inputbuffer : List Nat),
    RecordTrace env.tablename
      (recordLoop env fields recordcount recordlength dbfbatchsize fuel recordbase file
        inputbuffer) := by
  induction fuel with
  | zero =>
    intro recordbase file inputbuffer
    exact ⟨by simp [recordLoop], by simp [recordLoop], by simp [recordLoop]⟩
  | succ fuel ih =>
    intro recordbase file inputbuffer
    rw [recordLoop]
    split
    · simp only []
      split
      · exact ⟨by simp, by simp, by simp⟩
      · exact recordTrace_andThen (batchLoop_trace env fields _ _ _ _) (ih _ _ _)
    · exact recordTrace_nil _

/-- The bound on the turns of the record loop is never reached: with more
turns allowed than bytes left in the file, allowing one more changes nothing.
(Each turn either consumes at least one byte or, at the end of the file, takes
the short-read exit.) -/
theorem recordLoop_enough_fuel (env : Env) (fields : List DBFFIELD) (recordcount : Int)
    (recordlength dbfbatchsize : Nat) (hrl : 0 < recordlength) (hbs : 0 < dbfbatchsize)
    (fuel : Nat) : ∀ (recordbase : Nat) (file inputbuffer : List Nat),
    file.length < fuel →
    recordLoop env fields recordcount recordlength dbfbatchsize fuel recordbase file
        inputbuffer =
      recordLoop env fields recordcount recordlength dbfbatchsize (fuel + 1) recordbase file
        inputbuffer := by
  induction fuel with
  | zero => intro recordbase file inputbuffer h; omega
  | succ fuel ih =>
    intro recordbase file inputbuffer h
    rw [recordLoop, recordLoop]
    by_cases h1 : recordbase < toUInt32 recordcount
    · rw [if_pos h1, if_pos h1]
      simp only []
      by_cases h2 : (file.take (recordlength * dbfbatchsize)).length / recordlength
          ≠ dbfbatchsize ∧
          recordbase + (file.take (recordlength * dbfbatchsize)).length / recordlength
            < toSizeT recordcount
      · rw [if_pos h2, if_pos h2]
      · rw [if_neg h2, if_neg h2]
        have hpos : 0 < recordlength * dbfbatchsize := Nat.mul_pos hrl hbs
        have hfile : file ≠ [] := by
          intro hnil
          apply h2
          subst hnil
          have hle : toUInt32 recordcount ≤ toSizeT recordcount := by
            unfold toUInt32 toSizeT; omega
          simp
          omega
        have hlen : 0 < file.length := List.length_pos.mpr hfile
        have hdrop : (file.drop (recordlength * dbfbatchsize)).length < fuel := by
          rw [List.length_drop]; omega
        rw [ih _ _ _ hdrop]
    · rw [if_neg h1, if_neg h1]

theorem recordsPart_trace (env : Env) (hdr : DBFHEADER) (fields : List DBFFIELD)
    (data : List Nat) : RecordTrace env.tablename (recordsPart env hdr fields data) := by
  unfold recordsPart
  simp only []
  split
  · exact ⟨by simp, by simp, by simp⟩
  · split
    · exact ⟨by simp, by simp, by simp⟩
    · exact recordLoop_trace env fields _ _ _ _ _ _ _

theorem indexLoop_eq (tablename : List Nat) (columns : List (List Nat)) :
    ∀ lastcharwasreplaced : Bool, ∃ idents : List (List Nat),
      idents.length = columns.length ∧
      indexLoop tablename columns lastcharwasreplaced =
        List.zipWith (fun ident column => Out.createIndex tablename ident column)
          idents columns := by
  induction columns with
  | nil => intro r; exact ⟨[], rfl, rfl⟩
  | cons c cs ih =>
    intro r
    obtain ⟨ids, hlen, heq⟩ := ih (sanitizeLoop c r).2
    refine ⟨(sanitizeLoop c r).1 :: ids, by simp [hlen], ?_⟩
    simp only [indexLoop, List.zipWith_cons_cons, heq]

/-! ## The whole script -/

theorem emitScript_schema_stop (env : Env) (hdr : DBFHEADER) (fields : List DBFFIELD)
    (data : List Nat) (indexcolumns : List (List Nat)) (e : Exit)
    (hs : (schemaLoop env fields false).2 = some e) :
    emitScript env hdr fields data indexcolumns =
      { out := [.begin, .dropTable env.tablename, .createOpen env.tablename]
          ++ (schemaLoop env fields false).1,
        exit := e } := by
  simp only [emitScript, Trace.andThen, hs, Option.getD_some]

theorem emitScript_record_stop (env : Env) (hdr : DBFHEADER) (fields : List DBFFIELD)
    (data : List Nat) (indexcolumns : List (List Nat)) (e : Exit)
    (hs : (schemaLoop env fields false).2 = none)
    (hr : (recordsPart env hdr fields data).2 = some e) :
    emitScript env hdr fields data indexcolumns =
      { out := [.begin, .dropTable env.tablename, .createOpen env.tablename]
          ++ ((schemaLoop env fields false).1
            ++ ([.createClose] ++ (recordsPart env hdr fields data).1)),
        exit := e } := by
  simp only [emitScript, Trace.andThen, hs, hr, Option.getD_some]

theorem emitScript_complete (env : Env) (hdr : DBFHEADER) (fields : List DBFFIELD)
    (data : List Nat) (indexcolumns : List (List Nat))
    (hs : (schemaLoop env fields false).2 = none)
    (hr : (recordsPart env hdr fields data).2 = none) :
    emitScript env hdr fields data indexcolumns =
      { out := [.begin, .dropTable env.tablename, .createOpen env.tablename]
          ++ ((schemaLoop env fields false).1
            ++ ([.createClose] ++ ((recordsPart env hdr fields data).1
              ++ .commit :: indexLoop env.tablename indexcolumns false))),
        exit := .success } := by
  simp only [emitScript, Trace.andThen, hs, hr, Option.getD_none]

/-- A run that stops inside the schema loop has printed the opening of the
script and column entries only. -/
theorem emitScript_schema_stop_mem (env : Env) (hdr : DBFHEADER) (fields : List DBFFIELD)
    (data : List Nat) (indexcolumns : List (List Nat)) (e : Exit)
    (hs : (schemaLoop env fields false).2 = some e) (o : Out)
    (ho : o ∈ (emitScript env hdr fields data indexcolumns).out) :
    o = .begin ∨ o = .dropTable env.tablename ∨ o = .createOpen env.tablename ∨
      o.isColumn = true ∨ o = .newline := by
  rw [emitScript_schema_stop env hdr fields data indexcolumns e hs] at ho
  rcases List.mem_append.mp ho with h | h
  · simp at h
    rcases h with h | h | h
    · exact Or.inl h
    · exact Or.inr (Or.inl h)
    · exact Or.inr (Or.inr (Or.inl h))
  · rcases schemaLoop_out_mem env fields false o h with h | h
    · exact Or.inr (Or.inr (Or.inr (Or.inl h)))
    · exact Or.inr (Or.inr (Or.inr (Or.inr h)))

theorem emitScript_no_commit (env : Env) (hdr : DBFHEADER) (fields : List DBFFIELD)
    (data : List Nat) (indexcolumns : List (List Nat))
    (h : (emitScript env hdr fields data indexcolumns).exit ≠ .success) :
    Out.commit ∉ (emitScript env hdr fields data indexcolumns).out := by
  intro hc
  cases hs : (schemaLoop env fields false).2 with
  | some e =>
    rcases emitScript_schema_stop_mem env hdr fields data indexcolumns e hs _ hc with
      h1 | h1 | h1 | h1 | h1 <;> simp [Out.isColumn] at h1
  | none =>
    cases hr : (recordsPart env hdr fields data).2 with
    | some e =>
      rw [emitScript_record_stop env hdr fields data indexcolumns e hs hr] at hc
      simp only [List.mem_append, List.mem_cons, List.mem_singleton, List.not_mem_nil,
        or_false] at hc
      rcases hc with hc | hc | hc | hc
      · rcases hc with hc | hc | hc <;> simp at hc
      · have := schemaLoop_none_out env fields false hs _ hc
        simp [Out.isColumn] at this
      · simp at hc
      · have := (recordsPart_trace env hdr fields data).1 _ hc
        simp [Out.isInsertPart] at this
    | none =>
      rw [emitScript_complete env hdr fields data indexcolumns hs hr] at h
      exact h rfl

theorem emitScript_success (env : Env) (hdr : DBFHEADER) (fields : List DBFFIELD)
    (data : List Nat) (indexcolumns : List (List Nat))
    (h : (emitScript env hdr fields data indexcolumns).exit = .success) :
    ∃ (columns : List Out) (stmts : List (List Out)) (idents : List (List Nat)),
      (emitScript env hdr fields data indexcolumns).out =
        [.begin, .dropTable env.tablename, .createOpen env.tablename] ++ columns
          ++ [.createClose] ++ insertStatements env.tablename stmts ++ [.commit]
          ++ List.zipWith (fun ident column => Out.createIndex env.tablename ident column)
              idents indexcolumns ∧
      (∀ o ∈ columns, o.isColumn = true) ∧
      (∀ values ∈ stmts, ∀ o ∈ values, o.isValue = true) ∧
      idents.length = indexcolumns.length := by
  cases hs : (schemaLoop env fields false).2 with
  | some e =>
    rw [emitScript_schema_stop env hdr fields data indexcolumns e hs] at h
    simp only at h
    rcases schemaLoop_exit env fields false with h2 | ⟨e2, h2⟩ <;> rw [hs] at h2 <;>
      simp at h2
    rw [h] at h2; simp at h2
  | none =>
    cases hr : (recordsPart env hdr fields data).2 with
    | some e =>
      rw [emitScript_record_stop env hdr fields data indexcolumns e hs hr] at h
      simp only at h
      rw [h] at hr
      exact absurd hr (recordsPart_trace env hdr fields data).2.2
    | none =>
      obtain ⟨stmts, hstmts, hout⟩ := (recordsPart_trace env hdr fields data).2.1 hr
      obtain ⟨idents, hlen, hidx⟩ := indexLoop_eq env.tablename indexcolumns false
      refine ⟨(schemaLoop env fields false).1, stmts, idents, ?_,
        schemaLoop_none_out env fields false hs, hstmts, hlen⟩
      rw [emitScript_complete env hdr fields data indexcolumns hs hr, hout, hidx]
      simp

/-- A run either fails while the header is decoded, with nothing printed, or
is the script part run on the decoded header and fields. -/
theorem run_cases (fmtDouble : Nat → List Nat → List Nat) (tablename : List Nat)
    (memofile : Option (List Nat)) (indexcolumns : List (List Nat)) (file : List Nat) :
    ((run fmtDouble tablename memofile indexcolumns file).out = [] ∧
      ∃ e, (run fmtDouble tablename memofile indexcolumns file).exit = .failure e) ∨
    ∃ (env : Env) (hdr : DBFHEADER) (fields : List DBFFIELD) (data : List Nat),
      env.tablename = tablename ∧ env.memomap = memofile.map mmapBytes ∧
      run fmtDouble tablename memofile indexcolumns file =
        emitScript env hdr fields data indexcolumns := by
  unfold run
  cases decodeSchema file with
  | error e => exact Or.inl ⟨rfl, _, rfl⟩
  | ok r =>
    obtain ⟨hdr, fields, data⟩ := r
    by_cases hm : memofile = some []
    · dsimp only; rw [if_pos hm]
      exact Or.inl ⟨rfl, _, rfl⟩
    · dsimp only; rw [if_neg hm]
      exact Or.inr ⟨_, _, _, _, rfl, rfl, rfl⟩

/-! ## The script as a whole: claims -/

/-- C7, the claim as stated fails: with the single field `m` of type M and
length 4 and no memo file, the run fails with the missing-memo message after
it has printed `BEGIN`, `DROP TABLE`, the opening `CREATE TABLE t (`, the
column name and a newline. -/
theorem memo_missing_prints_create_table_opening :
    (run (fun _ _ => []) (str "t") none []
        (headerBytes 3 0 65 5 ++ fieldBytes 109 77 4 0 ++ [13])).exit =
      .failure .noMemoFile ∧
    (run (fun _ _ => []) (str "t") none []
        (headerBytes 3 0 65 5 ++ fieldBytes 109 77 4 0 ++ [13])).out =
      [.begin, .dropTable (str "t"), .createOpen (str "t"), .colName [109], .newline] ∧
    Out.createOpen (str "t") ∈
      (run (fun _ _ => []) (str "t") none []
        (headerBytes 3 0 65 5 ++ fieldBytes 109 77 4 0 ++ [13])).out := by
  decide

/-- C7 as amended: for every schema with at least one field of type M, if no
memo file was given the run ends with a failure; what it has printed contains
the opening of `CREATE TABLE` but neither the closing of that statement nor
the opening of any `INSERT`, nor `COMMIT`. -/
theorem memo_missing_stops_inside_create_table (env : Env) (hdr : DBFHEADER)
    (fields : List DBFFIELD) (data : List Nat) (indexcolumns : List (List Nat))
    (hm : env.memomap = none) (hM : ∃ f ∈ fields, f.type = 77) :
    (∃ e, (emitScript env hdr fields data indexcolumns).exit = .failure e) ∧
    Out.createOpen env.tablename ∈ (emitScript env hdr fields data indexcolumns).out ∧
    Out.createClose ∉ (emitScript env hdr fields data indexcolumns).out ∧
    (∀ t, Out.insertOpen t ∉ (emitScript env hdr fields data indexcolumns).out) ∧
    Out.commit ∉ (emitScript env hdr fields data indexcolumns).out := by
  obtain ⟨f, hf, h77⟩ := hM
  obtain ⟨e, he⟩ := schemaLoop_fails env fields
    ⟨f, hf, by omega, _, columnType_memo_missing env f hm h77⟩ false
  have hmem := emitScript_schema_stop_mem env hdr fields data indexcolumns _ he
  refine ⟨⟨e, ?_⟩, ?_, ?_, ?_, ?_⟩
  · rw [emitScript_schema_stop env hdr fields data indexcolumns _ he]
  · rw [emitScript_schema_stop env hdr fields data indexcolumns _ he]
    simp
  · intro hc
    rcases hmem _ hc with h | h | h | h | h <;> simp [Out.isColumn] at h
  · intro t hc
    rcases hmem _ hc with h | h | h | h | h <;> simp [Out.isColumn] at h
  · intro hc
    rcases hmem _ hc with h | h | h | h | h <;> simp [Out.isColumn] at h

/-- Witness of C7 as amended: a text field followed by a memo field, no memo
file. -/
theorem memo_missing_stops_inside_create_table_witness :
    (∃ e, (emitScript sampleEnv ⟨3, 0, 97, 7⟩ [⟨[99], 67, 2, 0⟩, ⟨[109], 77, 4, 0⟩] []
        []).exit = .failure e) ∧
    Out.createOpen sampleEnv.tablename ∈
      (emitScript sampleEnv ⟨3, 0, 97, 7⟩ [⟨[99], 67, 2, 0⟩, ⟨[109], 77, 4, 0⟩] [] []).out ∧
    Out.createClose ∉
      (emitScript sampleEnv ⟨3, 0, 97, 7⟩ [⟨[99], 67, 2, 0⟩, ⟨[109], 77, 4, 0⟩] [] []).out ∧
    (∀ t, Out.insertOpen t ∉
      (emitScript sampleEnv ⟨3, 0, 97, 7⟩ [⟨[99], 67, 2, 0⟩, ⟨[109], 77, 4, 0⟩] [] []).out) ∧
    Out.commit ∉
      (emitScript sampleEnv ⟨3, 0, 97, 7⟩ [⟨[99], 67, 2, 0⟩, ⟨[109], 77, 4, 0⟩] [] []).out :=
  memo_missing_stops_inside_create_table sampleEnv ⟨3, 0, 97, 7⟩
    [⟨[99], 67, 2, 0⟩, ⟨[109], 77, 4, 0⟩] [] [] rfl ⟨⟨[109], 77, 4, 0⟩, by decide, rfl⟩

/-- C8: a run that does not end with success, be it any of the fatal errors
or a crash, has not printed `COMMIT`. -/
theorem fatal_error_never_commits (fmtDouble : Nat → List Nat → List Nat)
    (tablename : List Nat) (memofile : Option (List Nat))
    (indexcolumns : List (List Nat)) (file : List Nat)
    (h : (run fmtDouble tablename memofile indexcolumns file).exit ≠ .success) :
    Out.commit ∉ (run fmtDouble tablename memofile indexcolumns file).out := by
  rcases run_cases fmtDouble tablename memofile indexcolumns file with
    ⟨hout, _⟩ | ⟨env, hdr, fields, data, _, _, hrun⟩
  · rw [hout]; simp
  · rw [hrun] at h ⊢
    exact emitScript_no_commit env hdr fields data indexcolumns h

/-- Witness of C8: the header announces two records of three bytes, the file
holds one; the run fails with the short-read message after the schema. -/
theorem fatal_error_never_commits_witness :
    (run (fun _ _ => []) (str "t") none [[97]]
        (headerBytes 3 2 65 3 ++ fieldBytes 99 67 2 0 ++ [13] ++ [32, 97, 98])).exit =
      .failure .shortRecord ∧
    Out.commit ∉ (run (fun _ _ => []) (str "t") none [[97]]
        (headerBytes 3 2 65 3 ++ fieldBytes 99 67 2 0 ++ [13] ++ [32, 97, 98])).out :=
  ⟨by decide,
   fatal_error_never_commits (fun _ _ => []) (str "t") none [[97]]
    (headerBytes 3 2 65 3 ++ fieldBytes 99 67 2 0 ++ [13] ++ [32, 97, 98]) (by decide)⟩

/-- C9: a run that completes has printed exactly `BEGIN`, `DROP TABLE IF
EXISTS` for the table, one `CREATE TABLE` for the table (its opening, column
entries only, its closing), zero or more complete `INSERT` statements into the
table, one `COMMIT`, and one `CREATE INDEX` per index column in the order of
the arguments, and nothing else. -/
theorem statement_order_on_success (fmtDouble : Nat → List Nat → List Nat)
    (tablename : List Nat) (memofile : Option (List Nat))
    (indexcolumns : List (List Nat)) (file : List Nat)
    (h : (run fmtDouble tablename memofile indexcolumns file).exit = .success) :
    ∃ (columns : List Out) (stmts : List (List Out)) (idents : List (List Nat)),
      (run fmtDouble tablename memofile indexcolumns file).out =
        [.begin, .dropTable tablename, .createOpen tablename] ++ columns
          ++ [.createClose] ++ insertStatements tablename stmts ++ [.commit]
          ++ List.zipWith (fun ident column => Out.createIndex tablename ident column)
              idents indexcolumns ∧
      (∀ o ∈ columns, o.isColumn = true) ∧
      (∀ values ∈ stmts, ∀ o ∈ values, o.isValue = true) ∧
      idents.length = indexcolumns.length := by
  rcases run_cases fmtDouble tablename memofile indexcolumns file with
    ⟨_, e, he⟩ | ⟨env, hdr, fields, data, ht, _, hrun⟩
  · rw [he] at h; simp at h
  · rw [hrun] at h ⊢
    rw [← ht]
    exact emitScript_success env hdr fields data indexcolumns h

/-- Witness of C9: one text field of two bytes, two records of three bytes of
which the second is deleted, one index column. -/
theorem statement_order_on_success_witness :
    (run (fun _ _ => []) (str "t") none [[99]]
      (headerBytes 3 2 65 3 ++ fieldBytes 99 67 2 0 ++ [13]
        ++ [32, 97, 98, 42, 99, 100])).exit = .success ∧
    ∃ (columns : List Out) (stmts : List (List Out)) (idents : List (List Nat)),
      (run (fun _ _ => []) (str "t") none [[99]]
        (headerBytes 3 2 65 3 ++ fieldBytes 99 67 2 0 ++ [13]
          ++ [32, 97, 98, 42, 99, 100])).out =
        [.begin, .dropTable (str "t"), .createOpen (str "t")] ++ columns
          ++ [.createClose] ++ insertStatements (str "t") stmts ++ [.commit]
          ++ List.zipWith (fun ident column => Out.createIndex (str "t") ident column)
              idents [[99]] ∧
      (∀ o ∈ columns, o.isColumn = true) ∧
      (∀ values ∈ stmts, ∀ o ∈ values, o.isValue = true) ∧
      idents.length = [[99]].length :=
  ⟨by decide,
   statement_order_on_success (fun _ _ => []) (str "t") none [[99]]
    (headerBytes 3 2 65 3 ++ fieldBytes 99 67 2 0 ++ [13] ++ [32, 97, 98, 42, 99, 100])
    (by decide)⟩

/-- C10, the claim as stated fails: with a memo field of length 4 followed by
a field of the unsupported type `X` and no memo file, the run fails with the
missing-memo message, not with the message of the unhandled field type. -/
theorem unsupported_type_after_memo_reports_memo :
    supportedType 88 = false ∧
    (run (fun _ _ => []) (str "t") none []
        (headerBytes 3 0 97 6 ++ fieldBytes 109 77 4 0 ++ fieldBytes 120 88 1 0
          ++ [13])).exit = .failure .noMemoFile ∧
    (run (fun _ _ => []) (str "t") none []
        (headerBytes 3 0 97 6 ++ fieldBytes 109 77 4 0 ++ fieldBytes 120 88 1 0
          ++ [13])).exit ≠ .failure (.unhandledFieldType 88) := by
  decide

/-- C10 as amended: for every schema with a descriptor whose type tag is not
one of B, C, D, F, G, I, L, M, N, T, Y and `'0'`, the run ends with a failure
and prints the opening of no `INSERT`; the failure is the one of the unhandled
field type of the first such descriptor whenever every memo descriptor before
it has a memo file and a length of 4 or 10. -/
theorem unsupported_type_fails (env : Env) (hdr : DBFHEADER)
    (fields : List DBFFIELD) (data : List Nat) (indexcolumns : List (List Nat))
    (h : ∃ f ∈ fields, supportedType f.type = false) :
    (∃ e, (emitScript env hdr fields data indexcolumns).exit = .failure e) ∧
    (∀ t, Out.insertOpen t ∉ (emitScript env hdr fields data indexcolumns).out) ∧
    (∀ (pre : List DBFFIELD) (f : DBFFIELD) (post : List DBFFIELD),
      fields = pre ++ f :: post → supportedType f.type = false →
      (∀ g ∈ pre, supportedType g.type = true ∧
        (g.type = 77 → env.memomap ≠ none ∧ (g.length = 4 ∨ g.length = 10))) →
      (emitScript env hdr fields data indexcolumns).exit =
        .failure (.unhandledFieldType f.type)) := by
  obtain ⟨f, hf, hbad⟩ := h
  have h48 : f.type ≠ 48 := (supportedType_false hbad).2.2.2.2.2.2.2.2.2.2.2
  obtain ⟨e, he⟩ := schemaLoop_fails env fields
    ⟨f, hf, h48, _, congrArg Prod.snd (columnType_unsupported env f hbad)⟩ false
  have hmem := emitScript_schema_stop_mem env hdr fields data indexcolumns _ he
  refine ⟨⟨e, ?_⟩, ?_, ?_⟩
  · rw [emitScript_schema_stop env hdr fields data indexcolumns _ he]
  · intro t hc
    rcases hmem _ hc with h | h | h | h | h <;> simp [Out.isColumn] at h
  · intro pre g post hfields hg hpre
    have hg48 : g.type ≠ 48 := (supportedType_false hg).2.2.2.2.2.2.2.2.2.2.2
    have hstop := schemaLoop_first_failure env pre g post _
      (fun x hx => columnType_supported env x (hpre x hx).1 (hpre x hx).2) hg48
      (congrArg Prod.snd (columnType_unsupported env g hg)) false
    rw [← hfields] at hstop
    rw [emitScript_schema_stop env hdr fields data indexcolumns _ hstop]

/-- Witness of C10 as amended: a text field followed by a field of the
unsupported type `X`. -/
theorem unsupported_type_fails_witness :
    (∃ e, (emitScript sampleEnv ⟨3, 0, 97, 4⟩ [⟨[99], 67, 2, 0⟩, ⟨[120], 88, 1, 0⟩]
        [32, 97, 98, 120] []).exit = .failure e) ∧
    (∀ t, Out.insertOpen t ∉
      (emitScript sampleEnv ⟨3, 0, 97, 4⟩ [⟨[99], 67, 2, 0⟩, ⟨[120], 88, 1, 0⟩]
        [32, 97, 98, 120] []).out) ∧
    (∀ (pre : List DBFFIELD) (f : DBFFIELD) (post : List DBFFIELD),
      [⟨[99], 67, 2, 0⟩, ⟨[120], 88, 1, 0⟩] = pre ++ f :: post →
      supportedType f.type = false →
      (∀ g ∈ pre, supportedType g.type = true ∧
        (g.type = 77 → sampleEnv.memomap ≠ none ∧ (g.length = 4 ∨ g.length = 10))) →
      (emitScript sampleEnv ⟨3, 0, 97, 4⟩ [⟨[99], 67, 2, 0⟩, ⟨[120], 88, 1, 0⟩]
        [32, 97, 98, 120] []).exit = .failure (.unhandledFieldType f.type)) :=
  unsupported_type_fails sampleEnv ⟨3, 0, 97, 4⟩ [⟨[99], 67, 2, 0⟩, ⟨[120], 88, 1, 0⟩]
    [32, 97, 98, 120] [] ⟨⟨[120], 88, 1, 0⟩, by decide, by decide⟩

/-! ## Bit masks and shifts as arithmetic -/

/-- Masking one byte in place keeps that byte at its position. -/
theorem and_byte_mask (w k : Nat) : w &&& (255 <<< k) = (w / 2 ^ k % 256) * 2 ^ k := by
  rw [← Nat.shiftLeft_eq, ← Nat.shiftRight_eq_div_pow]
  apply Nat.eq_of_testBit_eq
  intro i
  have h255 : (255 : Nat) = 2 ^ 8 - 1 := by norm_num
  have h256 : (256 : Nat) = 2 ^ 8 := by norm_num
  rw [Nat.testBit_and, Nat.testBit_shiftLeft, Nat.testBit_shiftLeft, h256,
    Nat.testBit_mod_two_pow, Nat.testBit_shiftRight, h255, Nat.testBit_two_pow_sub_one]
  by_cases hik : i ≥ k
  · have : k + (i - k) = i := by omega
    simp [hik, this, Bool.and_comm]
  · simp [hik]

/-- Joining a field above the bits in use is an addition. -/
theorem or_high_field (low f k : Nat) (h : low < 2 ^ k) :
    low ||| f * 2 ^ k = low + f * 2 ^ k := by
  rw [Nat.or_comm, Nat.mul_comm, ← Nat.mul_add_lt_is_or h, Nat.add_comm]

theorem swap16_arith (w : Nat) :
    ((w &&& 0xff00) >>> 8) ||| ((w &&& 0x00ff) <<< 8) = w / 256 % 256 + (w % 256) * 256 := by
  have h1 : w &&& 0xff00 = (w / 256 % 256) * 256 := by
    have := and_byte_mask w 8; simpa using this
  have h0 : w &&& 0x00ff = w % 256 := by
    have := and_byte_mask w 0; simpa using this
  rw [h1, h0, Nat.shiftRight_eq_div_pow, Nat.shiftLeft_eq]
  have e1 : w / 256 % 256 * 256 / 2 ^ 8 = w / 256 % 256 := by omega
  rw [e1, or_high_field _ _ 8 (by omega)]
  omega

theorem swap32_arith (w : Nat) :
    ((w &&& 0xff000000) >>> 24) ||| ((w &&& 0x00ff0000) >>> 8) |||
      ((w &&& 0x0000ff00) <<< 8) ||| ((w &&& 0x000000ff) <<< 24) =
    w / 16777216 % 256 + (w / 65536 % 256) * 256 + (w / 256 % 256) * 65536
      + (w % 256) * 16777216 := by
  have h3 : w &&& 0xff000000 = (w / 16777216 % 256) * 16777216 := by
    have := and_byte_mask w 24; simpa using this
  have h2 : w &&& 0x00ff0000 = (w / 65536 % 256) * 65536 := by
    have := and_byte_mask w 16; simpa using this
  have h1 : w &&& 0x0000ff00 = (w / 256 % 256) * 256 := by
    have := and_byte_mask w 8; simpa using this
  have h0 : w &&& 0x000000ff = w % 256 := by
    have := and_byte_mask w 0; simpa using this
  rw [h3, h2, h1, h0]
  simp only [Nat.shiftRight_eq_div_pow, Nat.shiftLeft_eq]
  have e3 : w / 16777216 % 256 * 16777216 / 2 ^ 24 = w / 16777216 % 256 := by omega
  have e2 : w / 65536 % 256 * 65536 / 2 ^ 8 = (w / 65536 % 256) * 2 ^ 8 := by omega
  have e1 : w / 256 % 256 * 256 * 2 ^ 8 = (w / 256 % 256) * 2 ^ 16 := by omega
  rw [e3, e2, e1]
  rw [or_high_field _ _ 8 (by omega), or_high_field _ _ 16 (by omega),
    or_high_field _ _ 24 (by omega)]
  omega

theorem swap64_arith (w : Nat) :
    ((w &&& 0xff00000000000000) >>> 56) ||| ((w &&& 0x00ff000000000000) >>> 40) |||
      ((w &&& 0x0000ff0000000000) >>> 24) ||| ((w &&& 0x000000ff00000000) >>> 8) |||
      ((w &&& 0x00000000ff000000) <<< 8) ||| ((w &&& 0x0000000000ff0000) <<< 24) |||
      ((w &&& 0x000000000000ff00) <<< 40) ||| ((w &&& 0x00000000000000ff) <<< 56) =
    w / 72057594037927936 % 256 + (w / 281474976710656 % 256) * 256
      + (w / 1099511627776 % 256) * 65536 + (w / 4294967296 % 256) * 16777216
      + (w / 16777216 % 256) * 4294967296 + (w / 65536 % 256) * 1099511627776
      + (w / 256 % 256) * 281474976710656 + (w % 256) * 72057594037927936 := by
  have h7 : w &&& 0xff00000000000000 = (w / 72057594037927936 % 256) * 72057594037927936 := by
    have := and_byte_mask w 56; simpa using this
  have h6 : w &&& 0x00ff000000000000 = (w / 281474976710656 % 256) * 281474976710656 := by
    have := and_byte_mask w 48; simpa using this
  have h5 : w &&& 0x0000ff0000000000 = (w / 1099511627776 % 256) * 1099511627776 := by
    have := and_byte_mask w 40; simpa using this
  have h4 : w &&& 0x000000ff00000000 = (w / 4294967296 % 256) * 4294967296 := by
    have := and_byte_mask w 32; simpa using this
  have h3 : w &&& 0x00000000ff000000 = (w / 16777216 % 256) * 16777216 := by
    have := and_byte_mask w 24; simpa using this
  have h2 : w &&& 0x0000000000ff0000 = (w / 65536 % 256) * 65536 := by
    have := and_byte_mask w 16; simpa using this
  have h1 : w &&& 0x000000000000ff00 = (w / 256 % 256) * 256 := by
    have := and_byte_mask w 8; simpa using this
  have h0 : w &&& 0x00000000000000ff = w % 256 := by
    have := and_byte_mask w 0; simpa using this
  rw [h7, h6, h5, h4, h3, h2, h1, h0]
  simp only [Nat.shiftRight_eq_div_pow, Nat.shiftLeft_eq]
  have e7 : w / 72057594037927936 % 256 * 72057594037927936 / 2 ^ 56
      = w / 72057594037927936 % 256 := by omega
  have e6 : w / 281474976710656 % 256 * 281474976710656 / 2 ^ 40
      = (w / 281474976710656 % 256) * 2 ^ 8 := by omega
  have e5 : w / 1099511627776 % 256 * 1099511627776 / 2 ^ 24
      = (w / 1099511627776 % 256) * 2 ^ 16 := by omega
  have e4 : w / 4294967296 % 256 * 4294967296 / 2 ^ 8
      = (w / 4294967296 % 256) * 2 ^ 24 := by omega
  have e3 : w / 16777216 % 256 * 16777216 * 2 ^ 8 = (w / 16777216 % 256) * 2 ^ 32 := by omega
  have e2 : w / 65536 % 256 * 65536 * 2 ^ 24 = (w / 65536 % 256) * 2 ^ 40 := by omega
  have e1 : w / 256 % 256 * 256 * 2 ^ 40 = (w / 256 % 256) * 2 ^ 48 := by omega
  rw [e7, e6, e5, e4, e3, e2, e1]
  rw [or_high_field _ _ 8 (by omega), or_high_field _ _ 16 (by omega),
    or_high_field _ _ 24 (by omega), or_high_field _ _ 32 (by omega),
    or_high_field _ _ 40 (by omega), or_high_field _ _ 48 (by omega),
    or_high_field _ _ 56 (by omega)]
  omega

/-- The 16-bit swap on a value given by its two bytes. -/
theorem swappedint16_t_bytes (b0 b1 : Nat) (h0 : b0 < 256) (h1 : b1 < 256) :
    swappedint16_t (toInt16 ((b0 + 256 * b1 : Nat) : Int)) =
      toInt16 ((b1 + 256 * b0 : Nat) : Int) := by
  unfold swappedint16_t
  simp only []
  rw [swap16_arith]
  rcases Nat.lt_or_ge b1 128 with hs | hs
  · have hw : toUInt32 (toInt16 (toInt16 ((b0 + 256 * b1 : Nat) : Int))) = b0 + 256 * b1 := by
      unfold toUInt32 toInt16; omega
    have e0 : (b0 + 256 * b1) % 256 = b0 := by omega
    have e1 : (b0 + 256 * b1) / 256 % 256 = b1 := by omega
    rw [hw, e0, e1, Nat.mul_comm b0 256]
  · have hw : toUInt32 (toInt16 (toInt16 ((b0 + 256 * b1 : Nat) : Int)))
        = b0 + 256 * b1 + 4294901760 := by
      unfold toUInt32 toInt16; omega
    have e0 : (b0 + 256 * b1 + 4294901760) % 256 = b0 := by omega
    have e1 : (b0 + 256 * b1 + 4294901760) / 256 % 256 = b1 := by omega
    rw [hw, e0, e1, Nat.mul_comm b0 256]

/-- The 32-bit pattern of an `int32_t` made from a value below 2^32 is that
value. -/
theorem toUInt32_toInt32 (v : Nat) (h : v < 4294967296) :
    toUInt32 (toInt32 (toInt32 (v : Int))) = v := by
  unfold toUInt32 toInt32; omega

/-- The 64-bit pattern of an `int64_t` made from a value below 2^64 is that
value. -/
theorem toUInt64_toInt64 (v : Nat) (h : v < 18446744073709551616) :
    toUInt64 (toInt64 (toInt64 (v : Int))) = v := by
  unfold toUInt64 toInt64; omega

/-- A non-negative `int32_t` converted to `size_t` keeps its value. -/
theorem toSizeT_toInt32 (v : Nat) (h : v < 2147483648) : toSizeT (toInt32 (v : Int)) = v := by
  unfold toSizeT toInt32; omega

/-- The digit of a sum above a part that stays below the base. -/
theorem field_of_sum (lo m hi : Nat) (hm : 0 < m) (hlo : lo < m) :
    (lo + m * hi) / m = hi := by
  rw [Nat.add_mul_div_left _ _ hm, Nat.div_eq_of_lt hlo, Nat.zero_add]

/-- The bytes of a 32-bit value given by its four bytes. -/
theorem bytes_of_sum32 (b0 b1 b2 b3 v : Nat) (h0 : b0 < 256) (h1 : b1 < 256)
    (h2 : b2 < 256) (h3 : b3 < 256)
    (hv : b0 + 256 * b1 + 65536 * b2 + 16777216 * b3 = v) :
    v % 256 = b0 ∧ v / 256 % 256 = b1 ∧ v / 65536 % 256 = b2 ∧
      v / 16777216 % 256 = b3 := by
  refine ⟨by omega, ?_, ?_, ?_⟩
  · have hv2 : v = b0 + 256 * (b1 + 256 * (b2 + 256 * b3)) := by omega
    rw [hv2, field_of_sum _ _ _ (by norm_num) h0]
    omega
  · have hlo : b0 + 256 * b1 < 65536 := by omega
    have hv2 : v = (b0 + 256 * b1) + 65536 * (b2 + 256 * b3) := by omega
    rw [hv2, field_of_sum _ _ _ (by norm_num) hlo]
    omega
  · have hlo : b0 + 256 * b1 + 65536 * b2 < 16777216 := by omega
    have hv2 : v = (b0 + 256 * b1 + 65536 * b2) + 16777216 * b3 := by omega
    rw [hv2, field_of_sum _ _ _ (by norm_num) hlo]
    omega

/-- The 32-bit swap on a value given by its four bytes. -/
theorem swappedint32_t_bytes (b0 b1 b2 b3 : Nat) (h0 : b0 < 256) (h1 : b1 < 256)
    (h2 : b2 < 256) (h3 : b3 < 256) :
    swappedint32_t (toInt32 ((b0 + 256 * b1 + 65536 * b2 + 16777216 * b3 : Nat) : Int)) =
      toInt32 ((b3 + 256 * b2 + 65536 * b1 + 16777216 * b0 : Nat) : Int) := by
  unfold swappedint32_t
  simp only []
  rw [swap32_arith]
  generalize hv : b0 + 256 * b1 + 65536 * b2 + 16777216 * b3 = v
  have hlt : v < 4294967296 := by omega
  obtain ⟨e0, e1, e2, e3⟩ := bytes_of_sum32 b0 b1 b2 b3 v h0 h1 h2 h3 hv
  rw [toUInt32_toInt32 v hlt, e0, e1, e2, e3]
  have hlt2 : b3 + b2 * 256 + b1 * 65536 + b0 * 16777216 < 4294967296 := by omega
  have e : b3 + b2 * 256 + b1 * 65536 + b0 * 16777216
      = b3 + 256 * b2 + 65536 * b1 + 16777216 * b0 := by omega
  rw [Nat.mod_eq_of_lt hlt2, e]

/-- The bytes of a 64-bit value given by its eight bytes. -/
theorem bytes_of_sum64 (b0 b1 b2 b3 b4 b5 b6 b7 v : Nat) (h0 : b0 < 256)
    (h1 : b1 < 256) (h2 : b2 < 256) (h3 : b3 < 256) (h4 : b4 < 256) (h5 : b5 < 256)
    (h6 : b6 < 256) (h7 : b7 < 256)
    (hv : b0 + 256 * b1 + 65536 * b2 + 16777216 * b3 + 4294967296 * b4
      + 1099511627776 * b5 + 281474976710656 * b6 + 72057594037927936 * b7 = v) :
    v % 256 = b0 ∧ v / 256 % 256 = b1 ∧ v / 65536 % 256 = b2 ∧
      v / 16777216 % 256 = b3 ∧ v / 4294967296 % 256 = b4 ∧
      v / 1099511627776 % 256 = b5 ∧ v / 281474976710656 % 256 = b6 ∧
      v / 72057594037927936 % 256 = b7 := by
  refine ⟨by omega, ?_, ?_, ?_, ?_, ?_, ?_, ?_⟩
  · have hv2 : v = b0 + 256 * (b1 + 256 * (b2 + 256 * (b3 + 256 * (b4 + 256 * (b5
        + 256 * (b6 + 256 * b7)))))) := by omega
    rw [hv2, field_of_sum _ _ _ (by norm_num) h0]
    omega
  · have hlo : b0 + 256 * b1 < 65536 := by omega
    have hv2 : v = (b0 + 256 * b1) + 65536 * (b2 + 256 * (b3 + 256 * (b4 + 256 * (b5
        + 256 * (b6 + 256 * b7))))) := by omega
    rw [hv2, field_of_sum _ _ _ (by norm_num) hlo]
    omega
  · have hlo : b0 + 256 * b1 + 65536 * b2 < 16777216 := by omega
    have hv2 : v = (b0 + 256 * b1 + 65536 * b2) + 16777216 * (b3 + 256 * (b4 + 256 * (b5
        + 256 * (b6 + 256 * b7)))) := by omega
    rw [hv2, field_of_sum _ _ _ (by norm_num) hlo]
    omega
  · have hlo : b0 + 256 * b1 + 65536 * b2 + 16777216 * b3 < 4294967296 := by omega
    have hv2 : v = (b0 + 256 * b1 + 65536 * b2 + 16777216 * b3)
        + 4294967296 * (b4 + 256 * (b5 + 256 * (b6 + 256 * b7))) := by omega
    rw [hv2, field_of_sum _ _ _ (by norm_num) hlo]
    omega
  · have hlo : b0 + 256 * b1 + 65536 * b2 + 16777216 * b3 + 4294967296 * b4
        < 1099511627776 := by omega
    have hv2 : v = (b0 + 256 * b1 + 65536 * b2 + 16777216 * b3 + 4294967296 * b4)
        + 1099511627776 * (b5 + 256 * (b6 + 256 * b7)) := by omega
    rw [hv2, field_of_sum _ _ _ (by norm_num) hlo]
    omega
  · have hlo : b0 + 256 * b1 + 65536 * b2 + 16777216 * b3 + 4294967296 * b4
        + 1099511627776 * b5 < 281474976710656 := by omega
    have hv2 : v = (b0 + 256 * b1 + 65536 * b2 + 16777216 * b3 + 4294967296 * b4
        + 1099511627776 * b5) + 281474976710656 * (b6 + 256 * b7) := by omega
    rw [hv2, field_of_sum _ _ _ (by norm_num) hlo]
    omega
  · have hlo : b0 + 256 * b1 + 65536 * b2 + 16777216 * b3 + 4294967296 * b4
        + 1099511627776 * b5 + 281474976710656 * b6 < 72057594037927936 := by omega
    have hv2 : v = (b0 + 256 * b1 + 65536 * b2 + 16777216 * b3 + 4294967296 * b4
        + 1099511627776 * b5 + 281474976710656 * b6) + 72057594037927936 * b7 := by omega
    rw [hv2, field_of_sum _ _ _ (by norm_num) hlo]
    omega

/-- The 64-bit swap on a value given by its eight bytes. -/
theorem swappedint64_t_bytes (b0 b1 b2 b3 b4 b5 b6 b7 : Nat) (h0 : b0 < 256)
    (h1 : b1 < 256) (h2 : b2 < 256) (h3 : b3 < 256) (h4 : b4 < 256) (h5 : b5 < 256)
    (h6 : b6 < 256) (h7 : b7 < 256) :
    swappedint64_t (toInt64 ((b0 + 256 * b1 + 65536 * b2 + 16777216 * b3
        + 4294967296 * b4 + 1099511627776 * b5 + 281474976710656 * b6
        + 72057594037927936 * b7 : Nat) : Int)) =
      toInt64 ((b7 + 256 * b6 + 65536 * b5 + 16777216 * b4
        + 4294967296 * b3 + 1099511627776 * b2 + 281474976710656 * b1
        + 72057594037927936 * b0 : Nat) : Int) := by
  unfold swappedint64_t
  simp only []
  rw [swap64_arith]
  generalize hv : b0 + 256 * b1 + 65536 * b2 + 16777216 * b3
        + 4294967296 * b4 + 1099511627776 * b5 + 281474976710656 * b6
        + 72057594037927936 * b7 = v
  have hlt : v < 18446744073709551616 := by omega
  obtain ⟨e0, e1, e2, e3, e4, e5, e6, e7⟩ :=
    bytes_of_sum64 b0 b1 b2 b3 b4 b5 b6 b7 v h0 h1 h2 h3 h4 h5 h6 h7 hv
  rw [toUInt64_toInt64 v hlt, e0, e1, e2, e3, e4, e5, e6, e7]
  have hlt2 : b7 + b6 * 256 + b5 * 65536 + b4 * 16777216 + b3 * 4294967296
      + b2 * 1099511627776 + b1 * 281474976710656 + b0 * 72057594037927936
        < 18446744073709551616 := by omega
  have e : b7 + b6 * 256 + b5 * 65536 + b4 * 16777216 + b3 * 4294967296
      + b2 * 1099511627776 + b1 * 281474976710656 + b0 * 72057594037927936
      = b7 + 256 * b6 + 65536 * b5 + 16777216 * b4 + 4294967296 * b3
        + 1099511627776 * b2 + 281474976710656 * b1 + 72057594037927936 * b0 := by omega
  rw [Nat.mod_eq_of_lt hlt2, e]

/-! ## The integer readers in both builds -/

/-- Every `int16_t` value is given by two bytes. -/
theorem int16_bytes (x : Int) : ∃ b0 b1 : Nat, b0 < 256 ∧ b1 < 256 ∧
    toInt16 x = toInt16 ((b0 + 256 * b1 : Nat) : Int) := by
  refine ⟨(x % 65536).toNat % 256, (x % 65536).toNat / 256, ?_, ?_, ?_⟩
  · omega
  · omega
  · unfold toInt16; omega

/-- A number is its lowest byte plus 256 times the rest. -/
theorem split_byte (u : Nat) : ∃ b q : Nat, b < 256 ∧ u = b + 256 * q :=
  ⟨u % 256, u / 256, by omega, by omega⟩

/-- Every `int32_t` value is given by four bytes. -/
theorem int32_bytes (x : Int) : ∃ b0 b1 b2 b3 : Nat, b0 < 256 ∧ b1 < 256 ∧ b2 < 256 ∧
    b3 < 256 ∧
    toInt32 x = toInt32 ((b0 + 256 * b1 + 65536 * b2 + 16777216 * b3 : Nat) : Int) := by
  generalize hu : (x % 4294967296).toNat = u
  have hux : toInt32 x = toInt32 (u : Int) := by unfold toInt32; omega
  have hlt : u < 4294967296 := by omega
  clear hu
  obtain ⟨b0, q1, h0, e0⟩ := split_byte u
  obtain ⟨b1, q2, h1, e1⟩ := split_byte q1
  obtain ⟨b2, q3, h2, e2⟩ := split_byte q2
  have h3 : q3 < 256 := by omega
  have e : b0 + 256 * b1 + 65536 * b2 + 16777216 * q3 = u := by omega
  exact ⟨b0, b1, b2, q3, h0, h1, h2, h3, by rw [e, hux]⟩

/-- Every `int64_t` value is given by eight bytes. -/
theorem int64_bytes (x : Int) : ∃ b0 b1 b2 b3 b4 b5 b6 b7 : Nat, b0 < 256 ∧ b1 < 256 ∧
    b2 < 256 ∧ b3 < 256 ∧ b4 < 256 ∧ b5 < 256 ∧ b6 < 256 ∧ b7 < 256 ∧
    toInt64 x = toInt64 ((b0 + 256 * b1 + 65536 * b2 + 16777216 * b3
        + 4294967296 * b4 + 1099511627776 * b5 + 281474976710656 * b6
        + 72057594037927936 * b7 : Nat) : Int) := by
  generalize hu : (x % 18446744073709551616).toNat = u
  have hux : toInt64 x = toInt64 (u : Int) := by unfold toInt64; omega
  have hlt : u < 18446744073709551616 := by omega
  clear hu
  obtain ⟨b0, q1, h0, e0⟩ := split_byte u
  obtain ⟨b1, q2, h1, e1⟩ := split_byte q1
  obtain ⟨b2, q3, h2, e2⟩ := split_byte q2
  obtain ⟨b3, q4, h3, e3⟩ := split_byte q3
  obtain ⟨b4, q5, h4, e4⟩ := split_byte q4
  obtain ⟨b5, q6, h5, e5⟩ := split_byte q5
  obtain ⟨b6, q7, h6, e6⟩ := split_byte q6
  have e : b0 + 256 * b1 + 65536 * b2 + 16777216 * b3 + 4294967296 * b4
      + 1099511627776 * b5 + 281474976710656 * b6 + 72057594037927936 * q7 = u := by
    omega
  have h7 : q7 < 256 := by omega
  exact ⟨b0, b1, b2, b3, b4, b5, b6, q7, h0, h1, h2, h3, h4, h5, h6, h7, by rw [e, hux]⟩

theorem swappedint16_t_involution (x : Int) :
    swappedint16_t (swappedint16_t (toInt16 x)) = toInt16 x := by
  obtain ⟨b0, b1, h0, h1, hx⟩ := int16_bytes x
  rw [hx, swappedint16_t_bytes b0 b1 h0 h1, swappedint16_t_bytes b1 b0 h1 h0]

theorem swappedint32_t_involution (x : Int) :
    swappedint32_t (swappedint32_t (toInt32 x)) = toInt32 x := by
  obtain ⟨b0, b1, b2, b3, h0, h1, h2, h3, hx⟩ := int32_bytes x
  rw [hx, swappedint32_t_bytes b0 b1 b2 b3 h0 h1 h2 h3,
    swappedint32_t_bytes b3 b2 b1 b0 h3 h2 h1 h0]

theorem swappedint64_t_involution (x : Int) :
    swappedint64_t (swappedint64_t (toInt64 x)) = toInt64 x := by
  obtain ⟨b0, b1, b2, b3, b4, b5, b6, b7, h0, h1, h2, h3, h4, h5, h6, h7, hx⟩ :=
    int64_bytes x
  rw [hx, swappedint64_t_bytes b0 b1 b2 b3 b4 b5 b6 b7 h0 h1 h2 h3 h4 h5 h6 h7,
    swappedint64_t_bytes b7 b6 b5 b4 b3 b2 b1 b0 h7 h6 h5 h4 h3 h2 h1 h0]

/-- The six readers of this embedding (the build without `WORDS_BIGENDIAN` on a
little-endian host) on given bytes. -/
theorem readers_on_bytes (b0 b1 b2 b3 b4 b5 b6 b7 : Nat) (rest : List Nat)
    (h0 : b0 < 256) (h1 : b1 < 256) (h2 : b2 < 256) (h3 : b3 < 256) (h4 : b4 < 256)
    (h5 : b5 < 256) (h6 : b6 < 256) (h7 : b7 < 256) :
    slittleint16_t (b0 :: b1 :: rest) = toInt16 ((b0 + 256 * b1 : Nat) : Int) ∧
    sbigint16_t (b0 :: b1 :: rest) = toInt16 ((b1 + 256 * b0 : Nat) : Int) ∧
    slittleint32_t (b0 :: b1 :: b2 :: b3 :: rest) =
      toInt32 ((b0 + 256 * b1 + 65536 * b2 + 16777216 * b3 : Nat) : Int) ∧
    sbigint32_t (b0 :: b1 :: b2 :: b3 :: rest) =
      toInt32 ((b3 + 256 * b2 + 65536 * b1 + 16777216 * b0 : Nat) : Int) ∧
    slittleint64_t (b0 :: b1 :: b2 :: b3 :: b4 :: b5 :: b6 :: b7 :: rest) =
      toInt64 ((b0 + 256 * b1 + 65536 * b2 + 16777216 * b3 + 4294967296 * b4
        + 1099511627776 * b5 + 281474976710656 * b6 + 72057594037927936 * b7 : Nat) : Int) ∧
    sbigint64_t (b0 :: b1 :: b2 :: b3 :: b4 :: b5 :: b6 :: b7 :: rest) =
      toInt64 ((b7 + 256 * b6 + 65536 * b5 + 16777216 * b4 + 4294967296 * b3
        + 1099511627776 * b2 + 281474976710656 * b1 + 72057594037927936 * b0 : Nat) : Int) := by
  refine ⟨?_, ?_, ?_, ?_, ?_, ?_⟩
  · simp only [slittleint16_t, snativeint16_t, List.getD_cons_zero, List.getD_cons_succ]
  · simp only [sbigint16_t, sswappedint16_t, snativeint16_t, List.getD_cons_zero,
      List.getD_cons_succ]
    rw [swappedint16_t_bytes b0 b1 h0 h1]
  · simp only [slittleint32_t, snativeint32_t, List.getD_cons_zero, List.getD_cons_succ]
  · simp only [sbigint32_t, sswappedint32_t, snativeint32_t, List.getD_cons_zero,
      List.getD_cons_succ]
    rw [swappedint32_t_bytes b0 b1 b2 b3 h0 h1 h2 h3]
  · simp only [slittleint64_t, snativeint64_t, List.getD_cons_zero, List.getD_cons_succ]
  · simp only [sbigint64_t, sswappedint64_t, snativeint64_t, List.getD_cons_zero,
      List.getD_cons_succ]
    rw [swappedint64_t_bytes b0 b1 b2 b3 b4 b5 b6 b7 h0 h1 h2 h3 h4 h5 h6 h7]

/-- The six readers of the build with `WORDS_BIGENDIAN` on a big-endian host on
given bytes. -/
theorem readers_of_big_endian_build (b0 b1 b2 b3 b4 b5 b6 b7 : Nat) (rest : List Nat)
    (h0 : b0 < 256) (h1 : b1 < 256) (h2 : b2 < 256) (h3 : b3 < 256) (h4 : b4 < 256)
    (h5 : b5 < 256) (h6 : b6 < 256) (h7 : b7 < 256) :
    slittleint16_build true (b0 :: b1 :: rest) = toInt16 ((b0 + 256 * b1 : Nat) : Int) ∧
    sbigint16_build true (b0 :: b1 :: rest) = toInt16 ((b1 + 256 * b0 : Nat) : Int) ∧
    slittleint32_build true (b0 :: b1 :: b2 :: b3 :: rest) =
      toInt32 ((b0 + 256 * b1 + 65536 * b2 + 16777216 * b3 : Nat) : Int) ∧
    sbigint32_build true (b0 :: b1 :: b2 :: b3 :: rest) =
      toInt32 ((b3 + 256 * b2 + 65536 * b1 + 16777216 * b0 : Nat) : Int) ∧
    slittleint64_build true (b0 :: b1 :: b2 :: b3 :: b4 :: b5 :: b6 :: b7 :: rest) =
      toInt64 ((b0 + 256 * b1 + 65536 * b2 + 16777216 * b3 + 4294967296 * b4
        + 1099511627776 * b5 + 281474976710656 * b6 + 72057594037927936 * b7 : Nat) : Int) ∧
    sbigint64_build true (b0 :: b1 :: b2 :: b3 :: b4 :: b5 :: b6 :: b7 :: rest) =
      toInt64 ((b7 + 256 * b6 + 65536 * b5 + 16777216 * b4 + 4294967296 * b3
        + 1099511627776 * b2 + 281474976710656 * b1 + 72057594037927936 * b0 : Nat) : Int) := by
  have e16 : 256 * b0 + b1 = b1 + 256 * b0 := by omega
  have e32 : 16777216 * b0 + 65536 * b1 + 256 * b2 + b3
      = b3 + 256 * b2 + 65536 * b1 + 16777216 * b0 := by omega
  have e64 : 72057594037927936 * b0 + 281474976710656 * b1 + 1099511627776 * b2
      + 4294967296 * b3 + 16777216 * b4 + 65536 * b5 + 256 * b6 + b7
      = b7 + 256 * b6 + 65536 * b5 + 16777216 * b4 + 4294967296 * b3
        + 1099511627776 * b2 + 281474976710656 * b1 + 72057594037927936 * b0 := by omega
  refine ⟨?_, ?_, ?_, ?_, ?_, ?_⟩
  · simp only [slittleint16_build, memcpy16BigEndianHost, if_true, List.getD_cons_zero,
      List.getD_cons_succ]
    rw [e16, swappedint16_t_bytes b1 b0 h1 h0]
  · simp only [sbigint16_build, memcpy16BigEndianHost, if_true, List.getD_cons_zero,
      List.getD_cons_succ]
    rw [e16]
  · simp only [slittleint32_build, memcpy32BigEndianHost, if_true, List.getD_cons_zero,
      List.getD_cons_succ]
    rw [e32, swappedint32_t_bytes b3 b2 b1 b0 h3 h2 h1 h0]
  · simp only [sbigint32_build, memcpy32BigEndianHost, if_true, List.getD_cons_zero,
      List.getD_cons_succ]
    rw [e32]
  · simp only [slittleint64_build, memcpy64BigEndianHost, if_true, List.getD_cons_zero,
      List.getD_cons_succ]
    rw [e64, swappedint64_t_bytes b7 b6 b5 b4 b3 b2 b1 b0 h7 h6 h5 h4 h3 h2 h1 h0]
  · simp only [sbigint64_build, memcpy64BigEndianHost, if_true, List.getD_cons_zero,
      List.getD_cons_succ]
    rw [e64]

/-- C19: the little-endian readers `slittleint16_t`, `slittleint32_t` and
`slittleint64_t` return the two's-complement value of the sum of
`b_i * 256^i`, the big-endian readers `sbigint16_t`, `sbigint32_t` and
`sbigint64_t` that of the sum of `b_i * 256^(N-1-i)`; each reader returns the
same value in either build (`WORDS_BIGENDIAN` defined on a big-endian host,
not defined on a little-endian host); and `swappedint16_t`, `swappedint32_t`
and `swappedint64_t` applied twice give back the value they started from. -/
theorem readers_host_independent (wordsBigendian : Bool)
    (b0 b1 b2 b3 b4 b5 b6 b7 : Nat) (rest : List Nat)
    (h0 : b0 < 256) (h1 : b1 < 256) (h2 : b2 < 256) (h3 : b3 < 256) (h4 : b4 < 256)
    (h5 : b5 < 256) (h6 : b6 < 256) (h7 : b7 < 256) :
    (slittleint16_t (b0 :: b1 :: rest) = toInt16 ((b0 + 256 * b1 : Nat) : Int) ∧
      slittleint16_build wordsBigendian (b0 :: b1 :: rest) =
        slittleint16_t (b0 :: b1 :: rest)) ∧
    (sbigint16_t (b0 :: b1 :: rest) = toInt16 ((b1 + 256 * b0 : Nat) : Int) ∧
      sbigint16_build wordsBigendian (b0 :: b1 :: rest) = sbigint16_t (b0 :: b1 :: rest)) ∧
    (slittleint32_t (b0 :: b1 :: b2 :: b3 :: rest) =
        toInt32 ((b0 + 256 * b1 + 65536 * b2 + 16777216 * b3 : Nat) : Int) ∧
      slittleint32_build wordsBigendian (b0 :: b1 :: b2 :: b3 :: rest) =
        slittleint32_t (b0 :: b1 :: b2 :: b3 :: rest)) ∧
    (sbigint32_t (b0 :: b1 :: b2 :: b3 :: rest) =
        toInt32 ((b3 + 256 * b2 + 65536 * b1 + 16777216 * b0 : Nat) : Int) ∧
      sbigint32_build wordsBigendian (b0 :: b1 :: b2 :: b3 :: rest) =
        sbigint32_t (b0 :: b1 :: b2 :: b3 :: rest)) ∧
    (slittleint64_t (b0 :: b1 :: b2 :: b3 :: b4 :: b5 :: b6 :: b7 :: rest) =
        toInt64 ((b0 + 256 * b1 + 65536 * b2 + 16777216 * b3 + 4294967296 * b4
          + 1099511627776 * b5 + 281474976710656 * b6 + 72057594037927936 * b7 : Nat)
            : Int) ∧
      slittleint64_build wordsBigendian
          (b0 :: b1 :: b2 :: b3 :: b4 :: b5 :: b6 :: b7 :: rest) =
        slittleint64_t (b0 :: b1 :: b2 :: b3 :: b4 :: b5 :: b6 :: b7 :: rest)) ∧
    (sbigint64_t (b0 :: b1 :: b2 :: b3 :: b4 :: b5 :: b6 :: b7 :: rest) =
        toInt64 ((b7 + 256 * b6 + 65536 * b5 + 16777216 * b4 + 4294967296 * b3
          + 1099511627776 * b2 + 281474976710656 * b1 + 72057594037927936 * b0 : Nat)
            : Int) ∧
      sbigint64_build wordsBigendian
          (b0 :: b1 :: b2 :: b3 :: b4 :: b5 :: b6 :: b7 :: rest) =
        sbigint64_t (b0 :: b1 :: b2 :: b3 :: b4 :: b5 :: b6 :: b7 :: rest)) ∧
    (∀ x : Int, swappedint16_t (swappedint16_t (toInt16 x)) = toInt16 x) ∧
    (∀ x : Int, swappedint32_t (swappedint32_t (toInt32 x)) = toInt32 x) ∧
    (∀ x : Int, swappedint64_t (swappedint64_t (toInt64 x)) = toInt64 x) := by
  obtain ⟨l16, g16, l32, g32, l64, g64⟩ :=
    readers_on_bytes b0 b1 b2 b3 b4 b5 b6 b7 rest h0 h1 h2 h3 h4 h5 h6 h7
  obtain ⟨L16, G16, L32, G32, L64, G64⟩ :=
    readers_of_big_endian_build b0 b1 b2 b3 b4 b5 b6 b7 rest h0 h1 h2 h3 h4 h5 h6 h7
  refine ⟨⟨l16, ?_⟩, ⟨g16, ?_⟩, ⟨l32, ?_⟩, ⟨g32, ?_⟩, ⟨l64, ?_⟩, ⟨g64, ?_⟩,
    swappedint16_t_involution, swappedint32_t_involution, swappedint64_t_involution⟩
  · cases wordsBigendian
    · simp only [slittleint16_build, Bool.false_eq_true, if_false]
    · rw [L16, l16]
  · cases wordsBigendian
    · simp only [sbigint16_build, Bool.false_eq_true, if_false]
    · rw [G16, g16]
  · cases wordsBigendian
    · simp only [slittleint32_build, Bool.false_eq_true, if_false]
    · rw [L32, l32]
  · cases wordsBigendian
    · simp only [sbigint32_build, Bool.false_eq_true, if_false]
    · rw [G32, g32]
  · cases wordsBigendian
    · simp only [slittleint64_build, Bool.false_eq_true, if_false]
    · rw [L64, l64]
  · cases wordsBigendian
    · simp only [sbigint64_build, Bool.false_eq_true, if_false]
    · rw [G64, g64]

/-! ## The memo field -/

theorem toInt32_range (x : Int) : -2147483648 ≤ toInt32 x ∧ toInt32 x < 2147483648 := by
  unfold toInt32; omega

theorem memoNumberLoop_range : ∀ (i : Nat) (s : List Nat) (acc : Int),
    (-2147483648 ≤ acc ∧ acc < 2147483648) →
    -2147483648 ≤ memoNumberLoop i s acc ∧ memoNumberLoop i s acc < 2147483648 := by
  intro i
  induction i with
  | zero => intro s acc h; exact h
  | succ i ih =>
    intro s acc h
    rw [memoNumberLoop]
    apply ih
    split_ifs
    · exact toInt32_range _
    · exact h

/-- The block number is an `int32_t`. -/
theorem memoBlockNumber_range (f : DBFFIELD) (bufoffset : List Nat) :
    -2147483648 ≤ memoBlockNumber f bufoffset ∧ memoBlockNumber f bufoffset < 2147483648 := by
  unfold memoBlockNumber
  split_ifs
  · exact toInt32_range _
  · exact memoNumberLoop_range 10 bufoffset 0 (by omega)

/-- The lookup for a block number `n > 0` whose block the mapping holds is
made on the bytes that start `memoblocksize * n` bytes into the mapping. -/
theorem memoAt_block (env : Env) (m : List Nat) (n : Int)
    (hpos : 0 < n) (hhi : n < 2147483648) (hm : env.memomap = some m)
    (hin : env.memoblocksize * n.toNat < m.length)
    (hlen : m.length ≤ 18446744073709551616) :
    memoAt env n = memoLookup env (m.drop (env.memoblocksize * n.toNat)) := by
  have hn0 : ¬ n = 0 := by omega
  have hsz : toSizeT n = n.toNat := by
    have h1 : (n.toNat : Int) = n := Int.toNat_of_nonneg (by omega)
    unfold toSizeT
    omega
  have hoff : (env.memoblocksize * n.toNat) % 18446744073709551616
      = env.memoblocksize * n.toNat := Nat.mod_eq_of_lt (by omega)
  unfold memoAt
  rw [if_neg hn0, hm]
  dsimp only
  rw [hsz, hoff]
  cases hd : m.drop (env.memoblocksize * n.toNat) with
  | nil =>
    have := List.drop_eq_nil_iff.mp hd
    omega
  | cons b r => rfl

/-- The block `n` of a memo file that holds it starts `memoblocksize * n`
bytes into the file. -/
theorem memoValue_at_block (env : Env) (f : DBFFIELD) (bufoffset m : List Nat) (n : Int)
    (hn : memoBlockNumber f bufoffset = n) (hpos : 0 < n) (hm : env.memomap = some m)
    (hin : env.memoblocksize * n.toNat < m.length)
    (hlen : m.length ≤ 18446744073709551616) :
    memoValue env f bufoffset = memoLookup env (m.drop (env.memoblocksize * n.toNat)) := by
  have h2 := memoBlockNumber_range f bufoffset
  rw [hn] at h2
  unfold memoValue
  rw [hn]
  exact memoAt_block env m n hpos h2.2 hm hin hlen

/-- The function `strchr` finds the first occurrence of a byte that no NUL
and no earlier occurrence precedes. -/
theorem strchr_found (c : Nat) (text post : List Nat)
    (h : ∀ b ∈ text, b ≠ c ∧ b ≠ 0) : strchr (text ++ c :: post) c = some text.length := by
  induction text with
  | nil => simp [strchr]
  | cons b t ih =>
    have hb := h b (List.mem_cons_self _ _)
    have ht := ih (fun x hx => h x (List.mem_cons_of_mem _ hx))
    rw [List.cons_append, strchr, if_neg hb.1, if_neg hb.2, ht]
    rfl

/-- The lookup of the classic layout on a block whose text has no NUL before
the first byte 0x1A: the text handed to `safeprintbuf` is exactly the bytes up
to that 0x1A, and a text of fewer than 2^30 bytes is printed as the literal of
these bytes without their trailing spaces. -/
theorem classic_memo_text (env : Env) (f : DBFFIELD) (bufoffset : List Nat) (n : Int)
    (pre text post : List Nat)
    (hsig : env.signature = 0x83) (hbs : env.memoblocksize = 512)
    (hn : memoBlockNumber f bufoffset = n) (hpos : 0 < n)
    (hm : env.memomap = some (pre ++ (text ++ 0x1A :: post)))
    (hpre : pre.length = 512 * n.toNat)
    (hlen : (pre ++ (text ++ 0x1A :: post)).length ≤ 18446744073709551616)
    (htext : ∀ b ∈ text, b ≠ 0x1A ∧ b ≠ 0) :
    memoValue env f bufoffset = printValue (safeprintbuf (text ++ 0x1A :: post) text.length) ∧
    ((trimRight text).length < 1073741824 →
      memoValue env f bufoffset = ([.value (specLiteral (trimRight text))], none)) := by
  have hin : env.memoblocksize * n.toNat < (pre ++ (text ++ 0x1A :: post)).length := by
    rw [hbs, ← hpre, List.length_append, List.length_append, List.length_cons]; omega
  have h1 : memoValue env f bufoffset
      = printValue (safeprintbuf (text ++ 0x1A :: post) text.length) := by
    rw [memoValue_at_block env f bufoffset _ n hn hpos hm hin hlen, hbs, ← hpre,
      List.drop_left' rfl]
    unfold memoLookup
    rw [if_pos hsig, strchr_found 0x1A text post htext]
  refine ⟨h1, fun hshort => ?_⟩
  rw [h1, safeprintbuf_eq text (0x1A :: post)
    (fun b hb => (htext b ((trimRight_initial_segment text).subset hb)).2) (by simp) hshort]
  rfl

/-- The mapping of a file has fewer than 4096 bytes more than the file. -/
theorem mmapBytes_length_lt (memofile : List Nat) :
    (mmapBytes memofile).length < memofile.length + 4096 := by
  unfold mmapBytes PAGESIZE
  rw [List.length_append, List.length_replicate]
  omega

/-- The mapping of a file of less than 2^63 bytes fits the address space. -/
theorem mapping_fits (memofile : List Nat) (h : memofile.length < 9223372036854775808) :
    (mmapBytes memofile).length ≤ 18446744073709551616 := by
  have := mmapBytes_length_lt memofile
  omega

/-! ## Claims on the values of a record -/

/-- C11: the code at the failing input.  The eight bytes FB FF FF FF FF FF FF
FF are the little-endian value -5; `%05jd` counts the sign in the width and
writes `-0005`, so the point is stored right after the sign and the field
prints as `-.0005`, with no digit before the point.  (12345 prints as
`1.2345`.) -/
theorem currency_small_negative_has_no_leading_digit :
    slittleint64_t [251, 255, 255, 255, 255, 255, 255, 255] = -5 ∧
    fieldValue sampleEnv ⟨[121], 89, 8, 0⟩ [251, 255, 255, 255, 255, 255, 255, 255] =
      ([.value [45, 46, 48, 48, 48, 53]], none) ∧
    fieldValue sampleEnv ⟨[121], 89, 8, 0⟩ [57, 48, 0, 0, 0, 0, 0, 0] =
      ([.value [49, 46, 50, 51, 52, 53]], none) := by
  decide

/-- C12, the claim as stated fails: block 1 of a memo file with blocks of 64
bytes holds the length bytes 00 00 00 05 and then `HelloXYZ`.  The run prints
`Hello`, the 5 bytes the big-endian reading of the length gives; the
little-endian integer stored there is 83886080, more than the file holds. -/
theorem modern_memo_length_not_little_endian :
    run (fun _ _ => []) (str "t") (some modernMemoFile) []
        (memoFieldFile 245 1 4 [32, 1, 0, 0, 0]) =
      { out := [.begin, .dropTable (str "t"), .createOpen (str "t"), .colName [109],
          .colType (str "TEXT"), .createClose, .insertOpen (str "t"),
          .value (str "'Hello'"), .insertClose, .commit],
        exit := .success } ∧
    modernMemoFile.drop (64 * 1 + 4) = [0, 0, 0, 5] ++ str "HelloXYZ" ∧
    slittleint32_t [0, 0, 0, 5] = 83886080 ∧
    sbigint32_t [0, 0, 0, 5] = 5 := by
  decide

/-- C12 as amended: for a signature other than 0x83, a memo file, its block
size `bs` as `main` reads it, and a block number `n > 0` such that the file
holds block `n` with the bytes `c0 c1 c2 c3` at offset `n * bs + 4` and after
them at least `len` bytes, where `len < 2^31` is the big-endian integer of
`c0 c1 c2 c3`: the text handed to `safeprintbuf` is exactly the `len` bytes
that start at offset `n * bs + 8`; when these have no NUL before their
trailing blanks and fewer than 2^30 bytes without them, the literal of exactly
these bytes without the trailing blanks is printed. -/
theorem modern_memo_length_is_big_endian (fmtDouble : Nat → List Nat → List Nat)
    (tablename memofile : List Nat) (signature : Nat) (f : DBFFIELD)
    (bufoffset : List Nat) (n : Int) (pre hdr text rest : List Nat) (c0 c1 c2 c3 : Nat)
    (hsig : signature ≠ 0x83) (hn : memoBlockNumber f bufoffset = n) (hpos : 0 < n)
    (hfile : memofile = pre ++ (hdr ++ ([c0, c1, c2, c3] ++ (text ++ rest))))
    (hpre : pre.length = memoBlockSize signature (some (mmapBytes memofile)) * n.toNat)
    (hhdr : hdr.length = 4)
    (hmap : (mmapBytes memofile).length ≤ 18446744073709551616)
    (h0 : c0 < 128) (h1 : c1 < 256) (h2 : c2 < 256) (h3 : c3 < 256)
    (hlen : text.length = 16777216 * c0 + 65536 * c1 + 256 * c2 + c3)
    (hread : text ++ rest ≠ []) :
    memoValue (mainEnv fmtDouble tablename (some memofile) signature) f bufoffset =
      printValue (safeprintbuf
        ((mmapBytes memofile).drop
          (memoBlockSize signature (some (mmapBytes memofile)) * n.toNat + 8))
        text.length) ∧
    ((mmapBytes memofile).drop
        (memoBlockSize signature (some (mmapBytes memofile)) * n.toNat + 8)).take text.length
      = text ∧
    ((∀ b ∈ trimRight text, b ≠ 0) → (trimRight text).length < 1073741824 →
      memoValue (mainEnv fmtDouble tablename (some memofile) signature) f bufoffset =
        ([.value (specLiteral (trimRight text))], none)) := by
  generalize hz : List.replicate ((PAGESIZE - memofile.length % PAGESIZE) % PAGESIZE) 0 = zeros
  have hmm : mmapBytes memofile
      = pre ++ (hdr ++ ([c0, c1, c2, c3] ++ (text ++ (rest ++ zeros)))) := by
    unfold mmapBytes
    rw [hz, hfile]
    simp only [List.append_assoc]
  have hin : memoBlockSize signature (some (mmapBytes memofile)) * n.toNat
      < (mmapBytes memofile).length := by
    rw [← hpre, hmm, List.length_append, List.length_append]; omega
  have hd8 : (hdr ++ ([c0, c1, c2, c3] ++ (text ++ (rest ++ zeros)))).drop 8
      = text ++ (rest ++ zeros) := by
    rw [← List.append_assoc]
    exact List.drop_left' (by rw [List.length_append, hhdr]; rfl)
  have hd4 : (hdr ++ ([c0, c1, c2, c3] ++ (text ++ (rest ++ zeros)))).drop 4
      = [c0, c1, c2, c3] ++ (text ++ (rest ++ zeros)) := List.drop_left' hhdr
  have hbig : sbigint32_t ([c0, c1, c2, c3] ++ (text ++ (rest ++ zeros)))
      = toInt32 ((c3 + 256 * c2 + 65536 * c1 + 16777216 * c0 : Nat) : Int) := by
    simp only [sbigint32_t, sswappedint32_t, snativeint32_t, List.cons_append,
      List.nil_append, List.getD_cons_zero, List.getD_cons_succ]
    exact swappedint32_t_bytes c0 c1 c2 c3 (by omega) h1 h2 h3
  have e : c3 + 256 * c2 + 65536 * c1 + 16777216 * c0 = text.length := by omega
  have hlt : text.length < 2147483648 := by omega
  have hdrop : (mmapBytes memofile).drop
      (memoBlockSize signature (some (mmapBytes memofile)) * n.toNat + 8)
      = text ++ (rest ++ zeros) := by
    rw [← hpre, hmm, ← List.drop_drop, List.drop_left' rfl, hd8]
  have hval : memoValue (mainEnv fmtDouble tablename (some memofile) signature) f bufoffset
      = printValue (safeprintbuf (text ++ (rest ++ zeros)) text.length) := by
    rw [memoValue_at_block (mainEnv fmtDouble tablename (some memofile) signature) f
      bufoffset (mmapBytes memofile) n hn hpos rfl hin hmap]
    have hb : (mainEnv fmtDouble tablename (some memofile) signature).memoblocksize
        = memoBlockSize signature (some (mmapBytes memofile)) := rfl
    rw [hb, ← hpre, hmm, List.drop_left' rfl]
    unfold memoLookup
    have hs : (mainEnv fmtDouble tablename (some memofile) signature).signature
        = signature := rfl
    rw [hs, if_neg hsig, hd8, hd4, hbig, e, toSizeT_toInt32 _ hlt]
  refine ⟨by rw [hval, hdrop], by rw [hdrop, List.take_left' rfl], fun hnul hshort => ?_⟩
  have hne : text ++ (rest ++ zeros) ≠ [] := by
    rw [← List.append_assoc]
    intro h
    exact hread (List.append_eq_nil.mp h).1
  rw [hval, safeprintbuf_eq text (rest ++ zeros) hnul hne hshort]
  rfl

/-- Witness of C12 as amended: block 1 of the memo file with blocks of 64
bytes. -/
theorem modern_memo_length_is_big_endian_witness :
    memoValue (mainEnv (fun _ _ => []) (str "t") (some modernMemoFile) 245)
        ⟨[109], 77, 4, 0⟩ [1, 0, 0, 0] =
      printValue (safeprintbuf
        ((mmapBytes modernMemoFile).drop
          (memoBlockSize 245 (some (mmapBytes modernMemoFile)) * (1 : Int).toNat + 8))
        [72, 101, 108, 108, 111].length) ∧
    ((mmapBytes modernMemoFile).drop
        (memoBlockSize 245 (some (mmapBytes modernMemoFile)) * (1 : Int).toNat + 8)).take
          [72, 101, 108, 108, 111].length
      = [72, 101, 108, 108, 111] ∧
    ((∀ b ∈ trimRight [72, 101, 108, 108, 111], b ≠ 0) →
      (trimRight [72, 101, 108, 108, 111]).length < 1073741824 →
      memoValue (mainEnv (fun _ _ => []) (str "t") (some modernMemoFile) 245)
          ⟨[109], 77, 4, 0⟩ [1, 0, 0, 0] =
        ([.value (specLiteral (trimRight [72, 101, 108, 108, 111]))], none)) :=
  modern_memo_length_is_big_endian (fun _ _ => []) (str "t") modernMemoFile 245
    ⟨[109], 77, 4, 0⟩ [1, 0, 0, 0] 1 ([0, 0, 0, 2, 0, 0, 0, 64] ++ List.replicate 56 0)
    [0, 0, 0, 1] [72, 101, 108, 108, 111] [88, 89, 90] 0 0 0 5
    (by decide) (by decide) (by decide) (by decide) (by decide) (by decide)
    (mapping_fits modernMemoFile (by decide))
    (by decide) (by decide) (by decide) (by decide) (by decide) (by decide)

/-- C13: the code at the failing input.  The DBF file has signature 0x83, one
memo field of length 4 and one record holding block number 1; block 1 of the
memo file holds `a`, NUL, `b` and then the byte 0x1A.  A byte 0x1A occurs
after the start of the block, so the claim gives the text `a`, NUL, `b`; but
`strchr` stops at the NUL and returns the null pointer, whose difference to
`memorecord` is used as the length: the run prints the opening of the `INSERT`
and no text.  In the scenario of the specification, block 3 holding `Hello`
and the byte 0x1A, the run prints `Hello` between quotes. -/
theorem classic_memo_nul_before_sentinel :
    (26 : Nat) ∈ (classicMemoFile 1 [97, 0, 98, 26]).drop (512 * 1) ∧
    strchr ((classicMemoFile 1 [97, 0, 98, 26]).drop (512 * 1)) 0x1A = none ∧
    run (fun _ _ => []) (str "t") (some (classicMemoFile 1 [97, 0, 98, 26])) []
        (memoFieldFile 0x83 1 4 [32, 1, 0, 0, 0]) =
      { out := [.begin, .dropTable (str "t"), .createOpen (str "t"), .colName [109],
          .colType (str "TEXT"), .createClose, .insertOpen (str "t")],
        exit := .crash } ∧
    run (fun _ _ => []) (str "t") (some (classicMemoFile 3 (str "Hello" ++ [26]))) []
        (memoFieldFile 0x83 1 4 [32, 3, 0, 0, 0]) =
      { out := [.begin, .dropTable (str "t"), .createOpen (str "t"), .colName [109],
          .colType (str "TEXT"), .createClose, .insertOpen (str "t"),
          .value (str "'Hello'"), .insertClose, .commit],
        exit := .success } := by
  set_option maxRecDepth 100000 in decide

/-- C14: the code at the failing input.  The DBF file has signature 0x83, one
memo field of length 4 and one record holding block number 1; the memo file
has 512 bytes and then `Hello` with no byte 0x1A after it.  The result of
`strchr` is not tested: the run prints the opening of the `INSERT` and then
goes on with the null pointer instead of failing with a message. -/
theorem missing_sentinel_is_not_reported :
    (run (fun _ _ => []) (str "t")
        (some (List.replicate 512 0 ++ [72, 101, 108, 108, 111])) []
        (headerBytes 0x83 1 65 5 ++ fieldBytes 109 77 4 0 ++ [13]
          ++ [32, 1, 0, 0, 0])).exit = .crash ∧
    (run (fun _ _ => []) (str "t")
        (some (List.replicate 512 0 ++ [72, 101, 108, 108, 111])) []
        (headerBytes 0x83 1 65 5 ++ fieldBytes 109 77 4 0 ++ [13]
          ++ [32, 1, 0, 0, 0])).out =
      [.begin, .dropTable (str "t"), .createOpen (str "t"), .colName [109],
        .colType (str "TEXT"), .createClose, .insertOpen (str "t")] ∧
    (∀ e, (run (fun _ _ => []) (str "t")
        (some (List.replicate 512 0 ++ [72, 101, 108, 108, 111])) []
        (headerBytes 0x83 1 65 5 ++ fieldBytes 109 77 4 0 ++ [13]
          ++ [32, 1, 0, 0, 0])).exit ≠ .failure e) := by
  set_option maxRecDepth 100000 in
  refine ⟨by decide, by decide, ?_⟩
  intro e
  have h : (run (fun _ _ => []) (str "t")
        (some (List.replicate 512 0 ++ [72, 101, 108, 108, 111])) []
        (headerBytes 0x83 1 65 5 ++ fieldBytes 109 77 4 0 ++ [13]
          ++ [32, 1, 0, 0, 0])).exit = .crash := by decide
  rw [h]
  exact fun hc => Exit.noConfusion hc

/-- C15, the claim as stated fails: the header block of the memo file holds
00 40 at offset 2 and 02 00 at offset 6.  The block size the program uses is
512, the value at offset 6 where the member `blocksize` of `MEMOHEADER` lies,
not 64, the value at offset 2. -/
theorem memo_block_size_not_at_offset_two :
    memoBlockSize 0x30 (some [0, 0, 0, 64, 0, 0, 2, 0]) = 512 ∧
    toInt16 ((256 * 0 + 64 : Nat) : Int) = 64 := by
  decide

/-- C15 as amended: for signature 0x83 the block size is 512; for every other
signature it is the 16-bit big-endian value stored at byte offset 6 of the
memo file, here for values below 32768; and for a block number `n > 0` whose
block the memo file holds, the lookup is made on the bytes that start
`memoblocksize * n` bytes into the memo file. -/
theorem memo_block_size_and_start (env : Env) (f : DBFFIELD) (bufoffset m : List Nat)
    (n : Int) (signature : Nat) (h6 rest : List Nat) (c0 c1 : Nat)
    (hn : memoBlockNumber f bufoffset = n) (hpos : 0 < n) (hm : env.memomap = some m)
    (hin : env.memoblocksize * n.toNat < m.length)
    (hlen : m.length ≤ 18446744073709551616)
    (hh : h6.length = 6) (h0 : c0 < 128) (h1 : c1 < 256) :
    memoBlockSize 0x83 (some m) = 512 ∧
    (signature ≠ 0x83 →
      memoBlockSize signature (some (h6 ++ c0 :: c1 :: rest)) = 256 * c0 + c1) ∧
    memoValue env f bufoffset = memoLookup env (m.drop (env.memoblocksize * n.toNat)) := by
  refine ⟨by simp [memoBlockSize], fun hsig => ?_,
    memoValue_at_block env f bufoffset m n hn hpos hm hin hlen⟩
  simp only [memoBlockSize, if_neg hsig, List.drop_left' hh, sbigint16_t, sswappedint16_t,
    snativeint16_t, List.getD_cons_zero, List.getD_cons_succ]
  rw [swappedint16_t_bytes c0 c1 (by omega) h1]
  have hlt : c1 + 256 * c0 < 32768 := by omega
  have e : 256 * c0 + c1 = c1 + 256 * c0 := by omega
  rw [e]
  generalize c1 + 256 * c0 = v at hlt
  clear h0 h1 e
  unfold toSizeT toInt16
  omega

/-- Witness of C15 as amended: a memo file with blocks of 64 bytes. -/
theorem memo_block_size_and_start_witness :
    memoBlockSize 0x83 (some (List.replicate 64 0 ++ [0, 0, 0, 1, 0, 0, 0, 5, 72])) = 512 ∧
    ((0x30 : Nat) ≠ 0x83 →
      memoBlockSize 0x30 (some ([0, 0, 0, 2, 0, 0] ++ 0 :: 64 :: [])) = 256 * 0 + 64) ∧
    memoValue (memoEnv 0x30 64 (List.replicate 64 0 ++ [0, 0, 0, 1, 0, 0, 0, 5, 72]))
        ⟨[109], 77, 4, 0⟩ [1, 0, 0, 0] =
      memoLookup (memoEnv 0x30 64 (List.replicate 64 0 ++ [0, 0, 0, 1, 0, 0, 0, 5, 72]))
        ((List.replicate 64 0 ++ [0, 0, 0, 1, 0, 0, 0, 5, 72]).drop
          ((memoEnv 0x30 64 (List.replicate 64 0
            ++ [0, 0, 0, 1, 0, 0, 0, 5, 72])).memoblocksize * (1 : Int).toNat)) :=
  memo_block_size_and_start
    (memoEnv 0x30 64 (List.replicate 64 0 ++ [0, 0, 0, 1, 0, 0, 0, 5, 72]))
    ⟨[109], 77, 4, 0⟩ [1, 0, 0, 0] (List.replicate 64 0 ++ [0, 0, 0, 1, 0, 0, 0, 5, 72])
    1 0x30 [0, 0, 0, 2, 0, 0] [] 0 64
    (by decide) (by decide) rfl (by decide) (by decide) (by decide) (by decide) (by decide)

theorem memoNumberLoop_spaces (j : Nat) (t : List Nat) (acc : Int) : ∀ k : Nat,
    memoNumberLoop (k + j) (List.replicate k 32 ++ t) acc = memoNumberLoop j t acc := by
  intro k
  induction k with
  | zero => simp
  | succ k ih =>
    have h1 : k + 1 + j = (k + j) + 1 := by omega
    rw [h1, memoNumberLoop, List.replicate_succ, List.cons_append]
    simpa using ih

theorem digitsValue_ge (ds : List Nat) : ∀ a : Nat, a ≤ digitsValue a ds := by
  induction ds with
  | nil => intro a; exact le_refl a
  | cons d ds ih =>
    intro a
    have h := ih (10 * a + d)
    simp only [digitsValue, List.foldl_cons] at h ⊢
    omega

theorem schar_digit (d : Nat) (h : d < 10) : schar (d + 48) = ((d + 48 : Nat) : Int) := by
  unfold schar
  have h1 : (d + 48) % 256 = d + 48 := by omega
  rw [h1, if_pos (by omega)]

theorem memoNumberLoop_digits (rest : List Nat) (ds : List Nat) : ∀ acc : Nat,
    (∀ d ∈ ds, d < 10) → digitsValue acc ds < 2147483648 →
    memoNumberLoop ds.length (ds.map (fun d => d + 48) ++ rest) (acc : Int) =
      ((digitsValue acc ds : Nat) : Int) := by
  induction ds with
  | nil => intro acc _ _; rfl
  | cons d ds ih =>
    intro acc hds hv
    have hd : d < 10 := hds d (List.mem_cons_self _ _)
    have hv2 : digitsValue (10 * acc + d) ds < 2147483648 := by
      simpa [digitsValue] using hv
    have hge := digitsValue_ge ds (10 * acc + d)
    have hlt : 10 * acc + d < 2147483648 := by omega
    have hstep : toInt32 ((acc : Int) * 10 + schar (d + 48) - 48)
        = ((10 * acc + d : Nat) : Int) := by
      rw [schar_digit d hd]
      have hw : ((acc : Int) * 10 + ((d + 48 : Nat) : Int) - 48)
          = ((10 * acc + d : Nat) : Int) := by omega
      rw [hw]
      generalize 10 * acc + d = w at hlt
      unfold toInt32
      omega
    rw [List.length_cons, List.map_cons, List.cons_append, memoNumberLoop]
    simp only [List.getD_cons_zero, List.drop_succ_cons, List.drop_zero]
    rw [if_pos (by omega), hstep,
      ih (10 * acc + d) (fun x hx => hds x (List.mem_cons_of_mem _ hx)) hv2]
    simp [digitsValue]

/-- C16: `case 'M'` for a memo field `f4` of length 4 on the bytes
`b0 b1 b2 b3` goes on with the 32-bit little-endian signed integer of these
bytes as block number; for a memo field `f10` of length 10 on `k` spaces
followed by the `10 - k` ASCII digits of a number below 2^31 it goes on with
that number, which is 0 when all ten bytes are spaces; with block number 0 it
prints nothing and looks nothing up; with a block number `n > 0` whose block
the mapping holds it makes the lookup at `memoblocksize * n`. -/
theorem memo_block_number_decoding (env : Env) (f4 f10 : DBFFIELD)
    (b0 b1 b2 b3 k : Nat) (ds rest : List Nat)
    (h4 : f4.length = 4) (h10 : f10.length = 10)
    (hk : k + ds.length = 10) (hds : ∀ d ∈ ds, d < 10)
    (hv : digitsValue 0 ds < 2147483648) :
    memoValue env f4 (b0 :: b1 :: b2 :: b3 :: rest) =
      memoAt env (toInt32 ((b0 + 256 * b1 + 65536 * b2 + 16777216 * b3 : Nat) : Int)) ∧
    memoValue env f10 (List.replicate k 32 ++ (ds.map (fun d => d + 48) ++ rest)) =
      memoAt env ((digitsValue 0 ds : Nat) : Int) ∧
    (k = 10 →
      memoValue env f10 (List.replicate k 32 ++ (ds.map (fun d => d + 48) ++ rest)) =
        ([], none)) ∧
    memoAt env 0 = ([], none) ∧
    (∀ (n : Int) (m : List Nat), 0 < n → n < 2147483648 → env.memomap = some m →
      env.memoblocksize * n.toNat < m.length → m.length ≤ 18446744073709551616 →
      memoAt env n = memoLookup env (m.drop (env.memoblocksize * n.toNat))) := by
  have e4 : memoValue env f4 (b0 :: b1 :: b2 :: b3 :: rest) =
      memoAt env (toInt32 ((b0 + 256 * b1 + 65536 * b2 + 16777216 * b3 : Nat) : Int)) := by
    simp only [memoValue, memoBlockNumber, memonumbering, if_pos h4, if_true, slittleint32_t,
      snativeint32_t, List.getD_cons_zero, List.getD_cons_succ]
  have e10 : memoValue env f10 (List.replicate k 32 ++ (ds.map (fun d => d + 48) ++ rest)) =
      memoAt env ((digitsValue 0 ds : Nat) : Int) := by
    have hne : ¬ f10.length = 4 := by omega
    have hstyle : ¬ NUMERICMEMOSTYLE = PACKEDMEMOSTYLE := by decide
    simp only [memoValue, memoBlockNumber, memonumbering, if_neg hne, if_neg hstyle]
    rw [← hk, memoNumberLoop_spaces]
    exact congrArg (memoAt env) (memoNumberLoop_digits rest ds 0 hds hv)
  refine ⟨e4, e10, fun hk10 => ?_, rfl,
    fun n m hpos hhi hm hin hlen => memoAt_block env m n hpos hhi hm hin hlen⟩
  have hnil : ds = [] := List.eq_nil_of_length_eq_zero (by omega)
  rw [e10, hnil]
  rfl

/-- Witness of C16: a length 4 field on the bytes 03 00 00 00 and a length 10
field on seven spaces followed by the digits 1, 2, 3. -/
theorem memo_block_number_decoding_witness :
    memoValue sampleEnv ⟨[109], 77, 4, 0⟩ (3 :: 0 :: 0 :: 0 :: [7]) =
      memoAt sampleEnv (toInt32 ((3 + 256 * 0 + 65536 * 0 + 16777216 * 0 : Nat) : Int)) ∧
    memoValue sampleEnv ⟨[109], 77, 10, 0⟩
        (List.replicate 7 32 ++ ([1, 2, 3].map (fun d => d + 48) ++ [7])) =
      memoAt sampleEnv ((digitsValue 0 [1, 2, 3] : Nat) : Int) ∧
    (7 = 10 →
      memoValue sampleEnv ⟨[109], 77, 10, 0⟩
          (List.replicate 7 32 ++ ([1, 2, 3].map (fun d => d + 48) ++ [7])) =
        ([], none)) ∧
    memoAt sampleEnv 0 = ([], none) ∧
    (∀ (n : Int) (m : List Nat), 0 < n → n < 2147483648 → sampleEnv.memomap = some m →
      sampleEnv.memoblocksize * n.toNat < m.length → m.length ≤ 18446744073709551616 →
      memoAt sampleEnv n = memoLookup sampleEnv (m.drop (sampleEnv.memoblocksize * n.toNat))) :=
  memo_block_number_decoding sampleEnv ⟨[109], 77, 4, 0⟩ ⟨[109], 77, 10, 0⟩ 3 0 0 0 7
    [1, 2, 3] [7] (by decide) (by decide) (by decide) (by decide) (by decide)

/-- The block numbers of C16 in whole runs: a memo field of length 10 holding
nine spaces and the digit 1, and a memo field of length 4 holding 01 00 00 00,
print block 1 of the memo file; ten spaces, and 00 00 00 00, print an `INSERT`
without a value. -/
theorem memo_block_number_examples :
    run (fun _ _ => []) (str "t") (some (classicMemoFile 1 (str "Hello" ++ [26]))) []
        (memoFieldFile 0x83 2 10 (str "          1" ++ str "           ")) =
      { out := [.begin, .dropTable (str "t"), .createOpen (str "t"), .colName [109],
          .colType (str "TEXT"), .createClose,
          .insertOpen (str "t"), .value (str "'Hello'"), .insertClose,
          .insertOpen (str "t"), .insertClose, .commit],
        exit := .success } ∧
    run (fun _ _ => []) (str "t") (some (classicMemoFile 1 (str "Hello" ++ [26]))) []
        (memoFieldFile 0x83 2 4 ([32, 1, 0, 0, 0] ++ [32, 0, 0, 0, 0])) =
      { out := [.begin, .dropTable (str "t"), .createOpen (str "t"), .colName [109],
          .colType (str "TEXT"), .createClose,
          .insertOpen (str "t"), .value (str "'Hello'"), .insertClose,
          .insertOpen (str "t"), .insertClose, .commit],
        exit := .success } := by
  set_option maxRecDepth 100000 in decide

/-- Witness of C19: the build with `WORDS_BIGENDIAN` on the bytes
80 01 02 03 04 05 06 FF. -/
theorem readers_host_independent_witness :
    (slittleint16_t (128 :: 1 :: []) = toInt16 ((128 + 256 * 1 : Nat) : Int) ∧
      slittleint16_build true (128 :: 1 :: []) = slittleint16_t (128 :: 1 :: [])) ∧
    (sbigint16_t (128 :: 1 :: []) = toInt16 ((1 + 256 * 128 : Nat) : Int) ∧
      sbigint16_build true (128 :: 1 :: []) = sbigint16_t (128 :: 1 :: [])) ∧
    (slittleint32_t (128 :: 1 :: 2 :: 3 :: []) =
        toInt32 ((128 + 256 * 1 + 65536 * 2 + 16777216 * 3 : Nat) : Int) ∧
      slittleint32_build true (128 :: 1 :: 2 :: 3 :: []) =
        slittleint32_t (128 :: 1 :: 2 :: 3 :: [])) ∧
    (sbigint32_t (128 :: 1 :: 2 :: 3 :: []) =
        toInt32 ((3 + 256 * 2 + 65536 * 1 + 16777216 * 128 : Nat) : Int) ∧
      sbigint32_build true (128 :: 1 :: 2 :: 3 :: []) =
        sbigint32_t (128 :: 1 :: 2 :: 3 :: [])) ∧
    (slittleint64_t (128 :: 1 :: 2 :: 3 :: 4 :: 5 :: 6 :: 255 :: []) =
        toInt64 ((128 + 256 * 1 + 65536 * 2 + 16777216 * 3 + 4294967296 * 4
          + 1099511627776 * 5 + 281474976710656 * 6 + 72057594037927936 * 255 : Nat)
            : Int) ∧
      slittleint64_build true (128 :: 1 :: 2 :: 3 :: 4 :: 5 :: 6 :: 255 :: []) =
        slittleint64_t (128 :: 1 :: 2 :: 3 :: 4 :: 5 :: 6 :: 255 :: [])) ∧
    (sbigint64_t (128 :: 1 :: 2 :: 3 :: 4 :: 5 :: 6 :: 255 :: []) =
        toInt64 ((255 + 256 * 6 + 65536 * 5 + 16777216 * 4 + 4294967296 * 3
          + 1099511627776 * 2 + 281474976710656 * 1 + 72057594037927936 * 128 : Nat)
            : Int) ∧
      sbigint64_build true (128 :: 1 :: 2 :: 3 :: 4 :: 5 :: 6 :: 255 :: []) =
        sbigint64_t (128 :: 1 :: 2 :: 3 :: 4 :: 5 :: 6 :: 255 :: [])) ∧
    (∀ x : Int, swappedint16_t (swappedint16_t (toInt16 x)) = toInt16 x) ∧
    (∀ x : Int, swappedint32_t (swappedint32_t (toInt32 x)) = toInt32 x) ∧
    (∀ x : Int, swappedint64_t (swappedint64_t (toInt64 x)) = toInt64 x) :=
  readers_host_independent true 128 1 2 3 4 5 6 255 [] (by decide) (by decide) (by decide)
    (by decide) (by decide) (by decide) (by decide) (by decide)

/-- The readers of C19 evaluated on the bytes 80 01 02 03 04 05 06 FF. -/
theorem readers_examples :
    slittleint16_t [128, 1] = 384 ∧ sbigint16_t [128, 1] = -32767 ∧
    slittleint32_t [128, 1, 2, 3] = 50463104 ∧ sbigint32_t [128, 1, 2, 3] = -2147417597 ∧
    slittleint64_t [128, 1, 2, 3, 4, 5, 6, 255] = -70363229389192832 ∧
    sbigint64_t [128, 1, 2, 3, 4, 5, 6, 255] = -9223088349902469377 ∧
    slittleint32_build true [128, 1, 2, 3] = 50463104 ∧
    sbigint32_build true [128, 1, 2, 3] = -2147417597 := by
  decide

/-! ## Claims on the records of a file -/

/-- C17, the claim as stated fails: the records `John25` and `*ane30` have 6
bytes each, the fields take 6 bytes, and byte 0 of a record is its deletion
flag.  With a record length of 6 the `J` is read as the flag of the first
record, and the one statement printed is `INSERT INTO t VALUES('ohn2',5*);`.
With a record length of 7 the 12 bytes hold one record only, and the run
fails with the short-record message before any `INSERT`. -/
theorem two_record_scenario_without_flag_byte :
    (run (fun _ _ => []) (str "t") none []
        (scenarioFile 6 (str "John25" ++ str "*ane30"))).out =
      [.begin, .dropTable (str "t"), .createOpen (str "t"),
        .colName (str "name"), .colType (str "TEXT(4)"), .colSep,
        .colName (str "age"), .colType (str "NUMERIC(2, 0)"), .createClose,
        .insertOpen (str "t"), .value (str "'ohn2'"), .valSep, .value (str "5*"),
        .insertClose, .commit] ∧
    run (fun _ _ => []) (str "t") none []
        (scenarioFile 7 (str "John25" ++ str "*ane30")) =
      { out := [.begin, .dropTable (str "t"), .createOpen (str "t"),
          .colName (str "name"), .colType (str "TEXT(4)"), .colSep,
          .colName (str "age"), .colType (str "NUMERIC(2, 0)"), .createClose],
        exit := .failure .shortRecord } := by
  decide

/-- C17 as amended: for table name `t`, a header declaring 2 records of 7
bytes, the fields `NAME` (type C, length 4) and `AGE` (type N, length 2, no
decimals), and the two records ` John25` and `*Jane30` (byte 0 of a record is
its deletion flag), the run succeeds, the script has exactly one `INSERT`
statement, and that statement is `INSERT INTO t VALUES('John',25);`. -/
theorem two_record_scenario :
    run (fun _ _ => []) (str "t") none []
        (scenarioFile 7 (str " John25" ++ str "*Jane30")) =
      { out := [.begin, .dropTable (str "t"), .createOpen (str "t"),
          .colName (str "name"), .colType (str "TEXT(4)"), .colSep,
          .colName (str "age"), .colType (str "NUMERIC(2, 0)"), .createClose,
          .insertOpen (str "t"), .value (str "'John'"), .valSep, .value (str "25"),
          .insertClose, .commit],
        exit := .success } ∧
    renderAll [.insertOpen (str "t"), .value (str "'John'"), .valSep, .value (str "25"),
        .insertClose] = str "INSERT INTO t VALUES('John',25);\n" ∧
    List.count (Out.insertOpen (str "t"))
      (run (fun _ _ => []) (str "t") none []
        (scenarioFile 7 (str " John25" ++ str "*Jane30"))).out = 1 := by
  decide

/-- C18, the claim as stated fails: the date bytes `2023`, NUL, `401` do not
start with a space or a NUL, and the field prints as the 7 characters
`'2023-'`, because `%s` stops at the NUL stored after the first dash. -/
theorem date_with_nul_is_cut :
    fieldValue sampleEnv ⟨[100], 68, 8, 0⟩ [50, 48, 50, 51, 0, 52, 48, 49] =
      ([.value (str "'2023-'")], none) := by
  decide

/-- C18 as amended: for a field of type D on the bytes `b0 .. b7`, if `b0` is
a space or NUL the value printed is `NULL`; otherwise, if none of `b1 .. b7`
is NUL, it is the 12 characters quote, `b0 b1 b2 b3`, dash, `b4 b5`, dash,
`b6 b7`, quote. -/
theorem date_rendering (env : Env) (f : DBFFIELD) (b0 b1 b2 b3 b4 b5 b6 b7 : Nat)
    (rest : List Nat) (hD : f.type = 68) :
    (b0 = 32 ∨ b0 = 0 →
      fieldValue env f (b0 :: b1 :: b2 :: b3 :: b4 :: b5 :: b6 :: b7 :: rest) =
        ([.value (str "NULL")], none)) ∧
    (b0 ≠ 32 → b0 ≠ 0 → b1 ≠ 0 → b2 ≠ 0 → b3 ≠ 0 → b4 ≠ 0 → b5 ≠ 0 → b6 ≠ 0 → b7 ≠ 0 →
      fieldValue env f (b0 :: b1 :: b2 :: b3 :: b4 :: b5 :: b6 :: b7 :: rest) =
        ([.value [39, b0, b1, b2, b3, 45, b4, b5, 45, b6, b7, 39]], none)) := by
  have hv : fieldValue env f (b0 :: b1 :: b2 :: b3 :: b4 :: b5 :: b6 :: b7 :: rest) =
      ([.value (dateValue (b0 :: b1 :: b2 :: b3 :: b4 :: b5 :: b6 :: b7 :: rest))], none) := by
    unfold fieldValue
    rw [if_neg (by omega), if_neg (by omega), if_pos hD]
  rw [hv]
  constructor
  · intro h
    simp only [dateValue, List.getD_cons_zero]
    rw [if_pos h]
  · intro h32 h0 h1 h2 h3 h4 h5 h6 h7
    simp only [dateValue, List.getD_cons_zero, List.getD_cons_succ]
    rw [if_neg (by omega)]
    have e : ∀ b : Nat, b ≠ 0 → (b != 0) = true := fun b h => by simpa using h
    simp [cstring, List.takeWhile, e b0 h0, e b1 h1, e b2 h2, e b3 h3, e b4 h4, e b5 h5,
      e b6 h6, e b7 h7]

/-- Witness of C18: the scenario of the specification, 8 spaces and
`20230401`. -/
theorem date_rendering_witness :
    fieldValue sampleEnv ⟨[100], 68, 8, 0⟩ [32, 32, 32, 32, 32, 32, 32, 32] =
      ([.value (str "NULL")], none) ∧
    fieldValue sampleEnv ⟨[100], 68, 8, 0⟩ [50, 48, 50, 51, 48, 52, 48, 49] =
      ([.value [39, 50, 48, 50, 51, 45, 48, 52, 45, 48, 49, 39]], none) :=
  ⟨(date_rendering sampleEnv ⟨[100], 68, 8, 0⟩ 32 32 32 32 32 32 32 32 [] rfl).1
      (Or.inl rfl),
    (date_rendering sampleEnv ⟨[100], 68, 8, 0⟩ 50 48 50 51 48 52 48 49 [] rfl).2
      (by decide) (by decide) (by decide) (by decide) (by decide) (by decide) (by decide)
      (by decide) (by decide)⟩

/-- C20, the code against the claim: the header declares one record, the
record area holds the two records ` ab` and ` cd`; the run succeeds and
prints two `INSERT` statements, the second for the bytes after the first
record. -/
theorem surplus_record_is_inserted :
    littleint32_t (readHeader surplusRecordFile).recordcount = 1 ∧
    run (fun _ _ => []) (str "t") none [] surplusRecordFile =
      { out := [.begin, .dropTable (str "t"), .createOpen (str "t"),
          .colName [99], .colType (str "TEXT(2)"), .createClose,
          .insertOpen (str "t"), .value (str "'ab'"), .insertClose,
          .insertOpen (str "t"), .value (str "'cd'"), .insertClose, .commit],
        exit := .success } ∧
    List.count (Out.insertOpen (str "t"))
      (run (fun _ _ => []) (str "t") none [] surplusRecordFile).out = 2 := by
  decide

/-! ## The timestamp field -/

theorem printfZero_two : ∀ n : Nat, n < 100 → printfZero 2 (n : Int) = twoDigits n := by
  decide

theorem fieldValue_timestamp (env : Env) (f : DBFFIELD) (bufoffset : List Nat)
    (hT : f.type = 84) :
    fieldValue env f bufoffset = ([.value (timestampValue bufoffset)], none) := by
  have hB : ¬ f.type = 66 := by omega
  have hC : ¬ f.type = 67 := by omega
  have hD : ¬ f.type = 68 := by omega
  have hG : ¬ f.type = 71 := by omega
  have hI : ¬ f.type = 73 := by omega
  have hL : ¬ f.type = 76 := by omega
  have hM : ¬ f.type = 77 := by omega
  have hFN : ¬ (f.type = 70 ∨ f.type = 78) := by omega
  unfold fieldValue
  rw [if_neg hB, if_neg hC, if_neg hD, if_neg hG, if_neg hI, if_neg hL, if_neg hM,
    if_neg hFN, if_pos hT]

theorem timestampValue_of_seconds (bufoffset : List Nat) (d : Int) (s : Nat)
    (hd : slittleint32_t bufoffset = d)
    (hs : Int.tdiv (toInt32 (slittleint32_t (bufoffset.drop 4) + 1)) 1000 = (s : Int))
    (hlt : s < 360000) :
    timestampValue bufoffset =
      if d = 0 ∧ s = 0 then str "NULL"
      else [39, 74] ++ printfD d ++ [32] ++ twoDigits (s / 3600) ++ [58]
        ++ twoDigits (s % 3600 / 60) ++ [58] ++ twoDigits (s % 60) ++ [39] := by
  have h1 : Int.tdiv (s : Int) 3600 = ((s / 3600 : Nat) : Int) := by
    rw [Int.tdiv_eq_ediv (by omega) (by omega)]; omega
  have h2 : (s : Int) - ((s / 3600 : Nat) : Int) * 3600 = ((s % 3600 : Nat) : Int) := by omega
  have h3 : Int.tdiv ((s % 3600 : Nat) : Int) 60 = ((s % 3600 / 60 : Nat) : Int) := by
    rw [Int.tdiv_eq_ediv (by omega) (by omega)]; omega
  have h4 : ((s % 3600 : Nat) : Int) - ((s % 3600 / 60 : Nat) : Int) * 60
      = ((s % 60 : Nat) : Int) := by omega
  simp only [timestampValue, hd, hs, h1, h2, h3, h4]
  rw [printfZero_two _ (by omega), printfZero_two _ (by omega), printfZero_two _ (by omega)]
  simp only [Int.natCast_eq_zero]

/-- C21, the claim as stated fails: the millisecond word 86399999, the last
one of a day, gives `(86399999 + 1) / 1000 = 86400` seconds, and the field
prints with the hour 24. -/
theorem timestamp_last_millisecond_is_hour_24 :
    slittleint32_t [255, 91, 38, 5] = 86399999 ∧
    fieldValue sampleEnv ⟨[116], 84, 8, 0⟩ [1, 0, 0, 0, 255, 91, 38, 5] =
      ([.value (str "'J1 24:00:00'")], none) := by
  decide

/-- C21 as amended: for a field of type T with Julian day `d` and millisecond
word `ms` with `0 ≤ ms < 86399999`, the value is `NULL` when `d` and `ms` are
both zero, and whenever it is not `NULL` it is quote, `J`, `d` in decimal, a
space, `HH:MM:SS`, quote, with two digits each, `HH ≤ 23`, `MM ≤ 59`,
`SS ≤ 59` and `HH * 3600 + MM * 60 + SS = (ms + 1) / 1000` rounded down. -/
theorem timestamp_rendering (env : Env) (f : DBFFIELD) (bufoffset : List Nat) (d ms : Int)
    (hT : f.type = 84) (hd : slittleint32_t bufoffset = d)
    (hms : slittleint32_t (bufoffset.drop 4) = ms) (h0 : 0 ≤ ms) (h1 : ms < 86399999) :
    (d = 0 ∧ ms = 0 → fieldValue env f bufoffset = ([.value (str "NULL")], none)) ∧
    (fieldValue env f bufoffset ≠ ([.value (str "NULL")], none) →
      ∃ HH MM SS : Nat, HH ≤ 23 ∧ MM ≤ 59 ∧ SS ≤ 59 ∧
        ((HH * 3600 + MM * 60 + SS : Nat) : Int) = (ms + 1) / 1000 ∧
        fieldValue env f bufoffset =
          ([.value ([39, 74] ++ printfD d ++ [32] ++ twoDigits HH ++ [58] ++ twoDigits MM
            ++ [58] ++ twoDigits SS ++ [39])], none)) := by
  obtain ⟨s, hs⟩ : ∃ s : Nat, (s : Int) = (ms + 1) / 1000 := ⟨((ms + 1) / 1000).toNat, by omega⟩
  have hlt : s < 86400 := by omega
  have hsec : Int.tdiv (toInt32 (slittleint32_t (bufoffset.drop 4) + 1)) 1000 = (s : Int) := by
    have e : toInt32 (ms + 1) = ms + 1 := by unfold toInt32; omega
    rw [hms, e, Int.tdiv_eq_ediv (by omega) (by omega), hs]
  rw [fieldValue_timestamp env f bufoffset hT,
    timestampValue_of_seconds bufoffset d s hd hsec (by omega)]
  constructor
  · intro h
    have hz : s = 0 := by omega
    rw [if_pos ⟨h.1, hz⟩]
  · intro hne
    by_cases hc : d = 0 ∧ s = 0
    · rw [if_pos hc] at hne; exact absurd rfl hne
    · rw [if_neg hc]
      exact ⟨s / 3600, s % 3600 / 60, s % 60, by omega, by omega, by omega, by omega, rfl⟩

/-- Witness of C21 as amended: Julian day 2451545 and 45296788 milliseconds. -/
theorem timestamp_rendering_witness :
    (((2451545 : Int) = 0 ∧ (45296788 : Int) = 0 →
      fieldValue sampleEnv ⟨[116], 84, 8, 0⟩ [89, 104, 37, 0, 148, 44, 179, 2] =
        ([.value (str "NULL")], none)) ∧
    (fieldValue sampleEnv ⟨[116], 84, 8, 0⟩ [89, 104, 37, 0, 148, 44, 179, 2] ≠
        ([.value (str "NULL")], none) →
      ∃ HH MM SS : Nat, HH ≤ 23 ∧ MM ≤ 59 ∧ SS ≤ 59 ∧
        ((HH * 3600 + MM * 60 + SS : Nat) : Int) = (45296788 + 1) / 1000 ∧
        fieldValue sampleEnv ⟨[116], 84, 8, 0⟩ [89, 104, 37, 0, 148, 44, 179, 2] =
          ([.value ([39, 74] ++ printfD 2451545 ++ [32] ++ twoDigits HH ++ [58]
            ++ twoDigits MM ++ [58] ++ twoDigits SS ++ [39])], none))) :=
  timestamp_rendering sampleEnv ⟨[116], 84, 8, 0⟩ [89, 104, 37, 0, 148, 44, 179, 2]
    2451545 45296788 rfl (by decide) (by decide) (by decide) (by decide)

/-- The values of C21 evaluated: Julian day 2451545 with 45296788 milliseconds
prints as `J2451545 12:34:56` between quotes, eight zero bytes print as
`NULL`. -/
theorem timestamp_examples :
    fieldValue sampleEnv ⟨[116], 84, 8, 0⟩ [89, 104, 37, 0, 148, 44, 179, 2] =
      ([.value (str "'J2451545 12:34:56'")], none) ∧
    fieldValue sampleEnv ⟨[116], 84, 8, 0⟩ [0, 0, 0, 0, 0, 0, 0, 0] =
      ([.value (str "NULL")], none) := by
  decide

/-! ## The index statements and the separators of a record -/

/-- C22: the code at the failing input.  With the index columns `a-` and `-b`
the identifier printed for `-b` is `b`: the flag `lastcharwasreplaced` is
still set from the `-` that ends the argument before.  Given alone, `-b` gets
the identifier `_b`. -/
theorem index_identifier_depends_on_previous_argument :
    run (fun _ _ => []) (str "t") none [str "a-", str "-b"] emptyTableFile =
      { out := [.begin, .dropTable (str "t"), .createOpen (str "t"), .colName [99],
          .colType (str "TEXT(2)"), .createClose, .commit,
          .createIndex (str "t") (str "a_") (str "a-"),
          .createIndex (str "t") (str "b") (str "-b")],
        exit := .success } ∧
    run (fun _ _ => []) (str "t") none [str "-b"] emptyTableFile =
      { out := [.begin, .dropTable (str "t"), .createOpen (str "t"), .colName [99],
          .colType (str "TEXT(2)"), .createClose, .commit,
          .createIndex (str "t") (str "_b") (str "-b")],
        exit := .success } ∧
    renderAll [.createIndex (str "t") (str "b") (str "-b")] =
      str "CREATE INDEX t_b ON t(-b);\n" := by
  decide

theorem count_valSep_fieldValue (env : Env) (f : DBFFIELD) (bufoffset : List Nat) :
    List.count Out.valSep (fieldValue env f bufoffset).1 = 0 := by
  rcases fieldValue_cases env f bufoffset with ⟨v, hv⟩ | hv | hv <;> rw [hv] <;> rfl

theorem nonSkipped_cons_skip (f : DBFFIELD) (fs : List DBFFIELD) (h : f.type = 48) :
    nonSkipped (f :: fs) = nonSkipped fs := by
  simp [nonSkipped, h]

theorem nonSkipped_cons (f : DBFFIELD) (fs : List DBFFIELD) (h : f.type ≠ 48) :
    nonSkipped (f :: fs) = nonSkipped fs + 1 := by
  simp [nonSkipped, h]

theorem fieldLoop_separators (env : Env) (fields : List DBFFIELD) :
    ∀ (fieldnum : Nat) (bufoffset : List Nat), fieldnum ≠ 0 →
    (fieldLoop env fields fieldnum bufoffset).2 = none →
    List.count Out.valSep (fieldLoop env fields fieldnum bufoffset).1 = nonSkipped fields := by
  induction fields with
  | nil => intro fieldnum bufoffset _ _; rfl
  | cons f fs ih =>
    intro fieldnum bufoffset hn hok
    by_cases h48 : f.type = 48
    · rw [fieldLoop_cons_skip env f fs fieldnum bufoffset h48] at hok ⊢
      rw [nonSkipped_cons_skip f fs h48]
      exact ih _ _ (by omega) hok
    · rw [fieldLoop_cons env f fs fieldnum bufoffset h48] at hok ⊢
      obtain ⟨_, h2, h3⟩ := andThen_exit_none hok
      simp only [h3, if_pos hn, List.count_append, count_valSep_fieldValue,
        ih _ _ (Nat.succ_ne_zero fieldnum) h2, nonSkipped_cons f fs h48]
      simp [List.count_cons]
      omega

/-- C23: the code against the claim.  For every schema and every record that
is not deleted and whose values are all printed, the number of separators in
the `VALUES` list is the number `c` of fields of a type other than `'0'`
when descriptor 0 has type `'0'`, and `c - 1` only when it has not: the test
`if(fieldnum)` separates by position in the descriptor array, not by what
has been printed. -/
theorem leading_skipped_field_adds_separator (env : Env) (f0 : DBFFIELD)
    (fs : List DBFFIELD) (bufoffset : List Nat) (h0 : bufoffset.getD 0 0 ≠ 42)
    (hok : (recordOut env (f0 :: fs) bufoffset).2 = none) :
    List.count Out.valSep (recordOut env (f0 :: fs) bufoffset).1 =
      if f0.type = 48 then nonSkipped (f0 :: fs) else nonSkipped (f0 :: fs) - 1 := by
  unfold recordOut at hok ⊢
  rw [if_neg h0] at hok ⊢
  rw [andThen_pure] at hok ⊢
  obtain ⟨h1, _, h3⟩ := andThen_exit_none hok
  simp only [h3]
  have hc : List.count Out.valSep
      ([Out.insertOpen env.tablename] ++ ((fieldLoop env (f0 :: fs) 0 (bufoffset.drop 1)).1
        ++ ([Out.insertClose], (none : Option Exit)).1)) =
      List.count Out.valSep (fieldLoop env (f0 :: fs) 0 (bufoffset.drop 1)).1 := by
    simp [List.count_append, List.count_cons]
  rw [hc]
  by_cases h48 : f0.type = 48
  · rw [if_pos h48]
    rw [fieldLoop_cons_skip env f0 fs 0 _ h48] at h1 ⊢
    rw [nonSkipped_cons_skip f0 fs h48]
    exact fieldLoop_separators env fs 1 _ (by omega) h1
  · rw [if_neg h48]
    rw [fieldLoop_cons env f0 fs 0 _ h48] at h1 ⊢
    obtain ⟨_, h2, h4⟩ := andThen_exit_none h1
    simp only [h4, List.count_append, count_valSep_fieldValue,
      fieldLoop_separators env fs 1 _ (by omega) h2, nonSkipped_cons f0 fs h48]
    simp

/-- Witness of C23: the schema of a type `'0'` field of length 1 followed by
a type C field of length 2, and the record of a space, `X`, `a`, `b`. -/
theorem leading_skipped_field_adds_separator_witness :
    List.count Out.valSep
        (recordOut sampleEnv (⟨[122], 48, 1, 0⟩ :: [⟨[99], 67, 2, 0⟩]) [32, 88, 97, 98]).1 =
      if (⟨[122], 48, 1, 0⟩ : DBFFIELD).type = 48
      then nonSkipped (⟨[122], 48, 1, 0⟩ :: [⟨[99], 67, 2, 0⟩])
      else nonSkipped (⟨[122], 48, 1, 0⟩ :: [⟨[99], 67, 2, 0⟩]) - 1 :=
  leading_skipped_field_adds_separator sampleEnv ⟨[122], 48, 1, 0⟩ [⟨[99], 67, 2, 0⟩]
    [32, 88, 97, 98] (by decide) (by decide)

/-- The input of C23 evaluated: one column in `CREATE TABLE`, and an `INSERT`
whose value list starts with a separator. -/
theorem leading_skipped_field_example :
    nonSkipped [⟨[122], 48, 1, 0⟩, ⟨[99], 67, 2, 0⟩] = 1 ∧
    recordOut sampleEnv [⟨[122], 48, 1, 0⟩, ⟨[99], 67, 2, 0⟩] [32, 88, 97, 98] =
      ([.insertOpen (str "t"), .valSep, .value (str "'Xa'"), .insertClose], none) ∧
    renderAll [.insertOpen (str "t"), .valSep, .value (str "'Xa'"), .insertClose] =
      str "INSERT INTO t VALUES(,'Xa');\n" ∧
    schemaLoop sampleEnv [⟨[122], 48, 1, 0⟩, ⟨[99], 67, 2, 0⟩] false =
      ([.colName [99], .colType (str "TEXT(2)")], none) := by
  decide

/-! ## The target buffer of `safeprintbuf` -/

/-- C24: the code against the claim.  For every input whose trimmed length
`r` is at least 2^30 and below 2^31, the `int` product `realsize * 2` is
negative, so the static buffer of `STATICBUFFERSIZE + 1 = 1048577` bytes is
selected, while the escape loop stores at least `r` bytes: the bytes stored
do not fit the buffer. -/
theorem escape_buffer_overrun (buf : List Nat) (inputsize lastchar : Nat)
    (h : scanRight buf inputsize = some lastchar) (hlo : 1073741824 ≤ lastchar + 1)
    (hhi : lastchar + 1 < 2147483648) :
    toInt32 (realsize lastchar * 2) < 0 ∧
    targetbufSize (realsize lastchar) = 1048577 ∧
    lastchar + 1 ≤ (escapeLoop (buf.take (lastchar + 1))).length ∧
    targetbufSize (realsize lastchar) < (targetbufStored buf lastchar).length := by
  obtain ⟨h1, _, h3⟩ := targetbufStored_length buf inputsize lastchar h
  have e1 : realsize lastchar = ((lastchar + 1 : Nat) : Int) := by
    unfold realsize toInt32; omega
  have e2 : toInt32 (((lastchar + 1 : Nat) : Int) * 2) < 0 := by
    unfold toInt32; omega
  have e3 : targetbufSize (realsize lastchar) = 1048577 := by
    unfold targetbufSize
    rw [e1, if_pos (by unfold STATICBUFFERSIZE; omega)]
    rfl
  refine ⟨by rw [e1]; exact e2, e3, h1, ?_⟩
  rw [e3, h3]
  omega

/-- Witness of C24: a buffer of 2^30 bytes `a`. -/
theorem escape_buffer_overrun_witness :
    toInt32 (realsize 1073741823 * 2) < 0 ∧
    targetbufSize (realsize 1073741823) = 1048577 ∧
    1073741823 + 1 ≤
      (escapeLoop ((List.replicate (1073741823 + 1) 97).take (1073741823 + 1))).length ∧
    targetbufSize (realsize 1073741823) <
      (targetbufStored (List.replicate (1073741823 + 1) 97) 1073741823).length :=
  escape_buffer_overrun (List.replicate (1073741823 + 1) 97) (1073741823 + 1) 1073741823
    (scanRight_replicate 1073741823) (by decide) (by decide)

end Sqlite3Dbf
